import Mathlib

/-!
# telepathy-glib: channel requests, name-owner watches, pending messages

A shallow embedding of

* `telepathy-glib/account-channel-request.c` (`TpAccountChannelRequest`),
* the name-owner watch table of `telepathy-glib/dbus.c` (`TpDBusDaemon`),
* the pending-message queue of `src/text-mixin.c` (`TpTextMixin`),
* the status handling of `telepathy-glib/connection.c` (`TpConnection`),
* the clean-up step of `telepathy-logger/channel-text.c` (`TplChannelText`), and
* the `tp_asv_get_*` lookups and the syntax checks of `telepathy-glib/dbus.c`,

followed by theorems about the embedded functions.

Conventions of the embedding.

* A GObject instance is a record of its private fields; a C function that
  mutates `self` becomes a function from the record to the new record.
* Calls that leave the file (D-Bus method calls, signal emission, completion of
  a `GSimpleAsyncResult`, `g_return_if_fail` criticals) are appended to a
  `trace` carried by the record, in program order.
* `g_assert` failure aborts the process: functions that can reach a `g_assert`
  return `Except Fault _`.
* Results of library calls that the file cannot determine (does registering the
  handler succeed, is the delivered channel still valid) are arguments.
-/

set_option autoImplicit false

namespace Tp

/-! ## GLib error values -/

/-- An error domain (a `GQuark`). Distinct domains are distinct quarks; the three
domains the file names are constructors, every other domain is `other q`. -/
inductive GQuark where
  | TP_ERRORS
  | TP_DBUS_ERRORS
  | G_IO_ERROR
  | other (q : Nat)
  deriving DecidableEq, Repr

/-- The `GError` struct: `{ domain, code, message }`. -/
structure GError where
  domain : GQuark
  code : Int
  message : String
  deriving DecidableEq, Repr

/-- `TP_ERROR_INVALID_ARGUMENT` of the `TpError` enumeration (errors.h). -/
def TP_ERROR_INVALID_ARGUMENT : Int := 2

/-- `TP_ERROR_NOT_YOURS` of the `TpError` enumeration (errors.h). -/
def TP_ERROR_NOT_YOURS : Int := 10

/-- `TP_DBUS_ERROR_OBJECT_REMOVED` of the `TpDBusError` enumeration (proxy.h). -/
def TP_DBUS_ERROR_OBJECT_REMOVED : Int := 8

/-- `G_IO_ERROR_CANCELLED` of the `GIOErrorEnum` enumeration (gioenums.h). -/
def G_IO_ERROR_CANCELLED : Int := 19

/-- `g_error_matches (error, domain, code)`: domain and code agree (the message
is not compared). -/
def g_error_matches (error : GError) (domain : GQuark) (code : Int) : Bool :=
  decide (error.domain = domain) && decide (error.code = code)

end Tp

namespace Acr

open Tp

/-! ## GLib and telepathy-glib types used by account-channel-request.c -/

/-- A `GCancellable`; `cancelled` is what `g_cancellable_is_cancelled` reads. -/
structure GCancellable where
  id : Nat
  cancelled : Bool
  deriving DecidableEq, Repr

/-- `g_cancellable_is_cancelled (cancellable)`: `FALSE` for `NULL`. -/
def g_cancellable_is_cancelled (cancellable : Option GCancellable) : Bool :=
  match cancellable with
  | none => false
  | some c => c.cancelled

/-- The four public `_async` entry points, used as the source tag of the
`GSimpleAsyncResult`. -/
inductive SourceTag where
  | create_and_handle_channel_async
  | ensure_and_handle_channel_async
  | create_channel_async
  | ensure_channel_async
  deriving DecidableEq, Repr

/-- A `GSimpleAsyncResult`: the caller's callback and user data, the source tag,
and the error set by `g_simple_async_result_set_from_error` (if any). -/
structure GSimpleAsyncResult where
  callback : Nat
  user_data : Nat
  source_tag : SourceTag
  error : Option GError
  deriving DecidableEq, Repr

/-- A `TpChannel` proxy: its object path and `tp_proxy_get_invalidated`. -/
structure TpChannel where
  object_path : String
  invalidated : Option GError
  deriving DecidableEq, Repr

/-- `tp_proxy_get_invalidated (channel)`. -/
def tp_proxy_get_invalidated (channel : TpChannel) : Option GError :=
  channel.invalidated

/-- A `TpAccount` proxy: object path and the `TpDBusDaemon` it lives on. -/
structure TpAccount where
  object_path : String
  dbus_daemon : Nat
  deriving DecidableEq, Repr

/-- The temporary `TpSimpleHandler` built by `request_and_handle_channel_async`. -/
structure TpBaseClient where
  bus_name : String
  only_for_account : String
  channel_factory : Option Nat
  registered : Bool
  deriving DecidableEq, Repr

/-- A `TpChannelRequest` proxy (the dispatcher's per-request object). -/
structure TpChannelRequest where
  object_path : String
  deriving DecidableEq, Repr

/-- The request properties (`a{sv}`), kept opaque: key and printed value. -/
abbrev Asv := List (String × String)

/-- The calls that leave account-channel-request.c, in the order made. -/
inductive Effect where
  /-- A failed `g_return_if_fail (expr)`: a critical is logged, the function returns. -/
  | critical (expr : String)
  /-- The calls `g_simple_async_report_error_in_idle` and
  `g_simple_async_report_gerror_in_idle`: the callback is called from idle with a
  result holding the error. -/
  | report_error_in_idle (callback user_data : Nat) (error : GError)
  /-- The call `tp_base_client_register (handler)`; `ok` is its return value. -/
  | base_client_register (bus_name : String) (ok : Bool)
  /-- The call `tp_cli_channel_dispatcher_call_ensure_channel`. -/
  | call_ensure_channel (account : String) (request : Asv) (user_action_time : Int)
      (preferred_handler : String)
  /-- The call `tp_cli_channel_dispatcher_call_create_channel`. -/
  | call_create_channel (account : String) (request : Asv) (user_action_time : Int)
      (preferred_handler : String)
  /-- The call `tp_cli_channel_request_call_proceed`. -/
  | call_proceed (chan_request : String)
  /-- The call `tp_cli_channel_request_call_cancel`. -/
  | call_cancel (chan_request : String)
  /-- The call `g_simple_async_result_complete (result)`: the caller's callback
  runs with this result. -/
  | async_result_complete (result : GSimpleAsyncResult)
  /-- The call `tp_handle_channels_context_accept (context)`. -/
  | context_accept (context : Nat)
  /-- The call `tp_handle_channels_context_fail (context, error)`. -/
  | context_fail (context : Nat) (error : GError)
  /-- Emission of the `re-handled` signal with `(channel, user_action_time, context)`. -/
  | emit_re_handled (channel : Option TpChannel) (user_action_time : Int) (context : Nat)
  /-- Connection of `acr_channel_invalidated_cb` to the channel (`g_signal_connect`). -/
  | connect_channel_invalidated (channel : String)
  /-- The call `g_signal_handler_disconnect (chan_request, invalidated_sig)`. -/
  | signal_handler_disconnect (chan_request : String) (id : Nat)
  deriving DecidableEq, Repr

/-- A failed `g_assert (expr)`: the process aborts. -/
inductive Fault where
  | assertion_failed (expr : String)
  deriving DecidableEq, Repr

/-- The struct `_TpAccountChannelRequestPrivate`, with the object's reference
count (`ref_count`) and the trace of outgoing calls. -/
structure TpAccountChannelRequest where
  account : TpAccount
  request : Asv
  user_action_time : Int
  handler : Option TpBaseClient
  ensure : Bool
  cancellable : Option GCancellable
  result : Option GSimpleAsyncResult
  chan_request : Option TpChannelRequest
  invalidated_sig : Nat
  cancel_id : Nat
  channel : Option TpChannel
  handle_context : Option Nat
  dbus : Nat
  factory : Option Nat
  requested : Bool
  should_handle : Bool
  ref_count : Nat
  trace : List Effect
  deriving DecidableEq, Repr

/-- Append one outgoing call to the trace. -/
def TpAccountChannelRequest.emit (self : TpAccountChannelRequest) (e : Effect) :
    TpAccountChannelRequest :=
  { self with trace := self.trace ++ [e] }

/-- The function `tp_account_channel_request_new`: both `g_return_val_if_fail`
guards (`TP_IS_ACCOUNT (account)`, `request != NULL`), then `g_object_new`, whose
private struct is zero-filled apart from the three construct properties and the
`dbus` set by `tp_account_channel_request_constructed`. -/
def tp_account_channel_request_new (account : Option TpAccount) (request : Option Asv)
    (user_action_time : Int) : Option TpAccountChannelRequest :=
  match account with
  | none => none
  | some account =>
    match request with
    | none => none
    | some request =>
      some
        { account := account
          request := request
          user_action_time := user_action_time
          handler := none
          ensure := false
          cancellable := none
          result := none
          chan_request := none
          invalidated_sig := 0
          cancel_id := 0
          channel := none
          handle_context := none
          dbus := account.dbus_daemon
          factory := none
          requested := false
          should_handle := false
          ref_count := 1
          trace := [] }

/-- The function `request_disconnect`. -/
def request_disconnect (self : TpAccountChannelRequest) :
    Except Fault TpAccountChannelRequest :=
  if self.invalidated_sig = 0 then
    pure self
  else
    match self.chan_request with
    | none => throw (Fault.assertion_failed "self->priv->chan_request != NULL")
    | some cr =>
      pure { self.emit (Effect.signal_handler_disconnect cr.object_path self.invalidated_sig)
             with invalidated_sig := 0 }

/-- The function `complete_result`. -/
def complete_result (self : TpAccountChannelRequest) :
    Except Fault TpAccountChannelRequest :=
  match self.result with
  | none => throw (Fault.assertion_failed "self->priv->result != NULL")
  | some r =>
    match request_disconnect self with
    | Except.error f => throw f
    | Except.ok self => pure { self.emit (Effect.async_result_complete r) with result := none }

/-- The function `request_fail`. With `result == NULL`,
`g_simple_async_result_set_from_error` fails its own `g_return_if_fail` (a
critical) and `complete_result` is still called. -/
def request_fail (self : TpAccountChannelRequest) (error : GError) :
    Except Fault TpAccountChannelRequest :=
  match self.result with
  | none =>
    complete_result (self.emit (Effect.critical "G_IS_SIMPLE_ASYNC_RESULT (simple)"))
  | some r =>
    complete_result { self with result := some { r with error := some error } }

/-- The function `handle_request_complete`. -/
def handle_request_complete (self : TpAccountChannelRequest) (channel : TpChannel)
    (handle_context : Nat) : Except Fault TpAccountChannelRequest :=
  complete_result { self with channel := some channel, handle_context := some handle_context }

/-- The function `acr_channel_invalidated_cb`: `g_object_unref (self)`. -/
def acr_channel_invalidated_cb (self : TpAccountChannelRequest) : TpAccountChannelRequest :=
  { self with ref_count := self.ref_count - 1 }

/-- The local `GError error` of `handle_channels`. -/
def invalid_argument_error : GError :=
  ⟨GQuark.TP_ERRORS, TP_ERROR_INVALID_ARGUMENT, "We are supposed to handle only one channel"⟩

/-- The local `GError err` of `channel_request_succeeded`. -/
def not_yours_error : GError :=
  ⟨GQuark.TP_ERRORS, TP_ERROR_NOT_YOURS, "Another Handler is handling this channel"⟩

/-- The error both request functions report when the cancellable is already
cancelled. -/
def cancelled_error : GError :=
  ⟨GQuark.G_IO_ERROR, G_IO_ERROR_CANCELLED, "Operation has been cancelled"⟩

/-- The function `handle_channels`, the callback of the temporary handler. -/
def handle_channels (self : TpAccountChannelRequest) (channels : List TpChannel)
    (user_action_time : Int) (context : Nat) : Except Fault TpAccountChannelRequest :=
  match channels with
  | [channel] =>
    let self := self.emit (Effect.context_accept context)
    match self.result with
    | none =>
      -- We are re-handling the channel, no async request to complete
      pure (self.emit (Effect.emit_re_handled self.channel user_action_time context))
    | some _ =>
      -- Request succeeded
      let self :=
        match tp_proxy_get_invalidated channel with
        | none =>
          { self.emit (Effect.connect_channel_invalidated channel.object_path)
            with ref_count := self.ref_count + 1 }
        | some _ => self
      handle_request_complete self channel context
  | _ =>
    let error : GError := invalid_argument_error
    request_fail (self.emit (Effect.context_fail context error)) error

/-- The function `channel_request_succeeded`. -/
def channel_request_succeeded (self : TpAccountChannelRequest) :
    Except Fault TpAccountChannelRequest :=
  if self.should_handle then
    let err : GError := not_yours_error
    match self.result with
    | none => pure self  -- Our handler has been called, all good
    | some _ => request_fail self err
  else
    -- We don't have to handle the channel so we're done
    complete_result self

/-- The function `acr_channel_request_proceed_cb`; `error` is `NULL` (`none`) on
success. -/
def acr_channel_request_proceed_cb (self : TpAccountChannelRequest) (error : Option GError) :
    Except Fault TpAccountChannelRequest :=
  match error with
  | some error => request_fail self error
  | none => pure self

/-- The function `acr_channel_request_invalidated_cb`, the handler of the request
object's `invalidated` signal. -/
def acr_channel_request_invalidated_cb (self : TpAccountChannelRequest) (domain : GQuark)
    (code : Int) (message : String) : Except Fault TpAccountChannelRequest :=
  let error : GError := ⟨domain, code, message⟩
  if g_error_matches error GQuark.TP_DBUS_ERRORS TP_DBUS_ERROR_OBJECT_REMOVED then
    -- Object has been removed without error, so ChannelRequest succeeded
    channel_request_succeeded self
  else
    request_fail self error

/-- The function `acr_channel_request_cancel_cb`: nothing is done either way. -/
def acr_channel_request_cancel_cb (self : TpAccountChannelRequest) (_error : Option GError) :
    TpAccountChannelRequest :=
  self

/-- The function `acr_operation_cancelled_cb`. -/
def acr_operation_cancelled_cb (self : TpAccountChannelRequest) : TpAccountChannelRequest :=
  match self.chan_request with
  | none => self
  | some cr => self.emit (Effect.call_cancel cr.object_path)

/-- The function `acr_request_cb`, the reply to CreateChannel/EnsureChannel.
`error` is the reply's error (`NULL` = `none`); `new_error` is the error of
`tp_channel_request_new`, `none` when it returns a proxy; `sig_id` and `cancel_id`
number the handlers returned by `g_signal_connect` and `g_cancellable_connect`
(both non-zero, hence the successor). `g_cancellable_connect` runs the callback at
once and returns 0 when the cancellable is already cancelled. -/
def acr_request_cb (self : TpAccountChannelRequest) (channel_request_path : String)
    (error : Option GError) (new_error : Option GError) (sig_id cancel_id : Nat) :
    Except Fault TpAccountChannelRequest :=
  match error with
  | some error => request_fail self error
  | none =>
    match new_error with
    | some err => request_fail { self with chan_request := none } err
    | none =>
      let self := { self with chan_request := some ⟨channel_request_path⟩ }
      let self := { self with invalidated_sig := sig_id + 1 }
      match self.cancellable with
      | some c =>
        if c.cancelled then
          -- We just aborted the operation so we're done
          pure { acr_operation_cancelled_cb self with cancel_id := 0 }
        else
          pure ({ self with cancel_id := cancel_id + 1 }.emit
            (Effect.call_proceed channel_request_path))
      | none => pure (self.emit (Effect.call_proceed channel_request_path))

/-- The function `request_and_handle_channel_async`. `bus_name` is the unique bus
name of the temporary handler made by `tp_simple_handler_new`; `register_error` is
the error of `tp_base_client_register`, `none` when it succeeds. -/
def request_and_handle_channel_async (self : TpAccountChannelRequest)
    (cancellable : Option GCancellable) (callback user_data : Nat) (ensure : Bool)
    (bus_name : String) (register_error : Option GError) : TpAccountChannelRequest :=
  if self.requested then
    self.emit (Effect.critical "!self->priv->requested")
  else
    let self := { self with requested := true }
    let self := { self with should_handle := true }
    if g_cancellable_is_cancelled cancellable then
      self.emit (Effect.report_error_in_idle callback user_data cancelled_error)
    else
      let self :=
        match cancellable with
        | some c => { self with cancellable := some c }
        | none => self
      let self := { self with ensure := ensure }
      -- Create a temp handler
      let handler : TpBaseClient := ⟨bus_name, self.account.object_path, self.factory, false⟩
      let self := { self with handler := some handler }
      match register_error with
      | some error =>
        (self.emit (Effect.base_client_register bus_name false)).emit
          (Effect.report_error_in_idle callback user_data error)
      | none =>
        let self :=
          { self.emit (Effect.base_client_register bus_name true)
            with handler := some { handler with registered := true } }
        if ensure then
          { self with
              result := some ⟨callback, user_data, SourceTag.ensure_and_handle_channel_async, none⟩
            }.emit
            (Effect.call_ensure_channel self.account.object_path self.request
              self.user_action_time bus_name)
        else
          { self with
              result := some ⟨callback, user_data, SourceTag.create_and_handle_channel_async, none⟩
            }.emit
            (Effect.call_create_channel self.account.object_path self.request
              self.user_action_time bus_name)

/-- The function `tp_account_channel_request_create_and_handle_channel_async`. -/
def tp_account_channel_request_create_and_handle_channel_async
    (self : TpAccountChannelRequest) (cancellable : Option GCancellable)
    (callback user_data : Nat) (bus_name : String) (register_error : Option GError) :
    TpAccountChannelRequest :=
  request_and_handle_channel_async self cancellable callback user_data false bus_name
    register_error

/-- The function `tp_account_channel_request_ensure_and_handle_channel_async`. -/
def tp_account_channel_request_ensure_and_handle_channel_async
    (self : TpAccountChannelRequest) (cancellable : Option GCancellable)
    (callback user_data : Nat) (bus_name : String) (register_error : Option GError) :
    TpAccountChannelRequest :=
  request_and_handle_channel_async self cancellable callback user_data true bus_name
    register_error

/-- The function `request_channel_async` (the request-and-forget API). -/
def request_channel_async (self : TpAccountChannelRequest) (preferred_handler : Option String)
    (cancellable : Option GCancellable) (callback user_data : Nat) (ensure : Bool) :
    TpAccountChannelRequest :=
  if self.requested then
    self.emit (Effect.critical "!self->priv->requested")
  else
    let self := { self with requested := true }
    let self := { self with should_handle := false }
    if g_cancellable_is_cancelled cancellable then
      self.emit (Effect.report_error_in_idle callback user_data cancelled_error)
    else
      let self :=
        match cancellable with
        | some c => { self with cancellable := some c }
        | none => self
      let self := { self with ensure := ensure }
      if ensure then
        { self with result := some ⟨callback, user_data, SourceTag.ensure_channel_async, none⟩
          }.emit
          (Effect.call_ensure_channel self.account.object_path self.request
            self.user_action_time (preferred_handler.getD ""))
      else
        { self with result := some ⟨callback, user_data, SourceTag.create_channel_async, none⟩
          }.emit
          (Effect.call_create_channel self.account.object_path self.request
            self.user_action_time (preferred_handler.getD ""))

/-- The function `tp_account_channel_request_create_channel_async`. -/
def tp_account_channel_request_create_channel_async (self : TpAccountChannelRequest)
    (preferred_handler : Option String) (cancellable : Option GCancellable)
    (callback user_data : Nat) : TpAccountChannelRequest :=
  request_channel_async self preferred_handler cancellable callback user_data false

/-- The function `tp_account_channel_request_ensure_channel_async`. -/
def tp_account_channel_request_ensure_channel_async (self : TpAccountChannelRequest)
    (preferred_handler : Option String) (cancellable : Option GCancellable)
    (callback user_data : Nat) : TpAccountChannelRequest :=
  request_channel_async self preferred_handler cancellable callback user_data true

/-- The function `tp_account_channel_request_set_channel_factory`. -/
def tp_account_channel_request_set_channel_factory (self : TpAccountChannelRequest)
    (factory : Nat) : TpAccountChannelRequest :=
  if self.requested then
    self.emit (Effect.critical "!self->priv->requested")
  else
    { self with factory := some factory }

/-! ## The object driven by its callers and by the main loop -/

/-- The arguments of one call of a public `_async` method, with the two results
the temporary handler's construction and registration produce (used by the
`_and_handle_` methods only; `preferred_handler` is used by the other two). -/
structure CallArgs where
  preferred_handler : Option String
  cancellable : Option GCancellable
  callback : Nat
  user_data : Nat
  bus_name : String
  register_error : Option GError
  deriving DecidableEq, Repr

/-- One call of the public `_async` method named by `m`. -/
def request_method (m : SourceTag) (self : TpAccountChannelRequest) (a : CallArgs) :
    TpAccountChannelRequest :=
  match m with
  | SourceTag.create_and_handle_channel_async =>
    tp_account_channel_request_create_and_handle_channel_async self a.cancellable a.callback
      a.user_data a.bus_name a.register_error
  | SourceTag.ensure_and_handle_channel_async =>
    tp_account_channel_request_ensure_and_handle_channel_async self a.cancellable a.callback
      a.user_data a.bus_name a.register_error
  | SourceTag.create_channel_async =>
    tp_account_channel_request_create_channel_async self a.preferred_handler a.cancellable
      a.callback a.user_data
  | SourceTag.ensure_channel_async =>
    tp_account_channel_request_ensure_channel_async self a.preferred_handler a.cancellable
      a.callback a.user_data

/-- What can happen to a `TpAccountChannelRequest`: a call of one of its methods,
or the main loop running one of the callbacks the file registered. -/
inductive Event where
  /-- A call of a public `_async` method. -/
  | request (m : SourceTag) (a : CallArgs)
  /-- A call of `tp_account_channel_request_set_channel_factory`. -/
  | set_channel_factory (factory : Nat)
  /-- HandleChannels arrives at the temporary handler. -/
  | handle_channels (channels : List TpChannel) (user_action_time : Int) (context : Nat)
  /-- The request object emits `invalidated (domain, code, message)`. -/
  | request_invalidated (domain : GQuark) (code : Int) (message : String)
  /-- The reply to CreateChannel/EnsureChannel (arguments as in `acr_request_cb`). -/
  | request_reply (channel_request_path : String) (error : Option GError)
      (new_error : Option GError) (sig_id cancel_id : Nat)
  /-- The reply to ChannelRequest.Proceed(). -/
  | proceed_reply (error : Option GError)
  /-- The reply to ChannelRequest.Cancel(). -/
  | cancel_reply (error : Option GError)
  /-- The caller cancels the `GCancellable` it passed. -/
  | operation_cancelled
  /-- The delivered channel emits `invalidated`. -/
  | channel_invalidated
  deriving DecidableEq, Repr

/-- Delivery of one event. A callback runs only while its registration is live:
`handle_channels` needs the temporary handler to be registered, the request
object's `invalidated` handler runs only while `invalidated_sig` is connected,
and the cancellable's handler only while `cancel_id` is connected and the
cancellable has not fired before. -/
def deliver (self : TpAccountChannelRequest) (ev : Event) :
    Except Fault TpAccountChannelRequest :=
  match ev with
  | Event.request m a => pure (request_method m self a)
  | Event.set_channel_factory f => pure (tp_account_channel_request_set_channel_factory self f)
  | Event.handle_channels channels user_action_time context =>
    match self.handler with
    | some h =>
      if h.registered then handle_channels self channels user_action_time context
      else pure self
    | none => pure self
  | Event.request_invalidated domain code message =>
    if self.invalidated_sig = 0 then pure self
    else acr_channel_request_invalidated_cb self domain code message
  | Event.request_reply path error new_error sig_id cancel_id =>
    acr_request_cb self path error new_error sig_id cancel_id
  | Event.proceed_reply error => acr_channel_request_proceed_cb self error
  | Event.cancel_reply error => pure (acr_channel_request_cancel_cb self error)
  | Event.operation_cancelled =>
    match self.cancellable with
    | none => pure self
    | some c =>
      if c.cancelled then pure self
      else
        let self := { self with cancellable := some { c with cancelled := true } }
        if self.cancel_id = 0 then pure self
        else pure (acr_operation_cancelled_cb self)
  | Event.channel_invalidated => pure (acr_channel_invalidated_cb self)

/-- Delivery of a sequence of events, in order; a failed `g_assert` ends the run. -/
def run (self : TpAccountChannelRequest) : List Event → Except Fault TpAccountChannelRequest
  | [] => pure self
  | ev :: rest =>
    match deliver self ev with
    | Except.error f => throw f
    | Except.ok self => run self rest

/-- The trace entries `request_disconnect` adds: the disconnection of the
request object's `invalidated` handler, if it is connected. -/
def disconnect_trace (self : TpAccountChannelRequest) : List Effect :=
  if self.invalidated_sig = 0 then []
  else
    match self.chan_request with
    | none => []
    | some cr => [Effect.signal_handler_disconnect cr.object_path self.invalidated_sig]

/-- The state after the pending result `r` has been completed: the handler of the
request object is disconnected, `r` has been passed to
`g_simple_async_result_complete` and `priv->result` is cleared. -/
def completed (self : TpAccountChannelRequest) (r : GSimpleAsyncResult) :
    TpAccountChannelRequest :=
  { self with
    result := none
    invalidated_sig := 0
    trace := self.trace ++ disconnect_trace self ++ [Effect.async_result_complete r] }

/-- The state never has the request object's handler connected without a
request object (`request_disconnect` asserts this). -/
def Connected_ok (self : TpAccountChannelRequest) : Prop :=
  self.invalidated_sig ≠ 0 → self.chan_request ≠ none

/-- The calls that reach another process: handler registration and the D-Bus
method calls. -/
def Effect.is_remote_call : Effect → Bool
  | Effect.base_client_register _ _ => true
  | Effect.call_ensure_channel _ _ _ _ => true
  | Effect.call_create_channel _ _ _ _ => true
  | Effect.call_proceed _ => true
  | Effect.call_cancel _ => true
  | _ => false

/-- The call `tp_base_client_register`, whatever its outcome. -/
def Effect.is_register : Effect → Bool
  | Effect.base_client_register _ _ => true
  | _ => false

/-- What holds of a request-and-forget object after its `_async` call: it is
marked requested and not self-handling, it has no handler and never called
`tp_base_client_register`, the request object's handler is connected only while
there is a request object, and a pending result carries no error yet. -/
def Forgetting (self : TpAccountChannelRequest) : Prop :=
  self.requested = true ∧ self.should_handle = false ∧ self.handler = none ∧
    (∀ e ∈ self.trace, e.is_register = false) ∧ Connected_ok self ∧
    (∀ r, self.result = some r → r.error = none)

/-- The completions of the async result recorded in a trace, in order. -/
def completions : List Effect → List GSimpleAsyncResult
  | [] => []
  | Effect.async_result_complete r :: rest => r :: completions rest
  | _ :: rest => completions rest

end Acr

namespace DBus

open Tp

/-! ## The name-owner watches of `TpDBusDaemon` (dbus.c)

Callbacks and destroy notifications are functions of the caller; they are
numbered, and calling one is recorded in the daemon's trace. The callbacks of
this model do not call back into the daemon. -/

/-- The struct `_NameOwnerSubWatch`: a caller's callback, user data and destroy
notification (`NULL` = `none`). The multiplexer function is `static`, so a
caller's callback is never `_tp_dbus_daemon_name_owner_changed_multiple`. -/
structure _NameOwnerSubWatch where
  callback : Nat
  user_data : Nat
  destroy : Option Nat
  deriving DecidableEq, Repr

/-- The fields `callback`, `user_data` and `destroy` of a `_NameOwnerWatch`:
either a caller's triple (`single`), or the multiplexer
`_tp_dbus_daemon_name_owner_changed_multiple` with the `GArray` of sub-watches as
its user data and `_tp_dbus_daemon_name_owner_changed_multiple_free` as its
destroy notification (`multiple`). -/
inductive WatchTarget where
  | single (w : _NameOwnerSubWatch)
  | multiple (array : List _NameOwnerSubWatch)
  deriving DecidableEq, Repr

/-- The struct `_NameOwnerWatch`. -/
structure _NameOwnerWatch where
  target : WatchTarget
  last_owner : Option String
  deriving DecidableEq, Repr

/-- What the watch code calls outside itself, in the order called. -/
inductive Call where
  /-- A caller's callback: `callback (self, name, new_owner, user_data)`. -/
  | callback (callback : Nat) (name : String) (new_owner : Option String) (user_data : Nat)
  /-- The call `tp_cli_dbus_daemon_call_get_name_owner (self, -1, name, ...)`. -/
  | get_name_owner (name : String)
  /-- A caller's destroy notification: `destroy (user_data)`. -/
  | destroy (destroy : Nat) (user_data : Nat)
  deriving DecidableEq, Repr

/-- The struct `_TpDBusDaemonPrivate` (the table `name_owner_watches`, keys
unique) with the trace of outgoing calls. -/
structure TpDBusDaemon where
  name_owner_watches : List (String × _NameOwnerWatch)
  trace : List Call
  deriving DecidableEq, Repr

/-- Append one outgoing call to the trace. -/
def TpDBusDaemon.emit (self : TpDBusDaemon) (c : Call) : TpDBusDaemon :=
  { self with trace := self.trace ++ [c] }

/-- The function `g_hash_table_lookup`. -/
def g_hash_table_lookup (table : List (String × _NameOwnerWatch)) (key : String) :
    Option _NameOwnerWatch :=
  match table with
  | [] => none
  | (k, v) :: rest => if k = key then some v else g_hash_table_lookup rest key

/-- The function `g_hash_table_insert`: the value of an existing key is replaced. -/
def g_hash_table_insert (table : List (String × _NameOwnerWatch)) (key : String)
    (value : _NameOwnerWatch) : List (String × _NameOwnerWatch) :=
  match table with
  | [] => [(key, value)]
  | (k, v) :: rest =>
    if k = key then (k, value) :: rest else (k, v) :: g_hash_table_insert rest key value

/-- The function `g_hash_table_remove`: afterwards the table has no value for
`key`. -/
def g_hash_table_remove (table : List (String × _NameOwnerWatch)) (key : String) :
    List (String × _NameOwnerWatch) :=
  match table with
  | [] => []
  | (k, v) :: rest =>
    if k = key then g_hash_table_remove rest key else (k, v) :: g_hash_table_remove rest key

/-- A write through the pointer `watch` that `g_hash_table_lookup (.., name)`
returned: the table's value for `name` becomes `watch`. -/
def TpDBusDaemon.store (self : TpDBusDaemon) (name : String) (watch : _NameOwnerWatch) :
    TpDBusDaemon :=
  { self with name_owner_watches := g_hash_table_insert self.name_owner_watches name watch }

/-- Modelled from the spec: `tp_strdiff` of util.c is not among the sources; the
spec has the owner compared against `last_owner` and the callbacks fired "when
the value differs". Either side may be `NULL`, and two `NULL`s do not differ. -/
def tp_strdiff (left right : Option String) : Bool :=
  decide (left ≠ right)

/-- The function `_tp_dbus_daemon_name_owner_changed_multiple`: the sub-watches
are called in array order. -/
def _tp_dbus_daemon_name_owner_changed_multiple (self : TpDBusDaemon) (name : String)
    (new_owner : Option String) (array : List _NameOwnerSubWatch) : TpDBusDaemon :=
  match array with
  | [] => self
  | watch :: rest =>
    _tp_dbus_daemon_name_owner_changed_multiple
      (self.emit (Call.callback watch.callback name new_owner watch.user_data))
      name new_owner rest

/-- The function `_tp_dbus_daemon_name_owner_changed_multiple_free`: every
sub-watch with a destroy notification has it called, in array order. -/
def _tp_dbus_daemon_name_owner_changed_multiple_free (self : TpDBusDaemon)
    (array : List _NameOwnerSubWatch) : TpDBusDaemon :=
  match array with
  | [] => self
  | watch :: rest =>
    match watch.destroy with
    | some d =>
      _tp_dbus_daemon_name_owner_changed_multiple_free
        (self.emit (Call.destroy d watch.user_data)) rest
    | none => _tp_dbus_daemon_name_owner_changed_multiple_free self rest

/-- The call `watch->callback (self, name, new_owner, watch->user_data)`. -/
def call_watch (self : TpDBusDaemon) (name : String) (new_owner : Option String)
    (target : WatchTarget) : TpDBusDaemon :=
  match target with
  | WatchTarget.single w => self.emit (Call.callback w.callback name new_owner w.user_data)
  | WatchTarget.multiple array =>
    _tp_dbus_daemon_name_owner_changed_multiple self name new_owner array

/-- The function `_tp_dbus_daemon_name_owner_changed`. -/
def _tp_dbus_daemon_name_owner_changed (self : TpDBusDaemon) (name : String)
    (new_owner : Option String) : TpDBusDaemon :=
  match g_hash_table_lookup self.name_owner_watches name with
  | none => self
  | some watch =>
    if !tp_strdiff watch.last_owner new_owner then
      self
    else
      let watch := { watch with last_owner := new_owner }
      call_watch (self.store name watch) name new_owner watch.target

/-- The function `_tp_dbus_daemon_name_owner_changed_cb`, the handler of the
NameOwnerChanged signal. -/
def _tp_dbus_daemon_name_owner_changed_cb (self : TpDBusDaemon) (name : String)
    (_old_owner : String) (new_owner : String) : TpDBusDaemon :=
  _tp_dbus_daemon_name_owner_changed self name (some new_owner)

/-- The function `_tp_dbus_daemon_got_name_owner`, the reply to GetNameOwner for
`name` (its user data). -/
def _tp_dbus_daemon_got_name_owner (self : TpDBusDaemon) (owner : Option String)
    (error : Option GError) (name : String) : TpDBusDaemon :=
  let owner := match error with
    | some _ => some ""
    | none => owner
  _tp_dbus_daemon_name_owner_changed self name owner

/-- The function `tp_dbus_daemon_watch_name_owner`. -/
def tp_dbus_daemon_watch_name_owner (self : TpDBusDaemon) (name : String) (callback : Nat)
    (user_data : Nat) (destroy : Option Nat) : TpDBusDaemon :=
  match g_hash_table_lookup self.name_owner_watches name with
  | none =>
    -- Allocate a single watch (common case)
    let watch : _NameOwnerWatch :=
      { target := WatchTarget.single ⟨callback, user_data, destroy⟩, last_owner := none }
    { self with
        name_owner_watches := g_hash_table_insert self.name_owner_watches name watch
      }.emit (Call.get_name_owner name)
  | some watch =>
    let tmp : _NameOwnerSubWatch := ⟨callback, user_data, destroy⟩
    let watch : _NameOwnerWatch :=
      match watch.target with
      | WatchTarget.multiple array =>
        -- The watch is already a "multiplexer", just append to it
        { watch with target := WatchTarget.multiple (array ++ [tmp]) }
      | WatchTarget.single old =>
        -- new array: the new watcher appended, then the old watcher prepended
        { watch with target := WatchTarget.multiple (old :: ([] ++ [tmp])) }
    let self := self.store name watch
    match watch.last_owner with
    | some owner => self.emit (Call.callback callback name (some owner) user_data)
    | none => self

/-- The loop of `tp_dbus_daemon_cancel_name_owner_watch` over a multiplexer's
array: with `k` iterations left it examines index `k - 1` (the source's
`array->len - i`), so the scan runs from the last entry to the first and returns
the index of the first match it meets. -/
def cancel_scan (array : List _NameOwnerSubWatch) (callback user_data : Nat) :
    Nat → Option Nat
  | 0 => none
  | k + 1 =>
    match array.get? k with
    | some entry =>
      if entry.callback = callback ∧ entry.user_data = user_data then some k
      else cancel_scan array callback user_data k
    | none => cancel_scan array callback user_data k

/-- The function `tp_dbus_daemon_cancel_name_owner_watch`; the Boolean is its
return value. -/
def tp_dbus_daemon_cancel_name_owner_watch (self : TpDBusDaemon) (name : String)
    (callback : Nat) (user_data : Nat) : Bool × TpDBusDaemon :=
  match g_hash_table_lookup self.name_owner_watches name with
  | none => (false, self)  -- No watch at all
  | some watch =>
    match watch.target with
    | WatchTarget.single w =>
      if w.callback = callback ∧ w.user_data = user_data then
        -- Simple case: there is one name-owner watch and it's what we wanted
        let self :=
          match w.destroy with
          | some d => self.emit (Call.destroy d w.user_data)
          | none => self
        (true, { self with
                   name_owner_watches := g_hash_table_remove self.name_owner_watches name })
      else
        (false, self)
    | WatchTarget.multiple array =>
      match cancel_scan array callback user_data array.length with
      | none => (false, self)
      | some idx =>
        let self :=
          match array.get? idx with
          | some entry =>
            match entry.destroy with
            | some d => self.emit (Call.destroy d entry.user_data)
            | none => self
          | none => self
        let array := array.eraseIdx idx
        if array.length = 0 then
          let self := _tp_dbus_daemon_name_owner_changed_multiple_free self array
          (true, { self with
                     name_owner_watches := g_hash_table_remove self.name_owner_watches name })
        else
          (true, self.store name { watch with target := WatchTarget.multiple array })

/-! ## Notifications and registrations as sequences -/

/-- An ownership notification for one name, as it reaches the daemon. -/
inductive Notification where
  /-- The NameOwnerChanged signal with `(old_owner, new_owner)`. -/
  | name_owner_changed (old_owner new_owner : String)
  /-- A successful GetNameOwner reply. -/
  | got_name_owner (owner : String)
  /-- A failed GetNameOwner reply. -/
  | get_name_owner_failed (error : GError)
  deriving DecidableEq, Repr

/-- The owner a notification reports: the signal's new owner, the reply's owner,
and the empty string for a failed lookup (`owner = ""` in the source). -/
def Notification.owner : Notification → String
  | Notification.name_owner_changed _ new_owner => new_owner
  | Notification.got_name_owner owner => owner
  | Notification.get_name_owner_failed _ => ""

/-- Delivery of one notification for `name` to the callback registered for it. -/
def notify (self : TpDBusDaemon) (name : String) (n : Notification) : TpDBusDaemon :=
  match n with
  | Notification.name_owner_changed old_owner new_owner =>
    _tp_dbus_daemon_name_owner_changed_cb self name old_owner new_owner
  | Notification.got_name_owner owner =>
    _tp_dbus_daemon_got_name_owner self (some owner) none name
  | Notification.get_name_owner_failed error =>
    _tp_dbus_daemon_got_name_owner self none (some error) name

/-- Delivery of a sequence of notifications for `name`, in order. -/
def notify_all (self : TpDBusDaemon) (name : String) : List Notification → TpDBusDaemon
  | [] => self
  | n :: rest => notify_all (notify self name n) name rest

/-- One step of a history of a name on which nothing is cancelled: a watcher
registers, or a notification arrives. -/
inductive Op where
  | watch (w : _NameOwnerSubWatch)
  | notify (n : Notification)
  deriving DecidableEq, Repr

/-- One step of a history of `name`. -/
def apply_op (self : TpDBusDaemon) (name : String) : Op → TpDBusDaemon
  | Op.watch w => tp_dbus_daemon_watch_name_owner self name w.callback w.user_data w.destroy
  | Op.notify n => notify self name n

/-- A history of `name`, applied in order. -/
def apply_ops (self : TpDBusDaemon) (name : String) : List Op → TpDBusDaemon
  | [] => self
  | op :: rest => apply_ops (apply_op self name op) name rest

/-- The watchers a history registers, in registration order. -/
def registered : List Op → List _NameOwnerSubWatch
  | [] => []
  | Op.watch w :: rest => w :: registered rest
  | Op.notify _ :: rest => registered rest

/-- The `last_owner` of the watch on `name` (`none` without a watch). -/
def last_owner (self : TpDBusDaemon) (name : String) : Option String :=
  match g_hash_table_lookup self.name_owner_watches name with
  | none => none
  | some watch => watch.last_owner

/-- The callers' watches a `_NameOwnerWatch` stands for, in the order in which
it calls them. -/
def WatchTarget.subwatches : WatchTarget → List _NameOwnerSubWatch
  | WatchTarget.single w => [w]
  | WatchTarget.multiple array => array

/-- The watchers of `name`, in the order in which the watch calls them. -/
def watchers (self : TpDBusDaemon) (name : String) : List _NameOwnerSubWatch :=
  match g_hash_table_lookup self.name_owner_watches name with
  | none => []
  | some watch => watch.target.subwatches

/-- The owners, out of a sequence of notified owners, that differ from the owner
notified just before them; `last` is the owner notified before the sequence
(`none` if there was none). -/
def changes (last : Option String) : List String → List String
  | [] => []
  | o :: os => if last = some o then changes last os else o :: changes (some o) os

/-- A daemon without watches. -/
def daemon0 : TpDBusDaemon := ⟨[], []⟩

/-- The notifications of the owner sequence `":1.1", ":1.1", ":1.2", ":1.2"`: the
GetNameOwner reply, then NameOwnerChanged signals, each delivered twice. -/
def notifications0 : List Notification :=
  [Notification.got_name_owner ":1.1", Notification.name_owner_changed "" ":1.1",
   Notification.name_owner_changed ":1.1" ":1.2", Notification.name_owner_changed ":1.1" ":1.2"]

/-- Watchers A, B and C register on one name; the owner is learnt after A
registered, so the watch is promoted when B registers with the owner known. -/
def history0 : List Op :=
  [Op.watch ⟨1, 10, none⟩, Op.notify (Notification.got_name_owner ":1.1"),
   Op.watch ⟨2, 20, none⟩, Op.watch ⟨3, 30, some 9⟩]

end DBus

namespace Acr

open Tp

/-- An account used in the examples. -/
def account0 : TpAccount := ⟨"/org/freedesktop/Telepathy/Account/cm/proto/acc", 1⟩

/-- A freshly constructed request object for `account0`. -/
def fresh0 : TpAccountChannelRequest :=
  { account := account0, request := [("ChannelType", "Text")], user_action_time := 0,
    handler := none, ensure := false, cancellable := none, result := none,
    chan_request := none, invalidated_sig := 0, cancel_id := 0, channel := none,
    handle_context := none, dbus := 1, factory := none, requested := false,
    should_handle := false, ref_count := 1, trace := [] }

/-- Arguments of a call without cancellable whose handler registers. -/
def args0 : CallArgs :=
  ⟨none, none, 7, 8, "org.freedesktop.Telepathy.Client.TpGLibRequestAndHandle._1", none⟩

/-- The events that bring a self-handling EnsureChannel request to the point
where it waits for its channel. -/
def events_to_pending : List Event :=
  [Event.request SourceTag.ensure_and_handle_channel_async args0,
   Event.request_reply "/cr/1" none none 0 0,
   Event.proceed_reply none]

/-- The state reached from `init` by `events` (`init` itself if an assertion fails). -/
def state_after (init : TpAccountChannelRequest) (events : List Event) :
    TpAccountChannelRequest :=
  match run init events with
  | Except.ok s => s
  | Except.error _ => init

/-- A self-handling request waiting for its channel. -/
def pending0 : TpAccountChannelRequest := state_after fresh0 events_to_pending

/-- The pending result of `pending0`. -/
def result0 : GSimpleAsyncResult := ⟨7, 8, SourceTag.ensure_and_handle_channel_async, none⟩

/-- A request-and-forget CreateChannel request waiting for the request object to
go away. -/
def forgetting0 : TpAccountChannelRequest :=
  state_after fresh0
    [Event.request SourceTag.create_channel_async args0,
     Event.request_reply "/cr/2" none none 0 0,
     Event.proceed_reply none]

/-- The pending result of `forgetting0`. -/
def result1 : GSimpleAsyncResult := ⟨7, 8, SourceTag.create_channel_async, none⟩

/-- Arguments of a call whose cancellable is already cancelled. -/
def args_cancelled : CallArgs :=
  ⟨none, some ⟨1, true⟩, 7, 8, "org.freedesktop.Telepathy.Client.TpGLibRequestAndHandle._2", none⟩

/-- A valid channel. -/
def chanA : TpChannel := ⟨"/chan/a", none⟩

/-- Another valid channel. -/
def chanB : TpChannel := ⟨"/chan/b", none⟩

/-- A self-handling request after `chanA` has been delivered to it. -/
def delivered0 : TpAccountChannelRequest :=
  state_after pending0 [Event.handle_channels [chanA] 5 1]

end Acr

namespace DBus

/-! ## Callbacks that cancel watches while they run

The functions above record a callback and go on. Here a callback may call
`tp_dbus_daemon_cancel_name_owner_watch` for the name it is notified about
before it returns, and the dispatch functions are embedded a second time, reading
the watch and its array again after every callback as the source does. -/

/-- What the callers' callbacks do when they run: the callback `callback`, called
with `user_data`, cancels the registrations `(callback', user_data')` it lists, in
order, on the name it is notified about. -/
abbrev Reaction := Nat → Nat → List (Nat × Nat)

/-- How a dispatch with cancelling callbacks can go wrong. -/
inductive DispatchFault where
  /-- The loop reads `array->len` after the array was freed with its watch. -/
  | use_after_free
  /-- The bound on the number of iterations was too small. -/
  | out_of_fuel
  deriving DecidableEq, Repr

/-- The calls `tp_dbus_daemon_cancel_name_owner_watch (self, name, c, u)` for the
listed `(c, u)`, in order. -/
def cancel_all (self : TpDBusDaemon) (name : String) : List (Nat × Nat) → TpDBusDaemon
  | [] => self
  | (c, u) :: rest =>
    cancel_all (tp_dbus_daemon_cancel_name_owner_watch self name c u).2 name rest

/-- A caller's callback runs: the call is recorded, then the callback makes its
cancellations and returns. -/
def run_callback (react : Reaction) (self : TpDBusDaemon) (name : String)
    (new_owner : Option String) (w : _NameOwnerSubWatch) : TpDBusDaemon :=
  cancel_all (self.emit (Call.callback w.callback name new_owner w.user_data)) name
    (react w.callback w.user_data)

/-- The loop `for (i = 0; i < array->len; i++)` of
`_tp_dbus_daemon_name_owner_changed_multiple` from index `i` on, with callbacks
that may cancel. `array` is the `GArray` of the watch on `name`: its length and
its element `i` are read from the current state at every iteration. When the
watch is gone, so is the array. `fuel` bounds the iterations. -/
def multiple_loop (react : Reaction) (name : String) (new_owner : Option String) :
    Nat → Nat → TpDBusDaemon → Except DispatchFault TpDBusDaemon
  | 0, _, _ => throw DispatchFault.out_of_fuel
  | fuel + 1, i, self =>
    match g_hash_table_lookup self.name_owner_watches name with
    | none => throw DispatchFault.use_after_free
    | some watch =>
      match watch.target with
      | WatchTarget.single _ => throw DispatchFault.use_after_free
      | WatchTarget.multiple array =>
        match array.get? i with
        | none => pure self
        | some w =>
          multiple_loop react name new_owner fuel (i + 1)
            (run_callback react self name new_owner w)

/-- The function `_tp_dbus_daemon_name_owner_changed`, with callbacks that may
cancel. A cancellation never lengthens the array, so one more iteration than the
array has entries is enough. -/
def _tp_dbus_daemon_name_owner_changed_reentrant (react : Reaction) (self : TpDBusDaemon)
    (name : String) (new_owner : Option String) : Except DispatchFault TpDBusDaemon :=
  match g_hash_table_lookup self.name_owner_watches name with
  | none => pure self
  | some watch =>
    if !tp_strdiff watch.last_owner new_owner then
      pure self
    else
      let self := self.store name { watch with last_owner := new_owner }
      match watch.target with
      | WatchTarget.single w => pure (run_callback react self name new_owner w)
      | WatchTarget.multiple array =>
        multiple_loop react name new_owner (array.length + 1) 0 self

/-- Callbacks that cancel nothing. -/
def no_reaction : Reaction := fun _ _ => []

/-- The callback 1 registered with user data 10 cancels its own registration when
it is called; the other callbacks cancel nothing. -/
def cancel_self : Reaction := fun callback user_data =>
  if callback = 1 ∧ user_data = 10 then [(1, 10)] else []

/-- Watchers A `(1, 10)`, B `(2, 20)` and C `(3, 30)` on `"com.example.Svc"`, whose
owner is known to be `":1.1"`. -/
def three_watchers : TpDBusDaemon :=
  apply_ops daemon0 "com.example.Svc"
    [Op.watch ⟨1, 10, none⟩, Op.notify (Notification.got_name_owner ":1.1"),
     Op.watch ⟨2, 20, none⟩, Op.watch ⟨3, 30, none⟩]

end DBus

namespace TextMixin

open Tp

/-! ## The pending-message queue of the text mixin (text-mixin.c)

The static `_Allocator` of `_pending_get_alloc` belongs to the process, not to
one mixin; a `State` holds it next to the mixin of the object the functions are
called on. Strings are the lists of their bytes before the terminating NUL. -/

/-- A failed `g_assert (expr)`, or a read through a pointer that was freed. -/
inductive Fault where
  | assertion_failed (expr : String)
  | use_after_free
  deriving DecidableEq, Repr

/-- The struct `_Allocator` (`size` is a `gulong`, `limit` and `count` are
`guint`). -/
structure _Allocator where
  size : Nat
  limit : Nat
  count : Nat
  deriving DecidableEq, Repr

/-- The macro `MAX_PENDING_MESSAGES`. -/
def MAX_PENDING_MESSAGES : Nat := 256

/-- The macro `MAX_MESSAGE_SIZE`, `1024 - 1`. -/
def MAX_MESSAGE_SIZE : Nat := 1024 - 1

/-- The flag `TP_CHANNEL_TEXT_MESSAGE_FLAG_TRUNCATED` of the enumeration
`TpChannelTextMessageFlags` (enums.h). -/
def TP_CHANNEL_TEXT_MESSAGE_FLAG_TRUNCATED : Nat := 1

/-- The value of `sizeof (_PendingMessage)` (LP64); only that it is positive
matters. -/
def sizeof_PendingMessage : Nat := 40

/-- The function `_allocator_init`. -/
def _allocator_init (alloc : _Allocator) (size limit : Nat) : Except Fault _Allocator :=
  if size = 0 then throw (Fault.assertion_failed "size > 0")
  else if limit = 0 then throw (Fault.assertion_failed "limit > 0")
  else pure { alloc with size := size, limit := limit }

/-- The function `_allocator_alloc0`; the Boolean tells whether the pointer
returned is non-`NULL`. -/
def _allocator_alloc0 (alloc : _Allocator) : Except Fault (Bool × _Allocator) :=
  if alloc.limit < alloc.count then
    throw (Fault.assertion_failed "alloc->count <= alloc->limit")
  else if alloc.count = alloc.limit then
    pure (false, alloc)
  else
    pure (true, { alloc with count := (alloc.count + 1) % 4294967296 })

/-- The function `_allocator_free` (`thing` is never `NULL` where it is called). -/
def _allocator_free (alloc : _Allocator) : _Allocator :=
  { alloc with count := (alloc.count + 4294967295) % 4294967296 }

/-- The function `_pending_get_alloc`, on the static allocator it keeps. -/
def _pending_get_alloc (alloc : _Allocator) : Except Fault _Allocator :=
  if alloc.size = 0 then _allocator_init alloc sizeof_PendingMessage MAX_PENDING_MESSAGES
  else pure alloc

/-- The macro `_pending_new0 ()`; the Boolean tells whether a struct was
returned. -/
def _pending_new0 (alloc : _Allocator) : Except Fault (Bool × _Allocator) :=
  match _pending_get_alloc alloc with
  | Except.error f => throw f
  | Except.ok alloc => _allocator_alloc0 alloc

/-- The function `_pending_free`, as far as the allocator goes. -/
def _pending_free (alloc : _Allocator) : Except Fault _Allocator :=
  match _pending_get_alloc alloc with
  | Except.error f => throw f
  | Except.ok alloc => pure (_allocator_free alloc)

/-- The struct `_PendingMessage`; `timestamp` is a `time_t`. -/
structure _PendingMessage where
  id : Nat
  timestamp : Int
  sender : Nat
  type : Nat
  text : List Nat
  flags : Nat
  deriving DecidableEq, Repr

/-- The fields of `TpTextMixin` that the receiving side uses. -/
structure TpTextMixin where
  pending : List _PendingMessage
  contacts_repo : Nat
  recv_id : Nat
  msg_types : List Nat
  message_lost : Bool
  deriving DecidableEq, Repr

/-- What the mixin calls outside the file, in the order called. -/
inductive Effect where
  /-- Emission of the `lost-message` signal. -/
  | lost_message
  /-- Emission of `received (id, timestamp, sender, type, flags, text)`; the first
  five parameters of the signal are `G_TYPE_UINT`. -/
  | received (id timestamp sender type flags : Nat) (text : List Nat)
  /-- The call `tp_handle_ref (contacts_repo, handle)`. -/
  | handle_ref (contacts_repo handle : Nat)
  /-- The call `tp_handle_unref (contacts_repo, handle)`. -/
  | handle_unref (contacts_repo handle : Nat)
  deriving DecidableEq, Repr

/-- The process seen from one object: the static allocator, the object's mixin,
and the trace of outgoing calls. -/
structure State where
  alloc : _Allocator
  mixin : TpTextMixin
  trace : List Effect
  deriving DecidableEq, Repr

/-- Append one outgoing call to the trace. -/
def State.emit (self : State) (e : Effect) : State :=
  { self with trace := self.trace ++ [e] }

/-- The function `tp_text_mixin_init`, in a process whose static allocator is
`alloc`. -/
def tp_text_mixin_init (alloc : _Allocator) (contacts_repo : Nat) (_send_nick : Bool) : State :=
  { alloc := alloc
    mixin :=
      { pending := []
        contacts_repo := contacts_repo
        recv_id := 0
        msg_types := []
        message_lost := false }
    trace := [] }

/-- The function `strlen`: the number of bytes before the first NUL. -/
def strlen : List Nat → Nat
  | [] => 0
  | b :: rest => if b = 0 then 0 else strlen rest + 1

/-- The function `g_strlcpy (dest, src, n + 1)`: at most `n` bytes of `src`, up to
its NUL, end up in `dest`. -/
def g_strlcpy (src : List Nat) (n : Nat) : List Nat :=
  src.take (min n (strlen src))

/-- The GLib function `g_utf8_find_prev_char (str, str + p)`: scanning down from
`p - 1` to 0, the first offset whose byte `b` has `(b & 0xc0) != 0x80`; `NULL` when
there is none. -/
def g_utf8_find_prev_char (str : List Nat) : Nat → Option Nat
  | 0 => none
  | p + 1 =>
    if (str.getD p 0) &&& 0xc0 ≠ 0x80 then some p else g_utf8_find_prev_char str p

/-- The two statements that report a lost message: the signal is emitted unless
`message_lost` is already set, and `message_lost` is set. -/
def note_lost (self : State) : State :=
  if !self.mixin.message_lost then
    { self.emit Effect.lost_message with mixin := { self.mixin with message_lost := true } }
  else
    self

/-- The function `tp_text_mixin_receive`. `try_malloc_ok` tells whether
`g_try_malloc` for the text succeeds. The Boolean is the return value. -/
def tp_text_mixin_receive (self : State) (type sender : Nat) (timestamp : Int)
    (text : List Nat)
    (try_malloc_ok : Bool) : Except Fault (Bool × State) :=
  match _pending_new0 self.alloc with
  | Except.error f => throw f
  | Except.ok (false, alloc) =>
    -- no more pending messages available, giving up
    pure (false, note_lost { self with alloc := alloc })
  | Except.ok (true, alloc) =>
    let self := { self with alloc := alloc }
    let len := strlen text
    let flags := if len > MAX_MESSAGE_SIZE then 0 ||| TP_CHANNEL_TEXT_MESSAGE_FLAG_TRUNCATED else 0
    let len :=
      if len > MAX_MESSAGE_SIZE then
        match g_utf8_find_prev_char text MAX_MESSAGE_SIZE with
        | some e => e
        | none => 0
      else len
    if !try_malloc_ok then
      -- unable to allocate message, giving up
      let self := note_lost self
      match _pending_free self.alloc with
      | Except.error f => throw f
      | Except.ok alloc => pure (false, { self with alloc := alloc })
    else
      let msg : _PendingMessage :=
        { id := self.mixin.recv_id
          timestamp := timestamp
          sender := sender
          type := type
          text := g_strlcpy text len
          flags := flags }
      let self :=
        { self with mixin := { self.mixin with recv_id := (self.mixin.recv_id + 1) % 4294967296 } }
      let self := self.emit (Effect.handle_ref self.mixin.contacts_repo msg.sender)
      let self := { self with mixin := { self.mixin with pending := self.mixin.pending ++ [msg] } }
      let self :=
        self.emit (Effect.received msg.id (msg.timestamp % 4294967296).toNat msg.sender msg.type
          msg.flags msg.text)
      let self := { self with mixin := { self.mixin with message_lost := false } }
      pure (true, self)

/-- The function `compare_pending_message`: 0 when the ids agree. -/
def compare_pending_message (msg : _PendingMessage) (id : Nat) : Nat :=
  if msg.id ≠ id then 1 else 0

/-- The function `g_queue_find_custom (pending, id, compare_pending_message)`: the
first link, from the head, whose message compares 0; links are named by their
position in the queue. -/
def g_queue_find_custom (pending : List _PendingMessage) (id : Nat) : Nat → Option Nat :=
  fun pos =>
    match pending with
    | [] => none
    | msg :: rest =>
      if compare_pending_message msg id = 0 then some pos
      else g_queue_find_custom rest id (pos + 1)

/-- The first loop of `tp_text_mixin_acknowledge_pending_messages`: the links
found for the ids, or the first id without a link. -/
def find_nodes (pending : List _PendingMessage) : List Nat → Except Nat (List Nat)
  | [] => pure []
  | id :: ids =>
    match g_queue_find_custom pending id 0 with
    | none => throw id
    | some node =>
      match find_nodes pending ids with
      | Except.error bad => throw bad
      | Except.ok nodes => pure (node :: nodes)

/-- The queue with every link named by the position it has when
`tp_text_mixin_acknowledge_pending_messages` starts. -/
def links_from (pos : Nat) : List _PendingMessage → List (Nat × _PendingMessage)
  | [] => []
  | msg :: rest => (pos, msg) :: links_from (pos + 1) rest

/-- The link named `node` among the links still in the queue. -/
def find_link (links : List (Nat × _PendingMessage)) (node : Nat) : Option _PendingMessage :=
  match links with
  | [] => none
  | (pos, msg) :: rest => if pos = node then some msg else find_link rest node

/-- The queue without the link named `node` (`g_queue_remove`). -/
def remove_link (links : List (Nat × _PendingMessage)) (node : Nat) :
    List (Nat × _PendingMessage) :=
  match links with
  | [] => []
  | (pos, msg) :: rest =>
    if pos = node then rest else (pos, msg) :: remove_link rest node

/-- The second loop of `tp_text_mixin_acknowledge_pending_messages`: for every
link found, its message is removed from the queue, its sender unreferenced and
the message freed. A link that an earlier iteration removed has been freed with
its message. -/
def acknowledge_loop (self : State) (links : List (Nat × _PendingMessage)) :
    List Nat → Except Fault (State × List (Nat × _PendingMessage))
  | [] => pure (self, links)
  | node :: nodes =>
    match find_link links node with
    | none => throw Fault.use_after_free
    | some msg =>
      let links := remove_link links node
      let self := self.emit (Effect.handle_unref self.mixin.contacts_repo msg.sender)
      match _pending_free self.alloc with
      | Except.error f => throw f
      | Except.ok alloc => acknowledge_loop { self with alloc := alloc } links nodes

/-- The error `tp_text_mixin_acknowledge_pending_messages` sets for an id that
is not pending. -/
def invalid_message_id (id : Nat) : GError :=
  ⟨GQuark.TP_ERRORS, TP_ERROR_INVALID_ARGUMENT, "invalid message id " ++ toString id⟩

/-- The function `tp_text_mixin_acknowledge_pending_messages`: the return
value, the error set (if any), and the state. -/
def tp_text_mixin_acknowledge_pending_messages (self : State) (ids : List Nat) :
    Except Fault (Bool × Option GError × State) :=
  match find_nodes self.mixin.pending ids with
  | Except.error id => pure (false, some (invalid_message_id id), self)
  | Except.ok nodes =>
    match acknowledge_loop self (links_from 0 self.mixin.pending) nodes with
    | Except.error f => throw f
    | Except.ok (self, links) =>
      pure (true, none,
        { self with mixin := { self.mixin with pending := links.map Prod.snd } })

/-- The struct `TP_TYPE_PENDING_MESSAGE_STRUCT` that
`tp_text_mixin_list_pending_messages` fills for one message. -/
structure PendingMessageStruct where
  id : Nat
  timestamp : Nat
  sender : Nat
  type : Nat
  flags : Nat
  text : List Nat
  deriving DecidableEq, Repr

/-- The struct `dbus_g_type_struct_set (&val, 0, msg->id, 1, msg->timestamp,
2, msg->sender, 3, msg->type, 4, msg->flags, 5, msg->text, G_MAXUINT)` fills: the
members 0 to 4 are `G_TYPE_UINT`, so of the `time_t` the low 32 bits are kept. -/
def dbus_g_type_struct_set (msg : _PendingMessage) : PendingMessageStruct :=
  { id := msg.id
    timestamp := (msg.timestamp % 4294967296).toNat
    sender := msg.sender
    type := msg.type
    flags := msg.flags
    text := msg.text }

/-- The function `g_queue_pop_head_link`: the data of the link popped (`none` for
`NULL`) and the queue it leaves. -/
def g_queue_pop_head_link (queue : List _PendingMessage) :
    Option _PendingMessage × List _PendingMessage :=
  match queue with
  | [] => (none, [])
  | msg :: rest => (some msg, rest)

/-- The loop of `tp_text_mixin_list_pending_messages` with `clear`: `queue` is
the queue before `cur = g_queue_pop_head_link (mixin->pending)`; the loop ends
when that is `NULL`. The result is the array and the queue left. -/
def list_loop_pop (messages : List PendingMessageStruct) :
    List _PendingMessage → List PendingMessageStruct × List _PendingMessage
  | [] => (messages, (g_queue_pop_head_link []).2)
  | msg :: rest => list_loop_pop (messages ++ [dbus_g_type_struct_set msg]) rest

/-- The loop of `tp_text_mixin_list_pending_messages` without `clear`: the
argument is the link `cur` with the links after it, `cur = cur->next` moves to
its tail; the loop ends at `NULL`. The queue is not touched. -/
def list_loop_peek (messages : List PendingMessageStruct) :
    List _PendingMessage → List PendingMessageStruct
  | [] => messages
  | msg :: next => list_loop_peek (messages ++ [dbus_g_type_struct_set msg]) next

/-- The function `tp_text_mixin_list_pending_messages`: the return value, the
array returned, and the state. With `clear` every link is popped from the queue
as it is visited; the messages are not freed. -/
def tp_text_mixin_list_pending_messages (self : State) (clear : Bool) :
    Bool × List PendingMessageStruct × State :=
  if clear then
    let result := list_loop_pop [] self.mixin.pending
    (true, result.1, { self with mixin := { self.mixin with pending := result.2 } })
  else
    (true, list_loop_peek [] self.mixin.pending, self)

/-- The loop of `tp_text_mixin_clear` over the messages popped from the head. -/
def clear_loop (self : State) : List _PendingMessage → Except Fault State
  | [] => pure self
  | msg :: rest =>
    let self := self.emit (Effect.handle_unref self.mixin.contacts_repo msg.sender)
    match _pending_free self.alloc with
    | Except.error f => throw f
    | Except.ok alloc => clear_loop { self with alloc := alloc } rest

/-- The function `tp_text_mixin_clear`. -/
def tp_text_mixin_clear (self : State) : Except Fault State :=
  match clear_loop self self.mixin.pending with
  | Except.error f => throw f
  | Except.ok self => pure { self with mixin := { self.mixin with pending := [] } }

/-! ## Sequences of calls -/

/-- One call on the mixin. -/
inductive Op where
  | receive (type sender : Nat) (timestamp : Int) (text : List Nat) (try_malloc_ok : Bool)
  | acknowledge (ids : List Nat)
  | list (clear : Bool)
  | clear
  deriving DecidableEq, Repr

/-- The state after one call. -/
def step (self : State) : Op → Except Fault State
  | Op.receive type sender timestamp text try_malloc_ok =>
    match tp_text_mixin_receive self type sender timestamp text try_malloc_ok with
    | Except.error f => throw f
    | Except.ok (_, self) => pure self
  | Op.acknowledge ids =>
    match tp_text_mixin_acknowledge_pending_messages self ids with
    | Except.error f => throw f
    | Except.ok (_, _, self) => pure self
  | Op.list clear => pure (tp_text_mixin_list_pending_messages self clear).2.2
  | Op.clear => tp_text_mixin_clear self

/-- The state after a sequence of calls, in order. -/
def run (self : State) : List Op → Except Fault State
  | [] => pure self
  | op :: rest =>
    match step self op with
    | Except.error f => throw f
    | Except.ok self => run self rest

/-- The state after a sequence of calls (`self` itself if a call fails an
assertion). -/
def state_after (self : State) (ops : List Op) : State :=
  match run self ops with
  | Except.ok s => s
  | Except.error _ => self

/-- The static allocator of a process is untouched, or was initialised by
`_pending_get_alloc` and holds no more than its limit. -/
def Allocator_ok (alloc : _Allocator) : Prop :=
  (alloc.size = 0 ∧ alloc.count = 0)
    ∨ (alloc.size = sizeof_PendingMessage ∧ alloc.limit = MAX_PENDING_MESSAGES
        ∧ alloc.count ≤ MAX_PENDING_MESSAGES)

/-- The allocator of a process that has not allocated a pending message yet. -/
def alloc0 : _Allocator := ⟨0, 0, 0⟩

/-- Whether a message with this id is pending. -/
def is_pending (pending : List _PendingMessage) (id : Nat) : Bool :=
  pending.any (fun msg => decide (msg.id = id))

/-- The queue without, for each listed id, the first message that bears it: going
from the head, a message whose id is listed is left out and its id struck from
the list. -/
def drop_listed (ids : List Nat) : List _PendingMessage → List _PendingMessage
  | [] => []
  | msg :: rest =>
    if msg.id ∈ ids then drop_listed (ids.erase msg.id) rest
    else msg :: drop_listed ids rest

/-- The struct a listing is to hold for a pending message: its id, its timestamp
modulo 2^32, its sender, type, flags and text. -/
def _PendingMessage.to_struct (msg : _PendingMessage) : PendingMessageStruct :=
  ⟨msg.id, (msg.timestamp % 4294967296).toNat, msg.sender, msg.type, msg.flags, msg.text⟩

/-- The number of `lost-message` emissions in a trace. -/
def lost_count : List Effect → Nat
  | [] => 0
  | Effect.lost_message :: rest => lost_count rest + 1
  | _ :: rest => lost_count rest

/-- The arguments of one call of `tp_text_mixin_receive`, with the outcome of its
`g_try_malloc`. -/
structure ReceiveArgs where
  type : Nat
  sender : Nat
  timestamp : Int
  text : List Nat
  try_malloc_ok : Bool
  deriving DecidableEq, Repr

/-- A sequence of `tp_text_mixin_receive` calls: for each call its return value
and the number of `lost-message` emissions it made. -/
def receive_all (self : State) : List ReceiveArgs → Except Fault (List (Bool × Nat))
  | [] => pure []
  | a :: rest =>
    match tp_text_mixin_receive self a.type a.sender a.timestamp a.text a.try_malloc_ok with
    | Except.error f => throw f
    | Except.ok (accepted, next) =>
      match receive_all next rest with
      | Except.error f => throw f
      | Except.ok results =>
        pure ((accepted, lost_count next.trace - lost_count self.trace) :: results)

/-- The emissions an edge-triggered notification makes for a sequence of return
values: a rejection emits once unless the call before it (or, for the first
call, the state it starts from: `lost`) was a rejection as well. -/
def edge_triggered (lost : Bool) : List Bool → List Nat
  | [] => []
  | true :: rest => 0 :: edge_triggered false rest
  | false :: rest => (if lost then 0 else 1) :: edge_triggered true rest

/-- The UTF-8 encoding of one code point (RFC 3629). -/
def utf8_encode_char (c : Nat) : List Nat :=
  if c < 0x80 then [c]
  else if c < 0x800 then [0xC0 + c / 64, 0x80 + c % 64]
  else if c < 0x10000 then [0xE0 + c / 4096, 0x80 + c / 64 % 64, 0x80 + c % 64]
  else [0xF0 + c / 262144, 0x80 + c / 4096 % 64, 0x80 + c / 64 % 64, 0x80 + c % 64]

/-- The UTF-8 encoding of a sequence of code points. -/
def utf8_encode : List Nat → List Nat
  | [] => []
  | c :: rest => utf8_encode_char c ++ utf8_encode rest

/-- A code point that can occur in a C string: a Unicode scalar value other than
NUL. -/
def Scalar (c : Nat) : Prop :=
  0 < c ∧ c < 0x110000 ∧ ¬ (0xD800 ≤ c ∧ c < 0xE000)

/-- The number of bytes `tp_text_mixin_receive` keeps of a text. -/
def kept_length (text : List Nat) : Nat :=
  if strlen text > MAX_MESSAGE_SIZE then
    match g_utf8_find_prev_char text MAX_MESSAGE_SIZE with
    | some e => e
    | none => 0
  else strlen text

/-- The message `tp_text_mixin_receive` queues in state `self`. -/
def queued_message (self : State) (type sender : Nat) (timestamp : Int) (text : List Nat) :
    _PendingMessage :=
  { id := self.mixin.recv_id
    timestamp := timestamp
    sender := sender
    type := type
    text := g_strlcpy text (kept_length text)
    flags :=
      if strlen text > MAX_MESSAGE_SIZE then 0 ||| TP_CHANNEL_TEXT_MESSAGE_FLAG_TRUNCATED else 0 }

/-- The allocator once initialised, with `count` structs handed out. -/
def allocator_with (count : Nat) : _Allocator :=
  ⟨sizeof_PendingMessage, MAX_PENDING_MESSAGES, count⟩

/-- The messages a state's queue holds never outnumber the structs the allocator
has handed out, and the allocator is within its limit. -/
def Inv (self : State) : Prop :=
  Allocator_ok self.alloc ∧ self.mixin.pending.length ≤ self.alloc.count

/-- A call other than the listing that empties the queue. -/
def Op.frees_what_it_removes : Op → Bool
  | Op.list true => false
  | _ => true

/-- The message `"hi"` from handle 5, whose text allocation succeeds. -/
def hi : Op := Op.receive 0 5 100 [104, 105] true

/-- Channel A after 256 messages have been received on it in a new process. -/
def channel_a_full : State :=
  state_after (tp_text_mixin_init alloc0 1 true) (List.replicate 256 hi)

/-- Channel B, initialised in the process in which channel A holds 256 pending
messages. -/
def channel_b : State := tp_text_mixin_init channel_a_full.alloc 2 true

/-- The code points of a text of 1025 bytes: 1022 times `a`, then `é` (two bytes,
at offsets 1022 and 1023), then `b`. -/
def long_text : List Nat := List.replicate 1022 97 ++ [233, 98]

/-- A call of `tp_text_mixin_receive` whose text allocation succeeds. -/
def call0 : ReceiveArgs := ⟨0, 5, 100, [104, 105], true⟩

/-- A channel with three pending messages, ids 0, 1 and 2. -/
def three_pending : State :=
  state_after (tp_text_mixin_init alloc0 1 true)
    [hi, Op.receive 0 5 101 [104, 105] true, Op.receive 0 6 102 [104] true]

end TextMixin

namespace TextMixin

/-! ## Message ids -/

/-- The ids carried by the `received` emissions of a trace, in order: the ids
`tp_text_mixin_receive` has assigned. -/
def received_ids : List Effect → List Nat
  | [] => []
  | Effect.received id _ _ _ _ _ :: rest => id :: received_ids rest
  | _ :: rest => received_ids rest

/-- The ids of the pending messages, from the head of the queue to its tail. -/
def pending_ids (self : State) : List Nat :=
  self.mixin.pending.map (fun msg => msg.id)

/-- The calls that `n` times receive the message `hi` and clear the queue. -/
def churn : Nat → List Op
  | 0 => []
  | n + 1 => hi :: Op.clear :: churn n

end TextMixin

namespace TextMixin

/-- The code points of a text of 1024 bytes in which byte offset 1023 is a
code-point boundary: 1023 times `a`, then `b`. -/
def boundary_text : List Nat := List.replicate 1023 97 ++ [98]

end TextMixin

namespace Acr

open Tp

/-! ## Where the errors of a request come from -/

/-- The errors an event hands to the callback it runs. -/
def Event.errors : Event → List GError
  | Event.request_invalidated domain code message => [⟨domain, code, message⟩]
  | Event.request_reply _ error new_error _ _ => error.toList ++ new_error.toList
  | Event.proceed_reply error => error.toList
  | Event.cancel_reply error => error.toList
  | _ => []

/-- The errors a sequence of events hands to the callbacks. -/
def errors_of : List Event → List GError
  | [] => []
  | ev :: rest => ev.errors ++ errors_of rest

/-- An outgoing call that resolves the request does so with no error, with one
of `errors`, or (reported from idle) with the cancellation error of a call whose
cancellable was cancelled before it started. -/
def Effect.error_from (errors : List GError) : Effect → Prop
  | Effect.async_result_complete r => ∀ e, r.error = some e → e ∈ errors
  | Effect.report_error_in_idle _ _ e => e = cancelled_error
  | _ => True

/-- The events of a self-handling CreateChannel request whose request object is
removed without error before HandleChannels has arrived. -/
def events_create_not_yours : List Event :=
  [Event.request SourceTag.create_and_handle_channel_async args0,
   Event.request_reply "/cr/1" none none 0 0,
   Event.proceed_reply none,
   Event.request_invalidated GQuark.TP_DBUS_ERRORS TP_DBUS_ERROR_OBJECT_REMOVED "gone"]

end Acr

namespace Connection

open Tp

/-! ## The status of a `TpConnection` (connection.c)

The proxy keeps the last status it was told and asks for the interfaces whenever
that status is `TP_CONNECTION_STATUS_CONNECTED`. -/

/-- `TP_CONNECTION_STATUS_CONNECTED` of the `TpConnectionStatus` enumeration
(enums.h). -/
def TP_CONNECTION_STATUS_CONNECTED : Nat := 0

/-- `TP_CONNECTION_STATUS_CONNECTING` of the `TpConnectionStatus` enumeration
(enums.h). -/
def TP_CONNECTION_STATUS_CONNECTING : Nat := 1

/-- `TP_CONNECTION_STATUS_DISCONNECTED` of the `TpConnectionStatus` enumeration
(enums.h). -/
def TP_CONNECTION_STATUS_DISCONNECTED : Nat := 2

/-- `TP_UNKNOWN_CONNECTION_STATUS`, `((TpConnectionStatus) -1)` (connection.h), as
the `guint` it is stored in. -/
def TP_UNKNOWN_CONNECTION_STATUS : Nat := 4294967295

/-- `TP_CONNECTION_STATUS_REASON_NONE_SPECIFIED` of the
`TpConnectionStatusReason` enumeration (enums.h). -/
def TP_CONNECTION_STATUS_REASON_NONE_SPECIFIED : Nat := 0

/-- `TP_CONNECTION_STATUS_REASON_REQUESTED` of the `TpConnectionStatusReason`
enumeration (enums.h). -/
def TP_CONNECTION_STATUS_REASON_REQUESTED : Nat := 1

/-- `TP_ERROR_DISCONNECTED` of the `TpError` enumeration (errors.h). -/
def TP_ERROR_DISCONNECTED : Int := 5

/-- What the conversion `%d` prints for a `guint`: the value read as a 32-bit
signed `int`. -/
def format_d (value : Nat) : String :=
  if value % 4294967296 < 2147483648 then toString (value % 4294967296)
  else "-" ++ toString (4294967296 - value % 4294967296)

/-- The calls that leave connection.c, in the order made. -/
inductive Effect where
  /-- The call `tp_cli_connection_connect_to_status_changed`. -/
  | connect_to_status_changed
  /-- The call `tp_cli_connection_call_get_status`. -/
  | call_get_status
  /-- The call `tp_cli_connection_call_get_interfaces`. -/
  | call_get_interfaces
  /-- The call `tp_proxy_add_interface_by_id (self, g_quark_from_string (iface))`. -/
  | add_interface_by_id (iface : String)
  /-- Emission of the `connection-ready` signal. -/
  | emit_connection_ready
  /-- The call `tp_proxy_invalidated (self, error)`. -/
  | proxy_invalidated (error : GError)
  deriving DecidableEq, Repr

/-- The struct `_TpConnection` (its own fields), with the trace of outgoing
calls. -/
structure TpConnection where
  status : Nat
  status_reason : Nat
  trace : List Effect
  deriving DecidableEq, Repr

/-- Append one outgoing call to the trace. -/
def TpConnection.emit (self : TpConnection) (e : Effect) : TpConnection :=
  { self with trace := self.trace ++ [e] }

/-- The loop of `tp_connection_got_interfaces_cb` over the interfaces. -/
def add_interfaces (self : TpConnection) : List String → TpConnection
  | [] => self
  | iface :: rest => add_interfaces (self.emit (Effect.add_interface_by_id iface)) rest

/-- The function `tp_connection_got_interfaces_cb`, the reply to GetInterfaces;
`interfaces` is `none` for `NULL`. -/
def tp_connection_got_interfaces_cb (self : TpConnection) (interfaces : Option (List String))
    (error : Option GError) : TpConnection :=
  match error with
  | none =>
    let self :=
      match interfaces with
      | some interfaces => add_interfaces self interfaces
      | none => self
    self.emit Effect.emit_connection_ready
  | some error => self.emit (Effect.proxy_invalidated error)

/-- The function `tp_connection_status_changed`. -/
def tp_connection_status_changed (self : TpConnection) (status reason : Nat) : TpConnection :=
  let self := { self with status := status }
  let self := { self with status_reason := reason }
  if status = TP_CONNECTION_STATUS_DISCONNECTED then
    let error : GError :=
      ⟨GQuark.TP_ERRORS, TP_ERROR_DISCONNECTED, "Disconnected: reason " ++ format_d reason⟩
    self.emit (Effect.proxy_invalidated error)
  else if status = TP_CONNECTION_STATUS_CONNECTED then
    self.emit Effect.call_get_interfaces
  else
    self

/-- The function `tp_connection_status_changed_cb`, the handler of the
StatusChanged signal. -/
def tp_connection_status_changed_cb (self : TpConnection) (status reason : Nat) :
    TpConnection :=
  tp_connection_status_changed self status reason

/-- The function `tp_connection_got_status_cb`, the reply to GetStatus. -/
def tp_connection_got_status_cb (self : TpConnection) (status : Nat) (error : Option GError) :
    TpConnection :=
  match error with
  | none =>
    tp_connection_status_changed self status TP_CONNECTION_STATUS_REASON_NONE_SPECIFIED
  | some error => self.emit (Effect.proxy_invalidated error)

/-- The function `tp_connection_init`. -/
def tp_connection_init : TpConnection :=
  { status := TP_UNKNOWN_CONNECTION_STATUS
    status_reason := TP_CONNECTION_STATUS_REASON_NONE_SPECIFIED
    trace := [] }

/-- The function `tp_connection_constructor`: the object is initialised, the
StatusChanged handler connected and GetStatus called. -/
def tp_connection_constructor : TpConnection :=
  (tp_connection_init.emit Effect.connect_to_status_changed).emit Effect.call_get_status

/-- What the main loop delivers to a `TpConnection`. -/
inductive Event where
  /-- The reply to GetStatus. -/
  | got_status (status : Nat) (error : Option GError)
  /-- The StatusChanged signal. -/
  | status_changed (status reason : Nat)
  /-- A reply to GetInterfaces. -/
  | got_interfaces (interfaces : Option (List String)) (error : Option GError)
  deriving DecidableEq, Repr

/-- Delivery of one event to the callback registered for it. -/
def deliver (self : TpConnection) : Event → TpConnection
  | Event.got_status status error => tp_connection_got_status_cb self status error
  | Event.status_changed status reason => tp_connection_status_changed_cb self status reason
  | Event.got_interfaces interfaces error =>
    tp_connection_got_interfaces_cb self interfaces error

/-- Delivery of a sequence of events, in order. -/
def run (self : TpConnection) : List Event → TpConnection
  | [] => self
  | ev :: rest => run (deliver self ev) rest

/-- The number of `connection-ready` emissions in a trace. -/
def ready_count : List Effect → Nat
  | [] => 0
  | Effect.emit_connection_ready :: rest => ready_count rest + 1
  | _ :: rest => ready_count rest

/-- The number of GetInterfaces calls in a trace. -/
def get_interfaces_count : List Effect → Nat
  | [] => 0
  | Effect.call_get_interfaces :: rest => get_interfaces_count rest + 1
  | _ :: rest => get_interfaces_count rest

/-- The number of GetInterfaces replies without error among the events. -/
def interface_replies : List Event → Nat
  | [] => 0
  | Event.got_interfaces _ none :: rest => interface_replies rest + 1
  | _ :: rest => interface_replies rest

/-- A connection that becomes connected while its proxy is being constructed:
the StatusChanged signal and the GetStatus reply both report
`TP_CONNECTION_STATUS_CONNECTED`, and each of the two GetInterfaces calls they
cause is answered. -/
def connected_twice : List Event :=
  [Event.status_changed TP_CONNECTION_STATUS_CONNECTED TP_CONNECTION_STATUS_REASON_REQUESTED,
   Event.got_status TP_CONNECTION_STATUS_CONNECTED none,
   Event.got_interfaces (some ["org.freedesktop.Telepathy.Connection.Interface.Aliasing"]) none,
   Event.got_interfaces (some ["org.freedesktop.Telepathy.Connection.Interface.Aliasing"]) none]

end Connection

namespace ChannelText

open Tp

/-! ## Two steps of the preparation chain of `TplChannelText` (channel-text.c)

The SQLite log store is not part of the file; what its functions return is passed
in. -/

/-- The calls that leave the two steps, in the order made. -/
inductive Effect where
  /-- A `DEBUG` or `PATH_DEBUG` line. -/
  | debug (message : String)
  /-- A `PATH_CRITICAL` line. -/
  | path_critical (message : String)
  /-- The call `_tpl_log_store_sqlite_dup ()`; `cache` is what it returns. -/
  | log_store_sqlite_dup (cache : Option Nat)
  /-- The call `_tpl_log_store_sqlite_get_log_ids (cache, NULL, time_limit, &error)`. -/
  | log_store_sqlite_get_log_ids (cache : Nat) (time_limit : Int)
  /-- The call `_tpl_log_store_sqlite_set_acknowledgment (cache, log_id, &loc_error)`. -/
  | log_store_sqlite_set_acknowledgment (cache : Option Nat) (log_id : String)
  /-- The call `g_object_unref (cache)`. -/
  | object_unref (cache : Nat)
  /-- The calls `g_free (l->data)` and `g_list_delete_link (l, l)` for one log-id. -/
  | free_log_id (log_id : String)
  /-- The call `_tpl_action_chain_continue (ctx)`. -/
  | action_chain_continue
  /-- The call `_tpl_action_chain_terminate (ctx)`. -/
  | action_chain_terminate
  deriving DecidableEq, Repr

/-- What the log store answers during one run of the clean-up step. -/
structure LogStore where
  /-- The value of `_tpl_log_store_sqlite_dup ()` in
  `pendingproc_cleanup_pending_messages_db`. -/
  cache : Option Nat
  /-- The value of `_tpl_log_store_sqlite_dup ()` in
  `tpl_channel_text_clean_up_stale_tokens`. -/
  cache_again : Option Nat
  /-- The list `_tpl_log_store_sqlite_get_log_ids` returns. -/
  log_ids : List String
  /-- The error `_tpl_log_store_sqlite_get_log_ids` sets (`none`: no error). -/
  log_ids_error : Option GError
  /-- The error `_tpl_log_store_sqlite_set_acknowledgment` sets for a log-id. -/
  acknowledgment_error : String → Option GError

/-- The constant `TPL_LOG_STORE_SQLITE_CLEANUP_DELTA_LIMIT` (log-store-sqlite.h):
five days, in seconds. -/
def TPL_LOG_STORE_SQLITE_CLEANUP_DELTA_LIMIT : Int := 432000

/-- The function `got_tpl_chan_ready_cb`: the step that waits for the `TplChannel`
continues the chain or terminates it. -/
def got_tpl_chan_ready_cb (trace : List Effect) (new_finish : Bool) : List Effect :=
  if new_finish then trace ++ [Effect.action_chain_continue]
  else trace ++ [Effect.action_chain_terminate]

/-- The loop of `tpl_channel_text_clean_up_stale_tokens`. -/
def clean_up_loop (store : LogStore) (cache : Option Nat) (trace : List Effect) :
    List String → List Effect
  | [] => trace
  | log_id :: rest =>
    let trace := trace ++ [Effect.log_store_sqlite_set_acknowledgment cache log_id]
    let trace :=
      match store.acknowledgment_error log_id with
      | some loc_error =>
        trace ++ [Effect.path_critical
          ("Unable to set " ++ log_id ++ " as acknoledged in TPL DB: " ++ loc_error.message)]
      | none => trace
    clean_up_loop store cache trace rest

/-- The function `tpl_channel_text_clean_up_stale_tokens`. -/
def tpl_channel_text_clean_up_stale_tokens (store : LogStore) (trace : List Effect)
    (stale_tokens : List String) : List Effect :=
  let cache := store.cache_again
  let trace := trace ++ [Effect.log_store_sqlite_dup cache]
  let trace := clean_up_loop store cache trace stale_tokens
  match cache with
  | some c => trace ++ [Effect.object_unref c]
  | none => trace

/-- The `while (l != NULL)` loop of `pendingproc_cleanup_pending_messages_db`. -/
def free_loop (trace : List Effect) : List String → List Effect
  | [] => trace
  | log_id :: rest =>
    free_loop
      (trace ++ [Effect.debug (log_id ++ " is stale, removed from DB"), Effect.free_log_id log_id])
      rest

/-- The statements after the label `out` of
`pendingproc_cleanup_pending_messages_db`. -/
def cleanup_out (cache : Option Nat) (trace : List Effect) : List Effect :=
  let trace :=
    match cache with
    | some c => trace ++ [Effect.object_unref c]
    | none => trace
  trace ++ [Effect.action_chain_continue]

/-- The function `pendingproc_cleanup_pending_messages_db`; `now` is the value of
`_tpl_time_get_current ()`. -/
def pendingproc_cleanup_pending_messages_db (store : LogStore) (now : Int)
    (trace : List Effect) : List Effect :=
  let time_limit := now - TPL_LOG_STORE_SQLITE_CLEANUP_DELTA_LIMIT
  let cache := store.cache
  let trace := trace ++ [Effect.log_store_sqlite_dup cache]
  match cache with
  | none =>
    cleanup_out cache
      (trace ++ [Effect.debug "Unable to obtain the TplLogStoreIndex singleton"])
  | some c =>
    let trace := trace ++ [Effect.log_store_sqlite_get_log_ids c time_limit]
    match store.log_ids_error with
    | some error =>
      cleanup_out cache
        (trace ++ [Effect.debug ("unable to obtain log-id in Index DB: " ++ error.message)])
    | none =>
      let l := store.log_ids
      let trace :=
        if l ≠ [] then trace ++ [Effect.debug "Cleaning up stale messages"] else trace
      let trace := tpl_channel_text_clean_up_stale_tokens store trace l
      let trace := free_loop trace l
      cleanup_out cache trace

/-- The number of `_tpl_action_chain_continue` calls in a trace. -/
def continue_count : List Effect → Nat
  | [] => 0
  | Effect.action_chain_continue :: rest => continue_count rest + 1
  | _ :: rest => continue_count rest

/-- The number of `_tpl_action_chain_terminate` calls in a trace. -/
def terminate_count : List Effect → Nat
  | [] => 0
  | Effect.action_chain_terminate :: rest => terminate_count rest + 1
  | _ :: rest => terminate_count rest

end ChannelText

namespace TpAsv

/-! ## Typed lookups in an `a{sv}` map (dbus.c)

A map is a `GHashTable` from strings to `GValue`s, given by its entries; a key
occurs at most once in a hash table, and a lookup finds the first entry with the
key. -/

/-- The fundamental `GType`s of the values dbus-glib puts into an `a{sv}` map;
every other type is `other` (none of them derives from one of the eight, so
holding a type and being of that type are the same here). -/
inductive GType where
  | G_TYPE_UCHAR
  | G_TYPE_BOOLEAN
  | G_TYPE_INT
  | G_TYPE_UINT
  | G_TYPE_INT64
  | G_TYPE_UINT64
  | G_TYPE_DOUBLE
  | G_TYPE_STRING
  | other (name : String)
  deriving DecidableEq, Repr

/-- A `GValue`: its type and the data it holds. A string value may hold `NULL`
(`none`); a `double` is given by its bits, a value of another type by its
pointer. -/
inductive GValue where
  | uchar (v : Nat)
  | boolean (v : Bool)
  | int (v : Int)
  | uint (v : Nat)
  | int64 (v : Int)
  | uint64 (v : Nat)
  | double (bits : Nat)
  | string (v : Option String)
  | other (name : String) (data : Nat)
  deriving DecidableEq, Repr

/-- The data of a `GValue` lies in the range of its C type. -/
def GValue.in_range : GValue → Prop
  | GValue.uchar v => v < 256
  | GValue.int v => -2147483648 ≤ v ∧ v ≤ 2147483647
  | GValue.uint v => v < 4294967296
  | GValue.int64 v => -9223372036854775808 ≤ v ∧ v ≤ 9223372036854775807
  | GValue.uint64 v => v < 18446744073709551616
  | GValue.double bits => bits < 18446744073709551616
  | _ => True

/-- The macro `G_VALUE_TYPE (value)`. -/
def G_VALUE_TYPE : GValue → GType
  | GValue.uchar _ => GType.G_TYPE_UCHAR
  | GValue.boolean _ => GType.G_TYPE_BOOLEAN
  | GValue.int _ => GType.G_TYPE_INT
  | GValue.uint _ => GType.G_TYPE_UINT
  | GValue.int64 _ => GType.G_TYPE_INT64
  | GValue.uint64 _ => GType.G_TYPE_UINT64
  | GValue.double _ => GType.G_TYPE_DOUBLE
  | GValue.string _ => GType.G_TYPE_STRING
  | GValue.other name _ => GType.other name

/-- The macro `G_VALUE_HOLDS_BOOLEAN (value)`. -/
def G_VALUE_HOLDS_BOOLEAN (value : GValue) : Bool :=
  decide (G_VALUE_TYPE value = GType.G_TYPE_BOOLEAN)

/-- The macro `G_VALUE_HOLDS_STRING (value)`. -/
def G_VALUE_HOLDS_STRING (value : GValue) : Bool :=
  decide (G_VALUE_TYPE value = GType.G_TYPE_STRING)

/-- The function `g_value_get_boolean` (`FALSE` for a value of another type). -/
def g_value_get_boolean : GValue → Bool
  | GValue.boolean v => v
  | _ => false

/-- The function `g_value_get_string` (`NULL` for a value of another type). -/
def g_value_get_string : GValue → Option String
  | GValue.string v => v
  | _ => none

/-- The function `g_value_get_uchar` (0 for a value of another type). -/
def g_value_get_uchar : GValue → Nat
  | GValue.uchar v => v
  | _ => 0

/-- The function `g_value_get_uint` (0 for a value of another type). -/
def g_value_get_uint : GValue → Nat
  | GValue.uint v => v
  | _ => 0

/-- The function `g_value_get_int` (0 for a value of another type). -/
def g_value_get_int : GValue → Int
  | GValue.int v => v
  | _ => 0

/-- The function `g_value_get_int64` (0 for a value of another type). -/
def g_value_get_int64 : GValue → Int
  | GValue.int64 v => v
  | _ => 0

/-- The function `g_value_get_uint64` (0 for a value of another type). -/
def g_value_get_uint64 : GValue → Nat
  | GValue.uint64 v => v
  | _ => 0

/-- The macro `G_MAXUINT32`. -/
def G_MAXUINT32 : Nat := 4294967295

/-- The function `g_hash_table_lookup (asv, key)`: `NULL` (`none`) when the key is
absent. -/
def g_hash_table_lookup (asv : List (String × GValue)) (key : String) : Option GValue :=
  match asv with
  | [] => none
  | (k, v) :: rest => if k = key then some v else g_hash_table_lookup rest key

/-- The function `tp_asv_get_boolean`: the value returned and what is stored in
`*valid`. -/
def tp_asv_get_boolean (asv : List (String × GValue)) (key : String) : Bool × Bool :=
  match g_hash_table_lookup asv key with
  | none => (false, false)
  | some value =>
    if !G_VALUE_HOLDS_BOOLEAN value then (false, false)
    else (g_value_get_boolean value, true)

/-- The function `tp_asv_get_string`; `none` is `NULL`. -/
def tp_asv_get_string (asv : List (String × GValue)) (key : String) : Option String :=
  match g_hash_table_lookup asv key with
  | none => none
  | some value =>
    if !G_VALUE_HOLDS_STRING value then none
    else g_value_get_string value

/-- The function `tp_asv_get_uint32`: the value returned and what is stored in
`*valid`. Every assignment to the `guint32 ret` is taken modulo 2^32. -/
def tp_asv_get_uint32 (asv : List (String × GValue)) (key : String) : Nat × Bool :=
  match g_hash_table_lookup asv key with
  | none => (0, false)
  | some value =>
    match G_VALUE_TYPE value with
    | GType.G_TYPE_UCHAR => (g_value_get_uchar value % 4294967296, true)
    | GType.G_TYPE_UINT => (g_value_get_uint value % 4294967296, true)
    | GType.G_TYPE_INT =>
      let i := g_value_get_int value
      if i < 0 then (0, false) else ((i % 4294967296).toNat, true)
    | GType.G_TYPE_INT64 =>
      let i := g_value_get_int64 value
      if i < 0 ∨ i > G_MAXUINT32 then (0, false) else ((i % 4294967296).toNat, true)
    | GType.G_TYPE_UINT64 =>
      let u := g_value_get_uint64 value
      if u > G_MAXUINT32 then (0, false) else (u % 4294967296, true)
    | _ => (0, false)

/-- The integer a value of one of the five integer types holds; `none` for a
value of any other type. -/
def GValue.integer : GValue → Option Int
  | GValue.uchar v => some v
  | GValue.int v => some v
  | GValue.uint v => some v
  | GValue.int64 v => some v
  | GValue.uint64 v => some v
  | _ => none

/-- The properties of a call, as the tests read them. -/
def call_properties : List (String × GValue) :=
  [("CallState", GValue.uint 3), ("CallFlags", GValue.uint 0),
   ("HardwareStreaming", GValue.boolean true), ("InitialTransport", GValue.string (some "")),
   ("Offset", GValue.int64 (-1)), ("Big", GValue.uint64 4294967296)]

end TpAsv

namespace DBusCheck

open Tp

/-! ## Syntax checks for bus names and object paths (dbus.c)

A C string is the list of its bytes before the terminating NUL. -/

/-- `TP_DBUS_NAME_TYPE_UNIQUE` of the `TpDBusNameType` flags (dbus.h). -/
def TP_DBUS_NAME_TYPE_UNIQUE : Nat := 1

/-- `TP_DBUS_NAME_TYPE_WELL_KNOWN` of the `TpDBusNameType` flags (dbus.h). -/
def TP_DBUS_NAME_TYPE_WELL_KNOWN : Nat := 2

/-- `TP_DBUS_NAME_TYPE_BUS_DAEMON` of the `TpDBusNameType` flags (dbus.h). -/
def TP_DBUS_NAME_TYPE_BUS_DAEMON : Nat := 4

/-- `TP_DBUS_ERROR_INVALID_BUS_NAME` of the `TpDBusError` enumeration (proxy.h). -/
def TP_DBUS_ERROR_INVALID_BUS_NAME : Int := 4

/-- `TP_DBUS_ERROR_INVALID_OBJECT_PATH` of the `TpDBusError` enumeration
(proxy.h). -/
def TP_DBUS_ERROR_INVALID_OBJECT_PATH : Int := 6

/-- The bytes of a string literal that holds ASCII characters only. -/
def ascii (s : String) : List Nat :=
  s.toList.map Char.toNat

/-- The text of a C string, for an error message. -/
def text (bytes : List Nat) : String :=
  String.mk (bytes.map Char.ofNat)

/-- The macro `DBUS_SERVICE_DBUS` (dbus-shared.h). -/
def DBUS_SERVICE_DBUS : List Nat := ascii "org.freedesktop.DBus"

/-- The GLib function `g_ascii_isdigit`. -/
def g_ascii_isdigit (c : Nat) : Bool :=
  decide (48 ≤ c) && decide (c ≤ 57)

/-- The GLib function `g_ascii_isalpha`. -/
def g_ascii_isalpha (c : Nat) : Bool :=
  (decide (65 ≤ c) && decide (c ≤ 90)) || (decide (97 ≤ c) && decide (c ≤ 122))

/-- The GLib function `g_ascii_isalnum`. -/
def g_ascii_isalnum (c : Nat) : Bool :=
  g_ascii_isalpha c || g_ascii_isdigit c

/-- The error `g_set_error (error, TP_DBUS_ERRORS, TP_DBUS_ERROR_INVALID_BUS_NAME,
message)` sets. -/
def invalid_bus_name (message : String) : GError :=
  ⟨GQuark.TP_DBUS_ERRORS, TP_DBUS_ERROR_INVALID_BUS_NAME, message⟩

/-- The error `g_set_error (error, TP_DBUS_ERRORS,
TP_DBUS_ERROR_INVALID_OBJECT_PATH, message)` sets. -/
def invalid_object_path (message : String) : GError :=
  ⟨GQuark.TP_DBUS_ERRORS, TP_DBUS_ERROR_INVALID_OBJECT_PATH, message⟩

/-- The `for` loop of `tp_dbus_check_valid_bus_name` over the bytes from `ptr`
on, with the values `last` and `dot` have when `ptr` is reached; the result is
their values after the loop, or the error of the `return FALSE` taken. `'.'` is
46, `'_'` is 95, `'-'` is 45. -/
def bus_name_loop (name : List Nat) (unique : Bool) : Nat → Bool → List Nat →
    Except GError (Nat × Bool)
  | last, dot, [] => pure (last, dot)
  | last, dot, c :: rest =>
    if c = 46 then
      if last = 46 then
        throw (invalid_bus_name ("Invalid bus name '" ++ text name ++ "': contains '..'"))
      else if last = 0 then
        throw (invalid_bus_name
          ("Invalid bus name '" ++ text name ++ "': must not start with '.'"))
      else bus_name_loop name unique c true rest
    else if g_ascii_isdigit c then
      if !unique then
        if last = 46 then
          throw (invalid_bus_name
            ("Invalid bus name '" ++ text name ++ "': a digit may not follow '.' " ++
              "except in a unique name starting with ':'"))
        else if last = 0 then
          throw (invalid_bus_name
            ("Invalid bus name '" ++ text name ++ "': must not start with a digit"))
        else bus_name_loop name unique c dot rest
      else bus_name_loop name unique c dot rest
    else if !g_ascii_isalpha c && c ≠ 95 && c ≠ 45 then
      throw (invalid_bus_name
        ("Invalid bus name '" ++ text name ++ "': contains invalid character '" ++
          text [c] ++ "'"))
    else bus_name_loop name unique c dot rest

/-- The function `tp_dbus_check_valid_bus_name`: the return value and the error
set. `':'` is 58. -/
def tp_dbus_check_valid_bus_name (name : List Nat) (allow_types : Nat) :
    Bool × Option GError :=
  if name = [] then
    (false, some (invalid_bus_name "The empty string is not a valid bus name"))
  else if name = DBUS_SERVICE_DBUS then
    if allow_types &&& TP_DBUS_NAME_TYPE_BUS_DAEMON ≠ 0 then (true, none)
    else (false, some (invalid_bus_name "The D-Bus daemon's bus name is not acceptable here"))
  else
    let unique := decide (name.head? = some 58)
    if unique = true ∧ allow_types &&& TP_DBUS_NAME_TYPE_UNIQUE = 0 then
      (false, some (invalid_bus_name
        ("A well-known bus name not starting with ':'" ++
          (if allow_types &&& TP_DBUS_NAME_TYPE_BUS_DAEMON ≠ 0 then " (or the bus daemon itself)"
           else "") ++ " is required")))
    else if unique = false ∧ allow_types &&& TP_DBUS_NAME_TYPE_WELL_KNOWN = 0 then
      (false, some (invalid_bus_name
        ("A unique bus name starting with ':'" ++
          (if allow_types &&& TP_DBUS_NAME_TYPE_BUS_DAEMON ≠ 0 then " (or the bus daemon itself)"
           else "") ++ " is required")))
    else if name.length > 255 then
      (false, some (invalid_bus_name "Invalid bus name: too long (> 255 characters)"))
    else
      match bus_name_loop name unique 0 false (if unique then name.drop 1 else name) with
      | Except.error e => (false, some e)
      | Except.ok (last, dot) =>
        if last = 46 then
          (false, some (invalid_bus_name
            ("Invalid bus name '" ++ text name ++ "': must not end with '.'")))
        else if !dot then
          (false, some (invalid_bus_name
            ("Invalid bus name '" ++ text name ++ "': must contain '.'")))
        else (true, none)

/-- The `for` loop of `tp_dbus_check_valid_object_path` over the bytes from `ptr`
on; `prev` is `ptr[-1]`. The result is the last byte read, or the error of the
`return FALSE` taken. `'/'` is 47. -/
def object_path_loop (path : List Nat) : Nat → List Nat → Except GError Nat
  | prev, [] => pure prev
  | prev, c :: rest =>
    if c = 47 then
      if prev = 47 then
        throw (invalid_object_path ("Invalid object path '" ++ text path ++ "': contains '//'"))
      else object_path_loop path c rest
    else if !g_ascii_isalnum c && c ≠ 95 then
      throw (invalid_object_path
        ("Invalid object path '" ++ text path ++ "': contains invalid character '" ++
          text [c] ++ "'"))
    else object_path_loop path c rest

/-- The function `tp_dbus_check_valid_object_path`: the return value and the
error set. -/
def tp_dbus_check_valid_object_path (path : List Nat) : Bool × Option GError :=
  match path with
  | [] =>
    (false, some (invalid_object_path
      ("Invalid object path '" ++ text path ++ "': must start with '/'")))
  | first :: rest =>
    if first ≠ 47 then
      (false, some (invalid_object_path
        ("Invalid object path '" ++ text path ++ "': must start with '/'")))
    else if rest = [] then (true, none)
    else
      match object_path_loop path first rest with
      | Except.error e => (false, some e)
      | Except.ok last =>
        if last = 47 then
          (false, some (invalid_object_path
            ("Invalid object path '" ++ text path ++ "': is not '/' but does end with '/'")))
        else (true, none)

/-! ## What the claims call a valid name and a valid path -/

/-- The pieces of a string between the occurrences of the separator `sep`. -/
def split_on (sep : Nat) : List Nat → List (List Nat)
  | [] => [[]]
  | c :: rest =>
    if c = sep then [] :: split_on sep rest
    else (c :: (split_on sep rest).headD []) :: (split_on sep rest).tail

/-- A character of `[A-Za-z0-9_-]`. -/
def name_char (c : Nat) : Bool :=
  g_ascii_isalpha c || g_ascii_isdigit c || decide (c = 95) || decide (c = 45)

/-- A character of `[A-Za-z0-9_]`. -/
def path_char (c : Nat) : Bool :=
  g_ascii_isalpha c || g_ascii_isdigit c || decide (c = 95)

/-- A non-empty element over `[A-Za-z0-9_-]` which, unless `unique`, does not
begin with a digit. -/
def element_ok (unique : Bool) (e : List Nat) : Prop :=
  e ≠ [] ∧ (∀ c ∈ e, name_char c = true)
    ∧ (unique = true ∨ g_ascii_isdigit (e.headD 0) = false)

/-- The syntax of a unique name: `':'` followed by two or more `'.'`-separated
non-empty elements over `[A-Za-z0-9_-]`. -/
def unique_syntax (name : List Nat) : Prop :=
  name.head? = some 58 ∧ 2 ≤ (split_on 46 (name.drop 1)).length
    ∧ ∀ e ∈ split_on 46 (name.drop 1), e ≠ [] ∧ ∀ c ∈ e, name_char c = true

/-- The syntax of a well-known name: it does not start with `':'` and is made of
two or more `'.'`-separated non-empty elements over `[A-Za-z0-9_-]`, none of which
begins with a digit. -/
def well_known_syntax (name : List Nat) : Prop :=
  name.head? ≠ some 58 ∧ 2 ≤ (split_on 46 name).length
    ∧ ∀ e ∈ split_on 46 name,
        e ≠ [] ∧ (∀ c ∈ e, name_char c = true) ∧ g_ascii_isdigit (e.headD 0) = false

/-- A non-empty segment over `[A-Za-z0-9_]`. -/
def segment_ok (s : List Nat) : Prop :=
  s ≠ [] ∧ ∀ c ∈ s, path_char c = true

/-- The path made of the segments: each segment preceded by `'/'`. -/
def path_of : List (List Nat) → List Nat
  | [] => []
  | s :: rest => 47 :: s ++ path_of rest

/-- What remains to be read of a bus name is acceptable: `es` are the pieces of
the bytes not yet read; the first continues the element being read when
`in_element`; `dot` tells whether a `'.'` was read already. -/
def rest_ok (unique in_element dot : Bool) (es : List (List Nat)) : Prop :=
  (∀ c ∈ es.headD [], name_char c = true)
    ∧ (in_element = true
        ∨ (es.headD [] ≠ [] ∧ (unique = true ∨ g_ascii_isdigit ((es.headD []).headD 0) = false)))
    ∧ (∀ e ∈ es.tail, element_ok unique e)
    ∧ (dot = true ∨ 2 ≤ es.length)

/-- What remains to be read of an object path is acceptable: `es` are the
pieces of the bytes not yet read; the first continues the segment being read when
`in_segment`. -/
def path_rest_ok (in_segment : Bool) (es : List (List Nat)) : Prop :=
  (∀ c ∈ es.headD [], path_char c = true)
    ∧ (in_segment = true ∨ es.headD [] ≠ [])
    ∧ (∀ e ∈ es.tail, segment_ok e)

end DBusCheck

namespace TextMixin

/-! ## Sequences of `tp_text_mixin_receive` calls and late timestamps -/

/-- The return values a sequence of `tp_text_mixin_receive` calls is to have when
the allocator has `count` structs outstanding before it: a call is rejected when
256 structs are outstanding or its text allocation fails, and an accepted call
takes one more struct. -/
def expected_returns (count : Nat) : List ReceiveArgs → List Bool
  | [] => []
  | a :: rest =>
    if count = MAX_PENDING_MESSAGES ∨ a.try_malloc_ok = false then
      false :: expected_returns count rest
    else true :: expected_returns (count + 1) rest

/-- A call of `tp_text_mixin_receive` whose text allocation fails. -/
def call_no_text : ReceiveArgs := ⟨0, 5, 100, [104, 105], false⟩

/-- The message `"hi"` with the timestamp 2^32 + 100. -/
def late : Op := Op.receive 0 5 4294967396 [104, 105] true

end TextMixin

/-! # Theorems: account-channel-request.c -/

namespace Acr

open Tp

theorem request_disconnect_ok (self : TpAccountChannelRequest) (h : Connected_ok self) :
    request_disconnect self
      = Except.ok { self with
          invalidated_sig := 0
          trace := self.trace ++ disconnect_trace self } := by
  cases self with
  | mk account request uat handler ensure cancellable result chan_request invalidated_sig
      cancel_id channel handle_context dbus factory requested should_handle ref_count trace =>
    simp only [Connected_ok] at h
    unfold request_disconnect disconnect_trace
    by_cases h0 : invalidated_sig = 0
    · simp [h0, pure, Except.pure]
    · cases chan_request with
      | none => exact absurd rfl (h h0)
      | some cr => simp [h0, TpAccountChannelRequest.emit, pure, Except.pure]

theorem complete_result_ok (self : TpAccountChannelRequest) (r : GSimpleAsyncResult)
    (hr : self.result = some r) (h : Connected_ok self) :
    complete_result self = Except.ok (completed self r) := by
  unfold complete_result
  rw [hr]
  simp only [request_disconnect_ok self h]
  simp [completed, TpAccountChannelRequest.emit, pure, Except.pure]

theorem request_fail_ok (self : TpAccountChannelRequest) (r : GSimpleAsyncResult)
    (error : GError) (hr : self.result = some r) (h : Connected_ok self) :
    request_fail self error = Except.ok (completed self { r with error := some error }) := by
  unfold request_fail
  rw [hr]
  simp only []
  rw [complete_result_ok _ { r with error := some error } rfl (by exact h)]
  simp [completed, disconnect_trace]

theorem complete_result_inv (self s : TpAccountChannelRequest)
    (h : complete_result self = Except.ok s) :
    ∃ r, self.result = some r ∧ s = completed self r := by
  cases self with
  | mk account request uat handler ensure cancellable result chan_request invalidated_sig
      cancel_id channel handle_context dbus factory requested should_handle ref_count trace =>
    cases result with
    | none => simp [complete_result, throw, throwThe, MonadExceptOf.throw] at h
    | some r =>
      refine ⟨r, rfl, ?_⟩
      by_cases h0 : invalidated_sig = 0
      · subst h0
        simp [complete_result, request_disconnect, pure, Except.pure,
          TpAccountChannelRequest.emit] at h
        simp [completed, disconnect_trace, ← h]
      · cases chan_request with
        | none =>
          simp [complete_result, request_disconnect, h0, throw, throwThe,
            MonadExceptOf.throw] at h
        | some cr =>
          simp [complete_result, request_disconnect, h0, pure, Except.pure,
            TpAccountChannelRequest.emit] at h
          simp [completed, disconnect_trace, h0, ← h]

theorem request_fail_inv (self s : TpAccountChannelRequest) (error : GError)
    (h : request_fail self error = Except.ok s) :
    ∃ r, self.result = some r ∧ s = completed self { r with error := some error } := by
  cases hr : self.result with
  | none =>
    simp only [request_fail, hr] at h
    obtain ⟨r, hr2, _⟩ := complete_result_inv _ _ h
    simp [TpAccountChannelRequest.emit, hr] at hr2
  | some r =>
    simp only [request_fail, hr] at h
    obtain ⟨r2, hr2, hs⟩ := complete_result_inv _ _ h
    simp only [Option.some.injEq] at hr2
    subst hr2
    exact ⟨r, rfl, by rw [hs]; simp [completed, disconnect_trace]⟩

theorem completions_append (xs ys : List Effect) :
    completions (xs ++ ys) = completions xs ++ completions ys := by
  induction xs with
  | nil => rfl
  | cons x xs ih => cases x <;> simp [completions, ih]

theorem completions_disconnect_trace (self : TpAccountChannelRequest) :
    completions (disconnect_trace self) = [] := by
  unfold disconnect_trace
  split
  · rfl
  · split <;> rfl

theorem completions_completed (self : TpAccountChannelRequest) (r : GSimpleAsyncResult) :
    completions (completed self r).trace = completions self.trace ++ [r] := by
  simp [completed, completions_append, completions_disconnect_trace, completions]

theorem connected_ok_completed (self : TpAccountChannelRequest) (r : GSimpleAsyncResult) :
    Connected_ok (completed self r) := by
  intro h
  exact absurd rfl h

/-- The single-channel, result-pending path of `handle_channels`. -/
theorem handle_channels_pending (self : TpAccountChannelRequest) (r : GSimpleAsyncResult)
    (channel : TpChannel) (t : Int) (ctx : Nat)
    (hc : Connected_ok self) (hr : self.result = some r) :
    ∃ s1, handle_channels self [channel] t ctx = Except.ok s1 ∧ s1.result = none ∧
      s1.channel = some channel ∧ s1.handle_context = some ctx ∧
      s1.should_handle = self.should_handle ∧ s1.invalidated_sig = 0 ∧
      completions s1.trace = completions self.trace ++ [r] := by
  cases hi : channel.invalidated with
  | none =>
    simp only [handle_channels, TpAccountChannelRequest.emit, hr, tp_proxy_get_invalidated,
      hi, handle_request_complete]
    refine ⟨completed _ r, complete_result_ok _ r rfl ?_, ?_⟩
    · exact hc
    · simp [completed, completions_append, completions_disconnect_trace, completions]
  | some e =>
    simp only [handle_channels, TpAccountChannelRequest.emit, hr, tp_proxy_get_invalidated,
      hi, handle_request_complete]
    refine ⟨completed _ r, complete_result_ok _ r rfl ?_, ?_⟩
    · exact hc
    · simp [completed, completions_append, completions_disconnect_trace, completions]

theorem object_removed_noop (self : TpAccountChannelRequest) (message : String)
    (hs : self.should_handle = true) (hr : self.result = none) :
    acr_channel_request_invalidated_cb self GQuark.TP_DBUS_ERRORS TP_DBUS_ERROR_OBJECT_REMOVED
      message = Except.ok self := by
  simp [acr_channel_request_invalidated_cb, g_error_matches, channel_request_succeeded, hs, hr,
    pure, Except.pure]

/-- C3: for a self-handling coordinator whose result is pending, invalidation of the
request object with `TP_DBUS_ERROR_OBJECT_REMOVED` completes the result with the
error `TP_ERROR_NOT_YOURS` (not as success); when `handle_channels` has delivered a
channel first, the same invalidation (the callback itself, and its delivery by
the main loop) leaves the object exactly as it was. -/
theorem C3_object_removed_unhandled_is_not_yours (self : TpAccountChannelRequest)
    (r : GSimpleAsyncResult) (message : String) (channel : TpChannel) (t : Int) (ctx : Nat)
    (hs : self.should_handle = true) (hc : Connected_ok self) (hr : self.result = some r) :
    acr_channel_request_invalidated_cb self GQuark.TP_DBUS_ERRORS TP_DBUS_ERROR_OBJECT_REMOVED
        message
      = Except.ok (completed self { r with error := some not_yours_error })
    ∧ ∃ s1, handle_channels self [channel] t ctx = Except.ok s1
        ∧ s1.channel = some channel
        ∧ completions s1.trace = completions self.trace ++ [r]
        ∧ acr_channel_request_invalidated_cb s1 GQuark.TP_DBUS_ERRORS
            TP_DBUS_ERROR_OBJECT_REMOVED message = Except.ok s1
        ∧ deliver s1 (Event.request_invalidated GQuark.TP_DBUS_ERRORS
            TP_DBUS_ERROR_OBJECT_REMOVED message) = Except.ok s1 := by
  constructor
  · simp only [acr_channel_request_invalidated_cb, g_error_matches, decide_True, Bool.and_self,
      if_true, channel_request_succeeded, hs, hr]
    exact request_fail_ok self r _ hr hc
  · obtain ⟨s1, h1, hres, hch, _, hsh, hsig, hcomp⟩ :=
      handle_channels_pending self r channel t ctx hc hr
    refine ⟨s1, h1, hch, hcomp, object_removed_noop s1 message (hsh.trans hs) hres, ?_⟩
    simp [deliver, hsig, pure, Except.pure]

/-- C4: when `handle_channels` is called with more than one channel while the
result is pending, the context is failed with `TP_ERROR_INVALID_ARGUMENT` and never
accepted, the stored channel and context are untouched, and the result is
completed with that same error. -/
theorem C4_more_than_one_channel_fails_invalid_argument (self : TpAccountChannelRequest)
    (r : GSimpleAsyncResult) (channels : List TpChannel) (t : Int) (ctx : Nat)
    (hc : Connected_ok self) (hr : self.result = some r) (hlen : 1 < channels.length) :
    ∃ s, handle_channels self channels t ctx = Except.ok s
      ∧ s = completed (self.emit (Effect.context_fail ctx invalid_argument_error))
            { r with error := some invalid_argument_error }
      ∧ s.channel = self.channel ∧ s.handle_context = self.handle_context
      ∧ s.result = none
      ∧ Effect.context_accept ctx ∉ s.trace.drop self.trace.length
      ∧ completions s.trace = completions self.trace ++
          [{ r with error := some invalid_argument_error }] := by
  have hfail : handle_channels self channels t ctx
      = request_fail (self.emit (Effect.context_fail ctx invalid_argument_error))
          invalid_argument_error := by
    match channels, hlen with
    | [], h => simp at h
    | [_], h => simp at h
    | _ :: _ :: _, _ => rfl
  refine ⟨_, ?_, rfl, rfl, rfl, rfl, ?_, ?_⟩
  · rw [hfail]
    exact request_fail_ok _ r _ hr hc
  · simp only [completed, TpAccountChannelRequest.emit, List.append_assoc,
      List.drop_left]
    unfold disconnect_trace
    simp only []
    split
    · simp
    · split <;> simp
  · simp [completed, TpAccountChannelRequest.emit, completions_append,
      completions_disconnect_trace, completions]

/-- C5: once the result has been consumed (`priv->result == NULL`, as after a
delivered channel), `handle_channels` with exactly one channel accepts the context
and emits `re-handled` once, with the stored channel, the new user action time and
the new context; nothing else changes: the result stays consumed, the stored
channel and handle context stay, and no completion is added. -/
theorem C5_rehandle_emits_signal_only (self : TpAccountChannelRequest) (channel : TpChannel)
    (t : Int) (ctx : Nat) (hr : self.result = none) :
    handle_channels self [channel] t ctx
      = Except.ok { self with trace := self.trace ++
          [Effect.context_accept ctx, Effect.emit_re_handled self.channel t ctx] }
    ∧ completions (self.trace ++
          [Effect.context_accept ctx, Effect.emit_re_handled self.channel t ctx])
        = completions self.trace := by
  constructor
  · simp [handle_channels, TpAccountChannelRequest.emit, hr, pure, Except.pure]
  · simp [completions_append, completions]

/-- C6: with a pending result, each transport failure completes the result with
exactly the error received: the dispatcher's reply with error `e`, the Proceed
reply with error `e`, and invalidation of the request object with any
`(domain, code, message)` that is not `TP_DBUS_ERROR_OBJECT_REMOVED`. -/
theorem C6_transport_failure_is_reported_verbatim (self : TpAccountChannelRequest)
    (r : GSimpleAsyncResult) (e : GError) (domain : GQuark) (code : Int) (message : String)
    (path : String) (new_error : Option GError) (sig_id cancel_id : Nat)
    (hc : Connected_ok self) (hr : self.result = some r)
    (hne : ¬ (domain = GQuark.TP_DBUS_ERRORS ∧ code = TP_DBUS_ERROR_OBJECT_REMOVED)) :
    acr_request_cb self path (some e) new_error sig_id cancel_id
        = Except.ok (completed self { r with error := some e })
    ∧ acr_channel_request_proceed_cb self (some e)
        = Except.ok (completed self { r with error := some e })
    ∧ acr_channel_request_invalidated_cb self domain code message
        = Except.ok (completed self { r with error := some ⟨domain, code, message⟩ }) := by
  refine ⟨?_, ?_, ?_⟩
  · simp only [acr_request_cb]
    exact request_fail_ok self r e hr hc
  · simp only [acr_channel_request_proceed_cb]
    exact request_fail_ok self r e hr hc
  · have hm : g_error_matches ⟨domain, code, message⟩ GQuark.TP_DBUS_ERRORS
        TP_DBUS_ERROR_OBJECT_REMOVED = false := by
      simp only [g_error_matches, Bool.and_eq_false_imp, decide_eq_true_eq, decide_eq_false_iff_not]
      intro hd hcode
      exact hne ⟨hd, hcode⟩
    simp only [acr_channel_request_invalidated_cb, hm]
    exact request_fail_ok self r _ hr hc

/-- C8: when the cancellable is already cancelled at the call, a request method
registers no handler, issues no remote call, creates no pending result and adds
a single trace entry; on an object not yet used that entry reports
`G_IO_ERROR_CANCELLED` to the caller's callback from idle. -/
theorem C8_cancelled_before_call_makes_no_remote_call (m : SourceTag)
    (self : TpAccountChannelRequest) (a : CallArgs)
    (hcan : g_cancellable_is_cancelled a.cancellable = true) :
    (request_method m self a).result = self.result
    ∧ (request_method m self a).handler = self.handler
    ∧ (∃ e, (request_method m self a).trace = self.trace ++ [e] ∧ e.is_remote_call = false)
    ∧ (self.requested = false →
        (request_method m self a).trace = self.trace ++
          [Effect.report_error_in_idle a.callback a.user_data cancelled_error]) := by
  cases hreq : self.requested <;> cases m <;>
    simp [request_method, tp_account_channel_request_create_and_handle_channel_async,
      tp_account_channel_request_ensure_and_handle_channel_async,
      tp_account_channel_request_create_channel_async,
      tp_account_channel_request_ensure_channel_async,
      request_and_handle_channel_async, request_channel_async, hreq, hcan,
      TpAccountChannelRequest.emit, Effect.is_remote_call]

theorem request_method_requested (m : SourceTag) (self : TpAccountChannelRequest)
    (a : CallArgs) : (request_method m self a).requested = true := by
  cases hreq : self.requested <;> cases m <;>
    simp only [request_method, tp_account_channel_request_create_and_handle_channel_async,
      tp_account_channel_request_ensure_and_handle_channel_async,
      tp_account_channel_request_create_channel_async,
      tp_account_channel_request_ensure_channel_async,
      request_and_handle_channel_async, request_channel_async, hreq,
      TpAccountChannelRequest.emit, if_true, Bool.false_eq_true, if_false] <;>
    (repeat' split) <;> rfl

theorem request_fail_requested (self s : TpAccountChannelRequest) (error : GError)
    (h : request_fail self error = Except.ok s) : s.requested = self.requested := by
  obtain ⟨r, _, hs⟩ := request_fail_inv self s error h
  rw [hs]
  rfl

theorem complete_result_requested (self s : TpAccountChannelRequest)
    (h : complete_result self = Except.ok s) : s.requested = self.requested := by
  obtain ⟨r, _, hs⟩ := complete_result_inv self s h
  rw [hs]
  rfl

theorem deliver_requested (self s : TpAccountChannelRequest) (ev : Event)
    (h : deliver self ev = Except.ok s) (hreq : self.requested = true) :
    s.requested = true := by
  cases ev with
  | request m a =>
    simp only [deliver, pure, Except.pure, Except.ok.injEq] at h
    rw [← h]
    exact request_method_requested m self a
  | set_channel_factory f =>
    simp only [deliver, pure, Except.pure, Except.ok.injEq,
      tp_account_channel_request_set_channel_factory, hreq, if_true] at h
    rw [← h]
    exact hreq
  | handle_channels channels t ctx =>
    simp only [deliver] at h
    split at h
    · split at h
      · unfold handle_channels at h
        split at h
        · try dsimp only at h
          split at h
          · simp only [pure, Except.pure, Except.ok.injEq] at h
            rw [← h]
            exact hreq
          · simp only [handle_request_complete] at h
            rw [complete_result_requested _ _ h]
            split <;> exact hreq
        · rw [request_fail_requested _ _ _ h]
          exact hreq
      · simp only [pure, Except.pure, Except.ok.injEq] at h
        rw [← h]
        exact hreq
    · simp only [pure, Except.pure, Except.ok.injEq] at h
      rw [← h]
      exact hreq
  | request_invalidated domain code message =>
    simp only [deliver] at h
    split at h
    · simp only [pure, Except.pure, Except.ok.injEq] at h
      rw [← h]
      exact hreq
    · unfold acr_channel_request_invalidated_cb at h
      try dsimp only at h
      split at h
      · unfold channel_request_succeeded at h
        split at h
        · try dsimp only at h
          split at h
          · simp only [pure, Except.pure, Except.ok.injEq] at h
            rw [← h]
            exact hreq
          · rw [request_fail_requested _ _ _ h]
            exact hreq
        · rw [complete_result_requested _ _ h]
          exact hreq
      · rw [request_fail_requested _ _ _ h]
        exact hreq
  | request_reply path error new_error sig_id cancel_id =>
    simp only [deliver] at h
    unfold acr_request_cb at h
    split at h
    · rw [request_fail_requested _ _ _ h]
      exact hreq
    · split at h
      · rw [request_fail_requested _ _ _ h]
        exact hreq
      · try dsimp only at h
        split at h
        · split at h
          · simp only [pure, Except.pure, Except.ok.injEq] at h
            rw [← h]
            simp only [acr_operation_cancelled_cb, TpAccountChannelRequest.emit]
            exact hreq
          · simp only [pure, Except.pure, Except.ok.injEq] at h
            rw [← h]
            exact hreq
        · simp only [pure, Except.pure, Except.ok.injEq] at h
          rw [← h]
          exact hreq
  | proceed_reply error =>
    simp only [deliver] at h
    unfold acr_channel_request_proceed_cb at h
    split at h
    · rw [request_fail_requested _ _ _ h]
      exact hreq
    · simp only [pure, Except.pure, Except.ok.injEq] at h
      rw [← h]
      exact hreq
  | cancel_reply error =>
    simp only [deliver, pure, Except.pure, Except.ok.injEq, acr_channel_request_cancel_cb] at h
    rw [← h]
    exact hreq
  | operation_cancelled =>
    simp only [deliver] at h
    split at h
    · simp only [pure, Except.pure, Except.ok.injEq] at h
      rw [← h]
      exact hreq
    · split at h
      · simp only [pure, Except.pure, Except.ok.injEq] at h
        rw [← h]
        exact hreq
      · try dsimp only at h
        split at h
        · simp only [pure, Except.pure, Except.ok.injEq] at h
          rw [← h]
          exact hreq
        · simp only [pure, Except.pure, Except.ok.injEq] at h
          rw [← h]
          simp only [acr_operation_cancelled_cb, TpAccountChannelRequest.emit]
          split <;> exact hreq
  | channel_invalidated =>
    simp only [deliver, pure, Except.pure, Except.ok.injEq, acr_channel_invalidated_cb] at h
    rw [← h]
    exact hreq

theorem run_requested (events : List Event) (self s : TpAccountChannelRequest)
    (h : run self events = Except.ok s) (hreq : self.requested = true) :
    s.requested = true := by
  induction events generalizing self with
  | nil =>
    simp only [run, pure, Except.pure, Except.ok.injEq] at h
    rw [← h]
    exact hreq
  | cons ev rest ih =>
    simp only [run] at h
    cases hd : deliver self ev with
    | error f => simp [hd, throw, throwThe, MonadExceptOf.throw] at h
    | ok s1 =>
      simp only [hd] at h
      exact ih s1 h (deliver_requested self s1 ev hd hreq)

theorem connected_ok_of_fields (self s : TpAccountChannelRequest) (h : Connected_ok self)
    (h1 : s.invalidated_sig = self.invalidated_sig) (h2 : s.chan_request = self.chan_request) :
    Connected_ok s := by
  intro hs
  rw [h2]
  exact h (h1 ▸ hs)

theorem request_method_connection (m : SourceTag) (self : TpAccountChannelRequest)
    (a : CallArgs) :
    (request_method m self a).invalidated_sig = self.invalidated_sig
    ∧ (request_method m self a).chan_request = self.chan_request := by
  cases hreq : self.requested <;> cases m <;>
    simp only [request_method, tp_account_channel_request_create_and_handle_channel_async,
      tp_account_channel_request_ensure_and_handle_channel_async,
      tp_account_channel_request_create_channel_async,
      tp_account_channel_request_ensure_channel_async,
      request_and_handle_channel_async, request_channel_async, hreq,
      TpAccountChannelRequest.emit, if_true, Bool.false_eq_true, if_false] <;>
    (repeat' split) <;> first | exact ⟨rfl, rfl⟩ | exact ⟨trivial, trivial⟩

theorem connected_ok_request_fail (self s : TpAccountChannelRequest) (error : GError)
    (h : request_fail self error = Except.ok s) : Connected_ok s := by
  obtain ⟨r, _, hs⟩ := request_fail_inv self s error h
  rw [hs]
  exact connected_ok_completed self _

theorem connected_ok_complete_result (self s : TpAccountChannelRequest)
    (h : complete_result self = Except.ok s) : Connected_ok s := by
  obtain ⟨r, _, hs⟩ := complete_result_inv self s h
  rw [hs]
  exact connected_ok_completed self _

/-- No callback and no method call leaves the request object's handler connected
without a request object. -/
theorem deliver_connected_ok (self s : TpAccountChannelRequest) (ev : Event)
    (h : deliver self ev = Except.ok s) (hc : Connected_ok self) : Connected_ok s := by
  cases ev with
  | request m a =>
    simp only [deliver, pure, Except.pure, Except.ok.injEq] at h
    rw [← h]
    exact connected_ok_of_fields self _ hc (request_method_connection m self a).1
      (request_method_connection m self a).2
  | set_channel_factory f =>
    simp only [deliver, pure, Except.pure, Except.ok.injEq,
      tp_account_channel_request_set_channel_factory] at h
    rw [← h]
    split <;> exact connected_ok_of_fields self _ hc rfl rfl
  | handle_channels channels t ctx =>
    simp only [deliver] at h
    split at h
    · split at h
      · unfold handle_channels at h
        split at h
        · try dsimp only at h
          split at h
          · simp only [pure, Except.pure, Except.ok.injEq] at h
            rw [← h]
            exact connected_ok_of_fields self _ hc rfl rfl
          · exact connected_ok_complete_result _ s h
        · exact connected_ok_request_fail _ s _ h
      · simp only [pure, Except.pure, Except.ok.injEq] at h
        rw [← h]
        exact hc
    · simp only [pure, Except.pure, Except.ok.injEq] at h
      rw [← h]
      exact hc
  | request_invalidated domain code message =>
    simp only [deliver] at h
    split at h
    · simp only [pure, Except.pure, Except.ok.injEq] at h
      rw [← h]
      exact hc
    · unfold acr_channel_request_invalidated_cb at h
      try dsimp only at h
      split at h
      · unfold channel_request_succeeded at h
        split at h
        · try dsimp only at h
          split at h
          · simp only [pure, Except.pure, Except.ok.injEq] at h
            rw [← h]
            exact hc
          · exact connected_ok_request_fail _ s _ h
        · exact connected_ok_complete_result _ s h
      · exact connected_ok_request_fail _ s _ h
  | request_reply path error new_error sig_id cancel_id =>
    simp only [deliver] at h
    unfold acr_request_cb at h
    split at h
    · exact connected_ok_request_fail _ s _ h
    · split at h
      · exact connected_ok_request_fail _ s _ h
      · try dsimp only at h
        split at h
        · split at h
          · simp only [pure, Except.pure, Except.ok.injEq] at h
            rw [← h]
            intro _ hn
            simp [acr_operation_cancelled_cb, TpAccountChannelRequest.emit] at hn
          · simp only [pure, Except.pure, Except.ok.injEq] at h
            rw [← h]
            intro _ hn
            simp [TpAccountChannelRequest.emit] at hn
        · simp only [pure, Except.pure, Except.ok.injEq] at h
          rw [← h]
          intro _ hn
          simp [TpAccountChannelRequest.emit] at hn
  | proceed_reply error =>
    simp only [deliver] at h
    unfold acr_channel_request_proceed_cb at h
    split at h
    · exact connected_ok_request_fail _ s _ h
    · simp only [pure, Except.pure, Except.ok.injEq] at h
      rw [← h]
      exact hc
  | cancel_reply error =>
    simp only [deliver, pure, Except.pure, Except.ok.injEq, acr_channel_request_cancel_cb] at h
    rw [← h]
    exact hc
  | operation_cancelled =>
    simp only [deliver] at h
    split at h
    · simp only [pure, Except.pure, Except.ok.injEq] at h
      rw [← h]
      exact hc
    · split at h
      · simp only [pure, Except.pure, Except.ok.injEq] at h
        rw [← h]
        exact hc
      · try dsimp only at h
        split at h
        · simp only [pure, Except.pure, Except.ok.injEq] at h
          rw [← h]
          exact connected_ok_of_fields self _ hc rfl rfl
        · simp only [pure, Except.pure, Except.ok.injEq] at h
          rw [← h]
          simp only [acr_operation_cancelled_cb]
          split <;> exact connected_ok_of_fields self _ hc rfl rfl
  | channel_invalidated =>
    simp only [deliver, pure, Except.pure, Except.ok.injEq, acr_channel_invalidated_cb] at h
    rw [← h]
    exact connected_ok_of_fields self _ hc rfl rfl

/-- Every state a run reaches from a newly constructed object satisfies
`Connected_ok`. -/
theorem run_connected_ok (events : List Event) (self s : TpAccountChannelRequest)
    (h : run self events = Except.ok s) (hc : Connected_ok self) : Connected_ok s := by
  induction events generalizing self with
  | nil =>
    simp only [run, pure, Except.pure, Except.ok.injEq] at h
    rw [← h]
    exact hc
  | cons ev rest ih =>
    simp only [run] at h
    cases hd : deliver self ev with
    | error f => simp [hd, throw, throwThe, MonadExceptOf.throw] at h
    | ok s1 =>
      simp only [hd] at h
      exact ih s1 h (deliver_connected_ok self s1 ev hd hc)

theorem new_connected_ok (account : Option TpAccount) (request : Option Asv) (uat : Int)
    (s0 : TpAccountChannelRequest)
    (h0 : tp_account_channel_request_new account request uat = some s0) :
    Connected_ok s0 := by
  cases account with
  | none => simp [tp_account_channel_request_new] at h0
  | some account =>
    cases request with
    | none => simp [tp_account_channel_request_new] at h0
    | some request =>
      simp only [tp_account_channel_request_new, Option.some.injEq] at h0
      rw [← h0]
      intro hn
      exact absurd rfl hn

theorem request_method_already_requested (m : SourceTag) (self : TpAccountChannelRequest)
    (a : CallArgs) (hreq : self.requested = true) :
    request_method m self a = self.emit (Effect.critical "!self->priv->requested") := by
  cases m <;>
    simp [request_method, tp_account_channel_request_create_and_handle_channel_async,
      tp_account_channel_request_ensure_and_handle_channel_async,
      tp_account_channel_request_create_channel_async,
      tp_account_channel_request_ensure_channel_async,
      request_and_handle_channel_async, request_channel_async, hreq]

/-- C2: after one call of any of the four request methods, whatever its arguments
and outcome and whatever events (further calls included) follow it, every later
call of any of the four fails the guard `g_return_if_fail (!self->priv->requested)`:
it logs that critical and returns, changing no field of the object and making no
other call (no handler registration, no dispatcher call). -/
theorem C2_second_request_is_rejected (s0 s : TpAccountChannelRequest) (m1 m2 : SourceTag)
    (a1 a2 : CallArgs) (events : List Event)
    (hrun : run (request_method m1 s0 a1) events = Except.ok s) :
    request_method m2 s a2 = s.emit (Effect.critical "!self->priv->requested")
    ∧ (request_method m2 s a2).trace = s.trace ++ [Effect.critical "!self->priv->requested"]
    ∧ { request_method m2 s a2 with trace := s.trace } = s := by
  have hreq : s.requested = true :=
    run_requested events _ s hrun (request_method_requested m1 s0 a1)
  rw [request_method_already_requested m2 s a2 hreq]
  exact ⟨rfl, rfl, rfl⟩

/-- C1 (the code departs from it): on a self-handling request the first
`handle_channels` with one channel completes the result, exactly once; a later
`handle_channels` with two channels then reaches `request_fail` with
`priv->result == NULL` and fails `g_assert (self->priv->result != NULL)` in
`complete_result`, instead of being ignored. -/
theorem C1_later_event_trips_assertion :
    (∃ s, run fresh0 (events_to_pending ++ [Event.handle_channels [chanA] 5 1]) = Except.ok s
        ∧ completions s.trace = [result0] ∧ s.result = none)
    ∧ run fresh0 (events_to_pending ++
          [Event.handle_channels [chanA] 5 1, Event.handle_channels [chanA, chanB] 6 2])
        = Except.error (Fault.assertion_failed "self->priv->result != NULL") :=
  ⟨⟨_, rfl, rfl, rfl⟩, rfl⟩


theorem forgetting_of_fields (self s : TpAccountChannelRequest) (hF : Forgetting self)
    (hreq : s.requested = self.requested) (hsh : s.should_handle = self.should_handle)
    (hh : s.handler = self.handler)
    (htr : ∀ e ∈ s.trace, e ∈ self.trace ∨ e.is_register = false)
    (hc : Connected_ok s) (hres : s.result = self.result ∨ s.result = none) :
    Forgetting s := by
  obtain ⟨h1, h2, h3, h4, _, h6⟩ := hF
  refine ⟨hreq.trans h1, hsh.trans h2, hh.trans h3, ?_, hc, ?_⟩
  · intro e he
    rcases htr e he with h | h
    · exact h4 e h
    · exact h
  · intro r hr
    rcases hres with h | h
    · exact h6 r (h ▸ hr)
    · rw [h] at hr
      cases hr

theorem disconnect_trace_not_register (self : TpAccountChannelRequest) :
    ∀ e ∈ disconnect_trace self, e.is_register = false := by
  intro e he
  unfold disconnect_trace at he
  split at he
  · cases he
  · split at he
    · cases he
    · simp only [List.mem_singleton] at he
      rw [he]
      rfl

theorem forgetting_completed (self : TpAccountChannelRequest) (r : GSimpleAsyncResult)
    (hF : Forgetting self) : Forgetting (completed self r) := by
  refine forgetting_of_fields self _ hF rfl rfl rfl ?_ (connected_ok_completed self r)
    (Or.inr rfl)
  intro e he
  simp only [completed, List.mem_append, List.mem_singleton] at he
  rcases he with (he | he) | he
  · exact Or.inl he
  · exact Or.inr (disconnect_trace_not_register self e he)
  · rw [he]
    exact Or.inr rfl

theorem forgetting_emit (self : TpAccountChannelRequest) (e : Effect) (hF : Forgetting self)
    (he : e.is_register = false) : Forgetting (self.emit e) := by
  refine forgetting_of_fields self _ hF rfl rfl rfl ?_ hF.2.2.2.2.1 (Or.inl rfl)
  intro x hx
  simp only [TpAccountChannelRequest.emit, List.mem_append, List.mem_singleton] at hx
  rcases hx with hx | hx
  · exact Or.inl hx
  · rw [hx]
    exact Or.inr he

theorem forgetting_request_fail (self s : TpAccountChannelRequest) (error : GError)
    (hF : Forgetting self) (h : request_fail self error = Except.ok s) : Forgetting s := by
  obtain ⟨r, _, hs⟩ := request_fail_inv self s error h
  rw [hs]
  exact forgetting_completed self _ hF

theorem forgetting_complete_result (self s : TpAccountChannelRequest)
    (hF : Forgetting self) (h : complete_result self = Except.ok s) : Forgetting s := by
  obtain ⟨r, _, hs⟩ := complete_result_inv self s h
  rw [hs]
  exact forgetting_completed self _ hF

theorem deliver_forgetting (self s : TpAccountChannelRequest) (ev : Event)
    (h : deliver self ev = Except.ok s) (hF : Forgetting self) : Forgetting s := by
  cases ev with
  | request m a =>
    simp only [deliver, pure, Except.pure, Except.ok.injEq] at h
    rw [← h, request_method_already_requested m self a hF.1]
    exact forgetting_emit self _ hF rfl
  | set_channel_factory f =>
    simp only [deliver, pure, Except.pure, Except.ok.injEq,
      tp_account_channel_request_set_channel_factory, hF.1, if_true] at h
    rw [← h]
    exact forgetting_emit self _ hF rfl
  | handle_channels channels t ctx =>
    simp only [deliver, hF.2.2.1, pure, Except.pure, Except.ok.injEq] at h
    rw [← h]
    exact hF
  | request_invalidated domain code message =>
    simp only [deliver] at h
    split at h
    · simp only [pure, Except.pure, Except.ok.injEq] at h
      rw [← h]
      exact hF
    · unfold acr_channel_request_invalidated_cb at h
      try dsimp only at h
      split at h
      · simp only [channel_request_succeeded, hF.2.1, Bool.false_eq_true, if_false] at h
        exact forgetting_complete_result self s hF h
      · exact forgetting_request_fail self s _ hF h
  | request_reply path error new_error sig_id cancel_id =>
    simp only [deliver] at h
    unfold acr_request_cb at h
    split at h
    · exact forgetting_request_fail self s _ hF h
    · split at h
      · obtain ⟨r, _, hs⟩ := request_fail_inv _ s _ h
        rw [hs]
        refine forgetting_of_fields self _ hF rfl rfl rfl ?_ (connected_ok_completed _ _)
          (Or.inr rfl)
        intro e he
        simp only [completed, List.mem_append, List.mem_singleton] at he
        rcases he with (he | he) | he
        · exact Or.inl he
        · exact Or.inr (disconnect_trace_not_register _ e he)
        · rw [he]
          exact Or.inr rfl
      · try dsimp only at h
        split at h
        · split at h
          · simp only [pure, Except.pure, Except.ok.injEq] at h
            rw [← h]
            refine forgetting_of_fields self _ hF rfl rfl rfl ?_ ?_ (Or.inl rfl)
            · intro e he
              simp only [acr_operation_cancelled_cb, TpAccountChannelRequest.emit,
                List.mem_append, List.mem_singleton] at he
              rcases he with he | he
              · exact Or.inl he
              · rw [he]
                exact Or.inr rfl
            · intro _ hn
              simp [acr_operation_cancelled_cb, TpAccountChannelRequest.emit] at hn
          · simp only [pure, Except.pure, Except.ok.injEq] at h
            rw [← h]
            refine forgetting_of_fields self _ hF rfl rfl rfl ?_ ?_ (Or.inl rfl)
            · intro e he
              simp only [TpAccountChannelRequest.emit, List.mem_append,
                List.mem_singleton] at he
              rcases he with he | he
              · exact Or.inl he
              · rw [he]
                exact Or.inr rfl
            · intro _ hn
              simp [TpAccountChannelRequest.emit] at hn
        · simp only [pure, Except.pure, Except.ok.injEq] at h
          rw [← h]
          refine forgetting_of_fields self _ hF rfl rfl rfl ?_ ?_ (Or.inl rfl)
          · intro e he
            simp only [TpAccountChannelRequest.emit, List.mem_append,
              List.mem_singleton] at he
            rcases he with he | he
            · exact Or.inl he
            · rw [he]
              exact Or.inr rfl
          · intro _ hn
            simp [TpAccountChannelRequest.emit] at hn
  | proceed_reply error =>
    simp only [deliver] at h
    unfold acr_channel_request_proceed_cb at h
    split at h
    · exact forgetting_request_fail self s _ hF h
    · simp only [pure, Except.pure, Except.ok.injEq] at h
      rw [← h]
      exact hF
  | cancel_reply error =>
    simp only [deliver, pure, Except.pure, Except.ok.injEq, acr_channel_request_cancel_cb] at h
    rw [← h]
    exact hF
  | operation_cancelled =>
    simp only [deliver] at h
    split at h
    · simp only [pure, Except.pure, Except.ok.injEq] at h
      rw [← h]
      exact hF
    · split at h
      · simp only [pure, Except.pure, Except.ok.injEq] at h
        rw [← h]
        exact hF
      · try dsimp only at h
        split at h
        · simp only [pure, Except.pure, Except.ok.injEq] at h
          rw [← h]
          exact forgetting_of_fields self _ hF rfl rfl rfl (fun e he => Or.inl he)
            hF.2.2.2.2.1 (Or.inl rfl)
        · simp only [pure, Except.pure, Except.ok.injEq] at h
          rw [← h]
          simp only [acr_operation_cancelled_cb]
          split
          · exact forgetting_of_fields self _ hF rfl rfl rfl (fun e he => Or.inl he)
              hF.2.2.2.2.1 (Or.inl rfl)
          · refine forgetting_of_fields self _ hF rfl rfl rfl ?_ hF.2.2.2.2.1 (Or.inl rfl)
            intro e he
            simp only [TpAccountChannelRequest.emit, List.mem_append,
              List.mem_singleton] at he
            rcases he with he | he
            · exact Or.inl he
            · rw [he]
              exact Or.inr rfl
  | channel_invalidated =>
    simp only [deliver, pure, Except.pure, Except.ok.injEq, acr_channel_invalidated_cb] at h
    rw [← h]
    exact forgetting_of_fields self _ hF rfl rfl rfl (fun e he => Or.inl he)
      hF.2.2.2.2.1 (Or.inl rfl)

theorem run_forgetting (events : List Event) (self s : TpAccountChannelRequest)
    (h : run self events = Except.ok s) (hF : Forgetting self) : Forgetting s := by
  induction events generalizing self with
  | nil =>
    simp only [run, pure, Except.pure, Except.ok.injEq] at h
    rw [← h]
    exact hF
  | cons ev rest ih =>
    simp only [run] at h
    cases hd : deliver self ev with
    | error f => simp [hd, throw, throwThe, MonadExceptOf.throw] at h
    | ok s1 =>
      simp only [hd] at h
      exact ih s1 h (deliver_forgetting self s1 ev hd hF)

theorem request_channel_async_forgetting (account : TpAccount) (request : Asv) (uat : Int)
    (s0 : TpAccountChannelRequest)
    (h0 : tp_account_channel_request_new (some account) (some request) uat = some s0)
    (preferred_handler : Option String) (cancellable : Option GCancellable)
    (callback user_data : Nat) (ensure : Bool) :
    Forgetting (request_channel_async s0 preferred_handler cancellable callback user_data
      ensure) := by
  simp only [tp_account_channel_request_new, Option.some.injEq] at h0
  subst h0
  cases hcan : g_cancellable_is_cancelled cancellable <;> cases ensure <;>
    cases cancellable <;>
    simp [Forgetting, Connected_ok, request_channel_async, hcan, TpAccountChannelRequest.emit,
      Effect.is_register]

/-- C7: a request-and-forget object (made by `tp_account_channel_request_new`, then
`create_channel_async` or `ensure_channel_async`) never has a handler and never
calls `tp_base_client_register`, whatever events follow; and while its result is
pending, invalidation of the request object with `TP_DBUS_ERROR_OBJECT_REMOVED`
completes that result with no error set. -/
theorem C7_forget_mode_object_removed_is_success (account : TpAccount) (request : Asv)
    (uat : Int) (s0 s : TpAccountChannelRequest) (preferred_handler : Option String)
    (cancellable : Option GCancellable) (callback user_data : Nat) (ensure : Bool)
    (events : List Event) (message : String)
    (h0 : tp_account_channel_request_new (some account) (some request) uat = some s0)
    (hrun : run (request_channel_async s0 preferred_handler cancellable callback user_data
      ensure) events = Except.ok s) :
    s.should_handle = false ∧ s.handler = none ∧ (∀ e ∈ s.trace, e.is_register = false)
    ∧ ∀ r, s.result = some r →
        r.error = none
        ∧ acr_channel_request_invalidated_cb s GQuark.TP_DBUS_ERRORS
            TP_DBUS_ERROR_OBJECT_REMOVED message = Except.ok (completed s r)
        ∧ completions (completed s r).trace = completions s.trace ++ [r] := by
  have hF : Forgetting s :=
    run_forgetting events _ s hrun
      (request_channel_async_forgetting account request uat s0 h0 preferred_handler
        cancellable callback user_data ensure)
  refine ⟨hF.2.1, hF.2.2.1, hF.2.2.2.1, ?_⟩
  intro r hr
  refine ⟨hF.2.2.2.2.2 r hr, ?_, completions_completed s r⟩
  simp only [acr_channel_request_invalidated_cb, g_error_matches, decide_True, Bool.and_self,
    if_true, channel_request_succeeded, hF.2.1, Bool.false_eq_true, if_false]
  exact complete_result_ok s r hr hF.2.2.2.2.1

/-- Witness of C2: the first call was cancelled before it started; a later call
of another method is still rejected. -/
theorem C2_second_request_is_rejected_witness :
    run (request_method SourceTag.create_channel_async fresh0 args_cancelled)
        [Event.operation_cancelled]
      = Except.ok (state_after (request_method SourceTag.create_channel_async fresh0
          args_cancelled) [Event.operation_cancelled])
    ∧ request_method SourceTag.ensure_and_handle_channel_async
        (state_after (request_method SourceTag.create_channel_async fresh0 args_cancelled)
          [Event.operation_cancelled]) args0
      = (state_after (request_method SourceTag.create_channel_async fresh0 args_cancelled)
          [Event.operation_cancelled]).emit (Effect.critical "!self->priv->requested") :=
  ⟨rfl, (C2_second_request_is_rejected fresh0 _ SourceTag.create_channel_async
    SourceTag.ensure_and_handle_channel_async args_cancelled args0 [Event.operation_cancelled]
    rfl).1⟩

/-- Witness of C3 on the pending self-handling request `pending0`. -/
theorem C3_object_removed_unhandled_is_not_yours_witness :
    pending0.should_handle = true ∧ pending0.result = some result0
    ∧ acr_channel_request_invalidated_cb pending0 GQuark.TP_DBUS_ERRORS
        TP_DBUS_ERROR_OBJECT_REMOVED "gone"
      = Except.ok (completed pending0 { result0 with error := some not_yours_error }) :=
  ⟨rfl, rfl, (C3_object_removed_unhandled_is_not_yours pending0 result0 "gone" chanA 5 1 rfl
    (fun _ => by decide) rfl).1⟩

/-- Witness of C4: two channels handed to `pending0`. -/
theorem C4_more_than_one_channel_fails_invalid_argument_witness :
    pending0.result = some result0 ∧ 1 < [chanA, chanB].length
    ∧ ∃ s, handle_channels pending0 [chanA, chanB] 6 2 = Except.ok s
        ∧ s.channel = none
        ∧ completions s.trace = [{ result0 with error := some invalid_argument_error }] := by
  obtain ⟨s, h1, _, h3, _, _, _, h7⟩ :=
    C4_more_than_one_channel_fails_invalid_argument pending0 result0 [chanA, chanB] 6 2
      (fun _ => by decide) rfl (by decide)
  exact ⟨rfl, by decide, s, h1, h3, h7⟩

/-- Witness of C5: `chanB` arrives after `chanA` was delivered. -/
theorem C5_rehandle_emits_signal_only_witness :
    delivered0.result = none ∧ delivered0.channel = some chanA
    ∧ handle_channels delivered0 [chanB] 6 2
      = Except.ok { delivered0 with trace := delivered0.trace ++
          [Effect.context_accept 2, Effect.emit_re_handled delivered0.channel 6 2] } :=
  ⟨rfl, rfl, (C5_rehandle_emits_signal_only delivered0 chanB 6 2 rfl).1⟩

/-- Witness of C6: `pending0` receives a failure; the invalidation is
`TP_DBUS_ERROR_NAME_OWNER_LOST`. -/
theorem C6_transport_failure_is_reported_verbatim_witness :
    pending0.result = some result0
    ∧ acr_channel_request_proceed_cb pending0 (some ⟨GQuark.other 5, 3, "no reply"⟩)
      = Except.ok (completed pending0 { result0 with error := some ⟨GQuark.other 5, 3,
          "no reply"⟩ })
    ∧ acr_channel_request_invalidated_cb pending0 GQuark.TP_DBUS_ERRORS 3 "owner lost"
      = Except.ok (completed pending0 { result0 with error := some ⟨GQuark.TP_DBUS_ERRORS, 3,
          "owner lost"⟩ }) :=
  ⟨rfl, (C6_transport_failure_is_reported_verbatim pending0 result0
    ⟨GQuark.other 5, 3, "no reply"⟩ GQuark.TP_DBUS_ERRORS 3 "owner lost" "/cr/1" none 0 0
    (fun _ => by decide) rfl (by decide)).2⟩

/-- Witness of C7 on the request-and-forget request `forgetting0`. -/
theorem C7_forget_mode_object_removed_is_success_witness :
    tp_account_channel_request_new (some account0) (some [("ChannelType", "Text")]) 0
      = some fresh0
    ∧ forgetting0.handler = none
    ∧ acr_channel_request_invalidated_cb forgetting0 GQuark.TP_DBUS_ERRORS
        TP_DBUS_ERROR_OBJECT_REMOVED "gone" = Except.ok (completed forgetting0 result1) :=
  ⟨rfl,
   (C7_forget_mode_object_removed_is_success account0 [("ChannelType", "Text")] 0 fresh0
      forgetting0 none none 7 8 false
      [Event.request_reply "/cr/2" none none 0 0, Event.proceed_reply none] "gone" rfl rfl).2.1,
   ((C7_forget_mode_object_removed_is_success account0 [("ChannelType", "Text")] 0 fresh0
      forgetting0 none none 7 8 false
      [Event.request_reply "/cr/2" none none 0 0, Event.proceed_reply none] "gone" rfl
      rfl).2.2.2 result1 rfl).2.1⟩

/-- Witness of C8: a self-handling EnsureChannel call with a cancelled cancellable. -/
theorem C8_cancelled_before_call_makes_no_remote_call_witness :
    g_cancellable_is_cancelled args_cancelled.cancellable = true
    ∧ (request_method SourceTag.ensure_and_handle_channel_async fresh0 args_cancelled).trace
      = [Effect.report_error_in_idle 7 8 cancelled_error]
    ∧ (request_method SourceTag.ensure_and_handle_channel_async fresh0 args_cancelled).handler
      = none :=
  ⟨rfl,
   (C8_cancelled_before_call_makes_no_remote_call SourceTag.ensure_and_handle_channel_async
      fresh0 args_cancelled rfl).2.2.2 rfl,
   (C8_cancelled_before_call_makes_no_remote_call SourceTag.ensure_and_handle_channel_async
      fresh0 args_cancelled rfl).2.1⟩

end Acr

/-! # Theorems: the name-owner watches of dbus.c -/

namespace DBus

open Tp

theorem lookup_insert_same (table : List (String × _NameOwnerWatch)) (key : String)
    (value : _NameOwnerWatch) :
    g_hash_table_lookup (g_hash_table_insert table key value) key = some value := by
  induction table with
  | nil => simp [g_hash_table_insert, g_hash_table_lookup]
  | cons kv rest ih =>
    obtain ⟨k, v⟩ := kv
    by_cases hk : k = key
    · simp [g_hash_table_insert, g_hash_table_lookup, hk]
    · simp [g_hash_table_insert, g_hash_table_lookup, hk, ih]

theorem multiple_trace (array : List _NameOwnerSubWatch) (self : TpDBusDaemon) (name : String)
    (new_owner : Option String) :
    (_tp_dbus_daemon_name_owner_changed_multiple self name new_owner array).trace
        = self.trace ++ array.map (fun w => Call.callback w.callback name new_owner w.user_data)
    ∧ (_tp_dbus_daemon_name_owner_changed_multiple self name new_owner array).name_owner_watches
        = self.name_owner_watches := by
  induction array generalizing self with
  | nil => simp [_tp_dbus_daemon_name_owner_changed_multiple]
  | cons w rest ih =>
    simp only [_tp_dbus_daemon_name_owner_changed_multiple, List.map_cons]
    obtain ⟨h1, h2⟩ := ih (self.emit (Call.callback w.callback name new_owner w.user_data))
    rw [h1, h2]
    simp [TpDBusDaemon.emit]

theorem call_watch_trace (self : TpDBusDaemon) (name : String) (new_owner : Option String)
    (target : WatchTarget) :
    (call_watch self name new_owner target).trace
        = self.trace ++ target.subwatches.map
            (fun w => Call.callback w.callback name new_owner w.user_data)
    ∧ (call_watch self name new_owner target).name_owner_watches = self.name_owner_watches := by
  cases target with
  | single w => simp [call_watch, TpDBusDaemon.emit, WatchTarget.subwatches]
  | multiple array => exact multiple_trace array self name new_owner

theorem notify_eq (self : TpDBusDaemon) (name : String) (n : Notification) :
    notify self name n = _tp_dbus_daemon_name_owner_changed self name (some n.owner) := by
  cases n <;> rfl

/-- An owner change reaches every watcher of the name, in order. -/
theorem name_owner_changed_differs (self : TpDBusDaemon) (name : String) (o : String)
    (hdiff : tp_strdiff (last_owner self name) (some o) = true) :
    (_tp_dbus_daemon_name_owner_changed self name (some o)).trace
        = self.trace ++ (watchers self name).map
            (fun w => Call.callback w.callback name (some o) w.user_data)
    ∧ watchers (_tp_dbus_daemon_name_owner_changed self name (some o)) name
        = watchers self name
    ∧ (watchers self name ≠ [] →
        last_owner (_tp_dbus_daemon_name_owner_changed self name (some o)) name = some o) := by
  unfold last_owner at hdiff
  cases hl : g_hash_table_lookup self.name_owner_watches name with
  | none =>
    simp [_tp_dbus_daemon_name_owner_changed, watchers, hl]
  | some watch =>
    simp only [hl] at hdiff
    obtain ⟨h1, h2⟩ := call_watch_trace
      (self.store name { watch with last_owner := some o }) name (some o) watch.target
    simp only [_tp_dbus_daemon_name_owner_changed, hl, hdiff, Bool.not_true, Bool.false_eq_true,
      if_false, watchers, last_owner, h1, h2]
    simp only [TpDBusDaemon.store, lookup_insert_same]
    exact ⟨trivial, trivial, fun _ => trivial⟩

/-- A repeated owner reaches nobody and changes nothing. -/
theorem name_owner_changed_same (self : TpDBusDaemon) (name : String) (o : String)
    (hsame : tp_strdiff (last_owner self name) (some o) = false) :
    _tp_dbus_daemon_name_owner_changed self name (some o) = self := by
  unfold last_owner at hsame
  cases hl : g_hash_table_lookup self.name_owner_watches name with
  | none => simp [_tp_dbus_daemon_name_owner_changed, hl]
  | some watch =>
    simp only [hl] at hsame
    simp [_tp_dbus_daemon_name_owner_changed, hl, hsame]

theorem notify_all_single (ns : List Notification) (self : TpDBusDaemon) (name : String)
    (w : _NameOwnerSubWatch) (hw : watchers self name = [w]) :
    (notify_all self name ns).trace
      = self.trace ++ (changes (last_owner self name) (ns.map Notification.owner)).map
          (fun o => Call.callback w.callback name (some o) w.user_data) := by
  induction ns generalizing self with
  | nil => simp [notify_all, changes]
  | cons n rest ih =>
    simp only [notify_all, notify_eq, List.map_cons, changes]
    by_cases hlast : last_owner self name = some n.owner
    · have hsame : tp_strdiff (last_owner self name) (some n.owner) = false := by
        simp [tp_strdiff, hlast]
      rw [name_owner_changed_same self name n.owner hsame, if_pos hlast]
      exact ih self hw
    · have hdiff : tp_strdiff (last_owner self name) (some n.owner) = true := by
        simp [tp_strdiff, hlast]
      obtain ⟨h1, h2, h3⟩ := name_owner_changed_differs self name n.owner hdiff
      rw [if_neg hlast, ih _ (h2.trans hw), h1, hw, h3 (by rw [hw]; simp)]
      simp

theorem changes_some_eq (a : String) (os : List String) :
    a :: changes (some a) os = List.destutter' (fun x y => x ≠ y) a os := by
  induction os generalizing a with
  | nil => rfl
  | cons o os ih =>
    by_cases h : a = o
    · subst h
      simp only [changes, if_true]
      rw [List.destutter'_cons_neg _ (by simp)]
      exact ih a
    · have h2 : ¬ (some a = some o) := by simpa using h
      simp only [changes, if_neg h2]
      rw [List.destutter'_cons_pos _ h, ih o]

theorem changes_none_eq (os : List String) :
    changes none os = List.destutter (fun x y => x ≠ y) os := by
  cases os with
  | nil => rfl
  | cons o os =>
    simp only [changes, List.destutter_cons']
    rw [if_neg (by simp)]
    exact changes_some_eq o os

/-- C9: for the only watch on a name (callbacks that leave the watch table
alone), any sequence of owner notifications for that name calls the callback
exactly for the notified owners that differ from the owner notified before (the
first one always), with that owner, in order: after the GetNameOwner call the
registration makes, the trace consists of the callback applied to the notified
owners with consecutive duplicates removed. -/
theorem C9_single_watch_fires_on_owner_changes (self : TpDBusDaemon) (name : String)
    (callback user_data : Nat) (destroy : Option Nat) (ns : List Notification)
    (h0 : g_hash_table_lookup self.name_owner_watches name = none) :
    (notify_all (tp_dbus_daemon_watch_name_owner self name callback user_data destroy)
        name ns).trace
      = self.trace ++ [Call.get_name_owner name]
        ++ (List.destutter (fun x y => x ≠ y) (ns.map Notification.owner)).map
            (fun o => Call.callback callback name (some o) user_data) := by
  have hw : watchers (tp_dbus_daemon_watch_name_owner self name callback user_data destroy)
      name = [⟨callback, user_data, destroy⟩] := by
    simp [watchers, tp_dbus_daemon_watch_name_owner, h0, TpDBusDaemon.emit, lookup_insert_same,
      WatchTarget.subwatches]
  have hl : last_owner (tp_dbus_daemon_watch_name_owner self name callback user_data destroy)
      name = none := by
    simp [last_owner, tp_dbus_daemon_watch_name_owner, h0, TpDBusDaemon.emit,
      lookup_insert_same]
  rw [notify_all_single ns _ name _ hw, hl, changes_none_eq]
  simp [tp_dbus_daemon_watch_name_owner, h0, TpDBusDaemon.emit]

theorem apply_op_watchers (self : TpDBusDaemon) (name : String) (op : Op) :
    watchers (apply_op self name op) name = watchers self name ++ registered [op] := by
  cases op with
  | watch w =>
    cases hl : g_hash_table_lookup self.name_owner_watches name with
    | none =>
      simp [apply_op, watchers, tp_dbus_daemon_watch_name_owner, hl, TpDBusDaemon.emit,
        lookup_insert_same, registered, WatchTarget.subwatches]
    | some watch =>
      cases ht : watch.target with
      | single old =>
        cases hlo : watch.last_owner <;>
          simp [apply_op, watchers, tp_dbus_daemon_watch_name_owner, hl, ht, hlo,
            TpDBusDaemon.emit, TpDBusDaemon.store, lookup_insert_same, registered,
            WatchTarget.subwatches]
      | multiple array =>
        cases hlo : watch.last_owner <;>
          simp [apply_op, watchers, tp_dbus_daemon_watch_name_owner, hl, ht, hlo,
            TpDBusDaemon.emit, TpDBusDaemon.store, lookup_insert_same, registered,
            WatchTarget.subwatches]
  | notify n =>
    simp only [apply_op, notify_eq, registered, List.append_nil]
    cases hd : tp_strdiff (last_owner self name) (some n.owner) with
    | true => exact (name_owner_changed_differs self name n.owner hd).2.1
    | false => rw [name_owner_changed_same self name n.owner hd]

theorem registered_cons (op : Op) (ops : List Op) :
    registered (op :: ops) = registered [op] ++ registered ops := by
  cases op <;> simp [registered]

theorem apply_ops_watchers (ops : List Op) (self : TpDBusDaemon) (name : String) :
    watchers (apply_ops self name ops) name = watchers self name ++ registered ops := by
  induction ops generalizing self with
  | nil => simp [apply_ops, registered]
  | cons op rest ih =>
    rw [apply_ops, ih, apply_op_watchers, List.append_assoc, ← registered_cons]

/-- C10: after any history of a name that starts without a watch and in which
watchers `w1 .. wn` register in that order, none is cancelled and notifications
arrive at any point (callbacks that leave the watch table alone), a notification
whose owner differs from `last_owner` calls `w1, w2, .., wn`, each once, in
registration order, with the new owner, and calls nothing else; this covers the
single watch, its promotion to the multiplexer array, and the array. -/
theorem C10_watchers_fire_in_registration_order (self : TpDBusDaemon) (name : String)
    (ops : List Op) (n : Notification)
    (h0 : g_hash_table_lookup self.name_owner_watches name = none)
    (hdiff : tp_strdiff (last_owner (apply_ops self name ops) name) (some n.owner) = true) :
    (notify (apply_ops self name ops) name n).trace
      = (apply_ops self name ops).trace ++ (registered ops).map
          (fun w => Call.callback w.callback name (some n.owner) w.user_data) := by
  have hw : watchers (apply_ops self name ops) name = registered ops := by
    rw [apply_ops_watchers]
    simp [watchers, h0]
  rw [notify_eq, (name_owner_changed_differs _ name n.owner hdiff).1, hw]

/-- Witness of C9: the owner sequence `":1.1", ":1.1", ":1.2", ":1.2"` on
`"com.example.Svc"` fires the callback twice, with `":1.1"` then `":1.2"`. -/
theorem C9_single_watch_fires_on_owner_changes_witness :
    g_hash_table_lookup daemon0.name_owner_watches "com.example.Svc" = none
    ∧ (notify_all (tp_dbus_daemon_watch_name_owner daemon0 "com.example.Svc" 1 100 none)
        "com.example.Svc" notifications0).trace
      = [Call.get_name_owner "com.example.Svc",
         Call.callback 1 "com.example.Svc" (some ":1.1") 100,
         Call.callback 1 "com.example.Svc" (some ":1.2") 100] :=
  ⟨rfl, (C9_single_watch_fires_on_owner_changes daemon0 "com.example.Svc" 1 100 none
    notifications0 rfl).trans (by decide)⟩

/-- Witness of C10: A, B and C (registered in that order) are called in that
order when the owner changes from `":1.1"` to `":1.2"`. -/
theorem C10_watchers_fire_in_registration_order_witness :
    tp_strdiff (last_owner (apply_ops daemon0 "com.example.Svc" history0) "com.example.Svc")
        (some ":1.2") = true
    ∧ (notify (apply_ops daemon0 "com.example.Svc" history0) "com.example.Svc"
        (Notification.name_owner_changed ":1.1" ":1.2")).trace
      = (apply_ops daemon0 "com.example.Svc" history0).trace ++
          [Call.callback 1 "com.example.Svc" (some ":1.2") 10,
           Call.callback 2 "com.example.Svc" (some ":1.2") 20,
           Call.callback 3 "com.example.Svc" (some ":1.2") 30] :=
  ⟨by decide, C10_watchers_fire_in_registration_order daemon0 "com.example.Svc" history0
    (Notification.name_owner_changed ":1.1" ":1.2") rfl (by decide)⟩

theorem lookup_insert_other (table : List (String × _NameOwnerWatch)) (key other : String)
    (value : _NameOwnerWatch) (h : other ≠ key) :
    g_hash_table_lookup (g_hash_table_insert table key value) other
      = g_hash_table_lookup table other := by
  induction table with
  | nil => simp [g_hash_table_insert, g_hash_table_lookup, Ne.symm h]
  | cons kv rest ih =>
    obtain ⟨k, v⟩ := kv
    by_cases hk : k = key
    · subst hk
      simp [g_hash_table_insert, g_hash_table_lookup, Ne.symm h]
    · by_cases ho : k = other
      · subst ho
        simp [g_hash_table_insert, g_hash_table_lookup, hk]
      · simp [g_hash_table_insert, g_hash_table_lookup, hk, ho, ih]

theorem lookup_remove_same (table : List (String × _NameOwnerWatch)) (key : String) :
    g_hash_table_lookup (g_hash_table_remove table key) key = none := by
  induction table with
  | nil => rfl
  | cons kv rest ih =>
    obtain ⟨k, v⟩ := kv
    by_cases hk : k = key
    · simp [g_hash_table_remove, hk, ih]
    · simp [g_hash_table_remove, g_hash_table_lookup, hk, ih]

theorem lookup_remove_other (table : List (String × _NameOwnerWatch)) (key other : String)
    (h : other ≠ key) :
    g_hash_table_lookup (g_hash_table_remove table key) other
      = g_hash_table_lookup table other := by
  induction table with
  | nil => rfl
  | cons kv rest ih =>
    obtain ⟨k, v⟩ := kv
    by_cases hk : k = key
    · subst hk
      simp [g_hash_table_remove, g_hash_table_lookup, ih, Ne.symm h]
    · by_cases ho : k = other
      · subst ho
        simp [g_hash_table_remove, g_hash_table_lookup, hk]
      · simp [g_hash_table_remove, g_hash_table_lookup, hk, ho, ih]

/-- C11: `tp_dbus_daemon_watch_name_owner` on a name without a watch creates the
entry with the caller's triple and no known owner, makes exactly one call, the
GetNameOwner lookup, and so calls no callback; on a name with a watch it makes no
lookup, puts the new watcher after all existing ones, keeps `last_owner`, and
calls exactly the new callback with `last_owner` when that is known and nothing
when it is not. Either way the watches of other names are untouched. -/
theorem C11_watch_registers_and_replays_last_owner (self : TpDBusDaemon) (name : String)
    (callback user_data : Nat) (destroy : Option Nat) :
    (g_hash_table_lookup self.name_owner_watches name = none →
      (tp_dbus_daemon_watch_name_owner self name callback user_data destroy).trace
          = self.trace ++ [Call.get_name_owner name]
      ∧ g_hash_table_lookup
          (tp_dbus_daemon_watch_name_owner self name callback user_data destroy).name_owner_watches
          name
          = some ⟨WatchTarget.single ⟨callback, user_data, destroy⟩, none⟩)
    ∧ (∀ watch, g_hash_table_lookup self.name_owner_watches name = some watch →
      watchers (tp_dbus_daemon_watch_name_owner self name callback user_data destroy) name
          = watchers self name ++ [⟨callback, user_data, destroy⟩]
      ∧ last_owner (tp_dbus_daemon_watch_name_owner self name callback user_data destroy) name
          = watch.last_owner
      ∧ (∀ owner, watch.last_owner = some owner →
          (tp_dbus_daemon_watch_name_owner self name callback user_data destroy).trace
            = self.trace ++ [Call.callback callback name (some owner) user_data])
      ∧ (watch.last_owner = none →
          (tp_dbus_daemon_watch_name_owner self name callback user_data destroy).trace
            = self.trace))
    ∧ (∀ other, other ≠ name →
      g_hash_table_lookup
          (tp_dbus_daemon_watch_name_owner self name callback user_data destroy).name_owner_watches
          other
        = g_hash_table_lookup self.name_owner_watches other) := by
  refine ⟨?_, ?_, ?_⟩
  · intro h0
    simp [tp_dbus_daemon_watch_name_owner, h0, TpDBusDaemon.emit, lookup_insert_same]
  · intro watch hl
    cases ht : watch.target <;> cases hlo : watch.last_owner <;>
      simp [tp_dbus_daemon_watch_name_owner, hl, ht, hlo, watchers, last_owner,
        TpDBusDaemon.emit, TpDBusDaemon.store, lookup_insert_same, WatchTarget.subwatches]
  · intro other ho
    cases hl : g_hash_table_lookup self.name_owner_watches name with
    | none =>
      simp [tp_dbus_daemon_watch_name_owner, hl, TpDBusDaemon.emit,
        lookup_insert_other _ _ _ _ ho]
    | some watch =>
      cases ht : watch.target <;> cases hlo : watch.last_owner <;>
        simp [tp_dbus_daemon_watch_name_owner, hl, ht, hlo, TpDBusDaemon.emit,
          TpDBusDaemon.store, lookup_insert_other _ _ _ _ ho]

theorem cancel_scan_some (array : List _NameOwnerSubWatch) (callback user_data : Nat)
    (k idx : Nat) (hk : k ≤ array.length)
    (h : cancel_scan array callback user_data k = some idx) :
    idx < k ∧ (∃ w, array.get? idx = some w ∧ w.callback = callback ∧ w.user_data = user_data)
    ∧ ∀ j w, idx < j → j < k → array.get? j = some w →
        ¬ (w.callback = callback ∧ w.user_data = user_data) := by
  induction k with
  | zero => simp [cancel_scan] at h
  | succ k ih =>
    have hlt : k < array.length := hk
    obtain ⟨entry, he⟩ : ∃ entry, array.get? k = some entry :=
      ⟨array.get ⟨k, hlt⟩, List.get?_eq_get hlt⟩
    simp only [cancel_scan, he] at h
    by_cases hm : entry.callback = callback ∧ entry.user_data = user_data
    · rw [if_pos hm] at h
      simp only [Option.some.injEq] at h
      subst h
      refine ⟨Nat.lt_succ_self _, ⟨entry, he, hm.1, hm.2⟩, ?_⟩
      intro j w h1 h2
      omega
    · rw [if_neg hm] at h
      obtain ⟨h1, h2, h3⟩ := ih (Nat.le_of_lt hlt) h
      refine ⟨Nat.lt_succ_of_lt h1, h2, ?_⟩
      intro j w hj1 hj2 hjw
      by_cases hjk : j = k
      · subst hjk
        rw [he] at hjw
        simp only [Option.some.injEq] at hjw
        subst hjw
        exact hm
      · exact h3 j w hj1 (by omega) hjw

theorem cancel_scan_none (array : List _NameOwnerSubWatch) (callback user_data : Nat)
    (k : Nat) (h : cancel_scan array callback user_data k = none) :
    ∀ j w, j < k → array.get? j = some w →
      ¬ (w.callback = callback ∧ w.user_data = user_data) := by
  induction k with
  | zero => intro j w hj; omega
  | succ k ih =>
    intro j w hj hjw
    simp only [cancel_scan] at h
    cases he : array.get? k with
    | none =>
      simp only [he] at h
      by_cases hjk : j = k
      · subst hjk
        rw [he] at hjw
        cases hjw
      · exact ih h j w (by omega) hjw
    | some entry =>
      simp only [he] at h
      by_cases hm : entry.callback = callback ∧ entry.user_data = user_data
      · rw [if_pos hm] at h
        cases h
      · rw [if_neg hm] at h
        by_cases hjk : j = k
        · subst hjk
          rw [he] at hjw
          simp only [Option.some.injEq] at hjw
          subst hjw
          exact hm
        · exact ih h j w (by omega) hjw

theorem split_at_get {α : Type} (l : List α) (i : Nat) (w : α) (h : l.get? i = some w) :
    l = l.take i ++ w :: l.drop (i + 1) ∧ l.eraseIdx i = l.take i ++ l.drop (i + 1) := by
  induction l generalizing i with
  | nil => simp at h
  | cons x xs ih =>
    cases i with
    | zero =>
      simp only [List.get?_cons_zero, Option.some.injEq] at h
      subst h
      simp
    | succ i =>
      simp only [List.get?_cons_succ] at h
      obtain ⟨h1, h2⟩ := ih i h
      constructor
      · simp only [List.take_succ_cons, List.drop_succ_cons, List.cons_append]
        rw [← h1]
      · simp only [List.eraseIdx_cons_succ, List.take_succ_cons, List.drop_succ_cons,
          List.cons_append]
        rw [h2]

theorem mem_drop_get {α : Type} (l : List α) (i : Nat) (x : α) (h : x ∈ l.drop i) :
    ∃ j, i ≤ j ∧ l.get? j = some x := by
  induction l generalizing i with
  | nil => simp at h
  | cons y ys ih =>
    cases i with
    | zero =>
      simp only [List.drop_zero] at h
      obtain ⟨n, hn⟩ := List.mem_iff_get?.mp h
      exact ⟨n, Nat.zero_le _, hn⟩
    | succ i =>
      simp only [List.drop_succ_cons] at h
      obtain ⟨j, hj, hg⟩ := ih i h
      exact ⟨j + 1, by omega, by simpa using hg⟩

/-- C12: `tp_dbus_daemon_cancel_name_owner_watch` returns `TRUE` exactly when a
watcher of the name has that callback and user data. When it returns `FALSE`
nothing changes. When it returns `TRUE` the watchers afterwards are the watchers
before without one matching watcher, the last (most recently added) matching
one, the others in their order; the name has no entry afterwards when that was
its last watcher and keeps its `last_owner` otherwise; other names are untouched. -/
theorem C12_cancel_removes_most_recent_match (self : TpDBusDaemon) (name : String)
    (callback user_data : Nat) :
    ((tp_dbus_daemon_cancel_name_owner_watch self name callback user_data).1 = true ↔
        ∃ w ∈ watchers self name, w.callback = callback ∧ w.user_data = user_data)
    ∧ ((tp_dbus_daemon_cancel_name_owner_watch self name callback user_data).1 = false →
        (tp_dbus_daemon_cancel_name_owner_watch self name callback user_data).2 = self)
    ∧ ((tp_dbus_daemon_cancel_name_owner_watch self name callback user_data).1 = true →
        ∃ pre w post, watchers self name = pre ++ w :: post
          ∧ w.callback = callback ∧ w.user_data = user_data
          ∧ (∀ x ∈ post, ¬ (x.callback = callback ∧ x.user_data = user_data))
          ∧ watchers (tp_dbus_daemon_cancel_name_owner_watch self name callback user_data).2
              name = pre ++ post
          ∧ (pre ++ post = [] → g_hash_table_lookup
              (tp_dbus_daemon_cancel_name_owner_watch self name callback
                user_data).2.name_owner_watches name = none)
          ∧ (pre ++ post ≠ [] →
              last_owner (tp_dbus_daemon_cancel_name_owner_watch self name callback
                user_data).2 name = last_owner self name)
          ∧ ∀ other, other ≠ name → g_hash_table_lookup
              (tp_dbus_daemon_cancel_name_owner_watch self name callback
                user_data).2.name_owner_watches other
              = g_hash_table_lookup self.name_owner_watches other) := by
  cases hl : g_hash_table_lookup self.name_owner_watches name with
  | none =>
    simp [tp_dbus_daemon_cancel_name_owner_watch, hl, watchers]
  | some watch =>
    cases ht : watch.target with
    | single w =>
      by_cases hm : w.callback = callback ∧ w.user_data = user_data
      · have hres : tp_dbus_daemon_cancel_name_owner_watch self name callback user_data
            = (true, { (match w.destroy with
                | some d => self.emit (Call.destroy d w.user_data)
                | none => self) with
                name_owner_watches := g_hash_table_remove self.name_owner_watches name }) := by
          simp only [tp_dbus_daemon_cancel_name_owner_watch, hl, ht]
          rw [if_pos hm]
          cases w.destroy <;> rfl
        rw [hres]
        refine ⟨?_, by simp, fun _ => ⟨[], w, [], ?_, hm.1, hm.2, by simp, ?_, ?_, by simp, ?_⟩⟩
        · simp only [true_iff]
          exact ⟨w, by simp [watchers, hl, ht, WatchTarget.subwatches], hm⟩
        · simp [watchers, hl, ht, WatchTarget.subwatches]
        · simp [watchers, lookup_remove_same]
        · intro _
          exact lookup_remove_same _ _
        · intro other ho
          exact lookup_remove_other _ _ _ ho
      · have hres : tp_dbus_daemon_cancel_name_owner_watch self name callback user_data
            = (false, self) := by
          simp only [tp_dbus_daemon_cancel_name_owner_watch, hl, ht]
          rw [if_neg hm]
        rw [hres]
        refine ⟨?_, fun _ => rfl, by simp⟩
        simp only [Bool.false_eq_true, false_iff, watchers, hl, ht, WatchTarget.subwatches,
          List.mem_singleton]
        rintro ⟨x, hx, hxm⟩
        subst hx
        exact hm hxm
    | multiple array =>
      cases hs : cancel_scan array callback user_data array.length with
      | none =>
        have hres : tp_dbus_daemon_cancel_name_owner_watch self name callback user_data
            = (false, self) := by
          simp only [tp_dbus_daemon_cancel_name_owner_watch, hl, ht, hs]
        rw [hres]
        refine ⟨?_, fun _ => rfl, by simp⟩
        simp only [Bool.false_eq_true, false_iff, watchers, hl, ht, WatchTarget.subwatches]
        rintro ⟨x, hx, hxm⟩
        obtain ⟨n, hn⟩ := List.mem_iff_get?.mp hx
        have hlt : n < array.length := by
          by_contra hge
          rw [List.get?_eq_none.mpr (by omega)] at hn
          cases hn
        exact cancel_scan_none array callback user_data array.length hs n x hlt hn hxm
      | some idx =>
        obtain ⟨hidx, ⟨w, hw, hwc, hwu⟩, hafter⟩ :=
          cancel_scan_some array callback user_data array.length idx (Nat.le_refl _) hs
        obtain ⟨hsplit, herase⟩ := split_at_get array idx w hw
        have hpost : ∀ x ∈ array.drop (idx + 1),
            ¬ (x.callback = callback ∧ x.user_data = user_data) := by
          intro x hx
          obtain ⟨j, hj, hg⟩ := mem_drop_get array (idx + 1) x hx
          have hlt : j < array.length := by
            by_contra hge
            rw [List.get?_eq_none.mpr (by omega)] at hg
            cases hg
          exact hafter j x (by omega) hlt hg
        by_cases hempty : (array.eraseIdx idx).length = 0
        · have hres : tp_dbus_daemon_cancel_name_owner_watch self name callback user_data
              = (true, { _tp_dbus_daemon_name_owner_changed_multiple_free
                  (match w.destroy with
                    | some d => self.emit (Call.destroy d w.user_data)
                    | none => self) (array.eraseIdx idx) with
                  name_owner_watches := g_hash_table_remove
                    (_tp_dbus_daemon_name_owner_changed_multiple_free
                      (match w.destroy with
                        | some d => self.emit (Call.destroy d w.user_data)
                        | none => self) (array.eraseIdx idx)).name_owner_watches name }) := by
            simp only [tp_dbus_daemon_cancel_name_owner_watch, hl, ht, hs, hw]
            rw [if_pos hempty]
          have hnil : array.eraseIdx idx = [] := List.length_eq_zero.mp hempty
          have htable : (_tp_dbus_daemon_name_owner_changed_multiple_free
              (match w.destroy with
                | some d => self.emit (Call.destroy d w.user_data)
                | none => self) (array.eraseIdx idx)).name_owner_watches
              = self.name_owner_watches := by
            rw [hnil]
            cases w.destroy <;> rfl
          rw [hres]
          refine ⟨?_, by simp, fun _ => ⟨array.take idx, w, array.drop (idx + 1), ?_, hwc, hwu,
            hpost, ?_, ?_, ?_, ?_⟩⟩
          · simp only [true_iff]
            refine ⟨w, ?_, hwc, hwu⟩
            simp only [watchers, hl, ht, WatchTarget.subwatches]
            exact List.mem_iff_get?.mpr ⟨idx, hw⟩
          · simp only [watchers, hl, ht, WatchTarget.subwatches]
            exact hsplit
          · simp only [watchers, htable, lookup_remove_same]
            rw [← herase, hnil]
          · intro _
            simp only [htable]
            exact lookup_remove_same _ _
          · intro hne
            rw [← herase, hnil] at hne
            exact absurd rfl hne
          · intro other ho
            simp only [htable]
            exact lookup_remove_other _ _ _ ho
        · have hres : tp_dbus_daemon_cancel_name_owner_watch self name callback user_data
              = (true, (match w.destroy with
                    | some d => self.emit (Call.destroy d w.user_data)
                    | none => self).store name
                  { watch with target := WatchTarget.multiple (array.eraseIdx idx) }) := by
            simp only [tp_dbus_daemon_cancel_name_owner_watch, hl, ht, hs, hw]
            rw [if_neg hempty]
          have htable : (match w.destroy with
                | some d => self.emit (Call.destroy d w.user_data)
                | none => self).name_owner_watches = self.name_owner_watches := by
            cases w.destroy <;> rfl
          rw [hres]
          refine ⟨?_, by simp, fun _ => ⟨array.take idx, w, array.drop (idx + 1), ?_, hwc, hwu,
            hpost, ?_, ?_, ?_, ?_⟩⟩
          · simp only [true_iff]
            refine ⟨w, ?_, hwc, hwu⟩
            simp only [watchers, hl, ht, WatchTarget.subwatches]
            exact List.mem_iff_get?.mpr ⟨idx, hw⟩
          · simp only [watchers, hl, ht, WatchTarget.subwatches]
            exact hsplit
          · simp only [watchers, TpDBusDaemon.store, lookup_insert_same,
              WatchTarget.subwatches]
            exact herase
          · intro hnil
            rw [← herase] at hnil
            exact absurd (by rw [hnil]; rfl) hempty
          · intro _
            simp only [last_owner, TpDBusDaemon.store, lookup_insert_same, hl]
          · intro other ho
            simp only [TpDBusDaemon.store, lookup_insert_other _ _ _ _ ho, htable]

theorem multiple_loop_no_reaction (array : List _NameOwnerSubWatch) (name : String)
    (new_owner : Option String) (watch : _NameOwnerWatch)
    (ht : watch.target = WatchTarget.multiple array) :
    ∀ (rest : List _NameOwnerSubWatch) (i fuel : Nat) (self : TpDBusDaemon),
      g_hash_table_lookup self.name_owner_watches name = some watch →
      array.drop i = rest → rest.length < fuel →
      multiple_loop no_reaction name new_owner fuel i self
        = Except.ok (_tp_dbus_daemon_name_owner_changed_multiple self name new_owner rest) := by
  intro rest
  induction rest with
  | nil =>
    intro i fuel self hl hd hf
    cases fuel with
    | zero => simp at hf
    | succ fuel =>
      have hnone : array.get? i = none := by
        apply List.get?_eq_none.mpr
        have := congrArg List.length hd
        simp only [List.length_drop, List.length_nil] at this
        omega
      simp only [multiple_loop, hl, ht, hnone, _tp_dbus_daemon_name_owner_changed_multiple,
        pure, Except.pure]
  | cons w rest ih =>
    intro i fuel self hl hd hf
    cases fuel with
    | zero => simp at hf
    | succ fuel =>
      have hlt : i < array.length := by
        have := congrArg List.length hd
        simp only [List.length_drop, List.length_cons] at this
        omega
      have hget : array.get? i = some w := by
        rw [List.get?_eq_get hlt]
        have h2 := List.drop_eq_getElem_cons hlt
        rw [hd] at h2
        simp only [List.cons.injEq] at h2
        simp [h2.1]
      have hrest : array.drop (i + 1) = rest := by
        have h2 := List.drop_eq_getElem_cons hlt
        rw [hd] at h2
        simp only [List.cons.injEq] at h2
        exact h2.2.symm
      simp only [multiple_loop, hl, ht, hget, run_callback, no_reaction, cancel_all,
        _tp_dbus_daemon_name_owner_changed_multiple]
      exact ih (i + 1) fuel _ (by simpa [TpDBusDaemon.emit] using hl) hrest
        (by simp only [List.length_cons] at hf; omega)

/-- With callbacks that cancel nothing, the dispatch that re-reads the array is
the dispatch of the first embedding. -/
theorem name_owner_changed_reentrant_no_reaction (self : TpDBusDaemon) (name : String)
    (new_owner : Option String) :
    _tp_dbus_daemon_name_owner_changed_reentrant no_reaction self name new_owner
      = Except.ok (_tp_dbus_daemon_name_owner_changed self name new_owner) := by
  unfold _tp_dbus_daemon_name_owner_changed_reentrant _tp_dbus_daemon_name_owner_changed
  cases hl : g_hash_table_lookup self.name_owner_watches name with
  | none => rfl
  | some watch =>
    simp only []
    split
    · rfl
    · cases ht : watch.target with
      | single w => simp [run_callback, no_reaction, cancel_all, call_watch, pure, Except.pure]
      | multiple array =>
        simp only [call_watch]
        exact multiple_loop_no_reaction array name new_owner
          { watch with last_owner := new_owner } ht array 0 (array.length + 1) _
          (by simp [TpDBusDaemon.store, lookup_insert_same, ht]) rfl (Nat.lt_succ_self _)

/-- C13 (the code departs from it): A, B and C watch a name; the owner changes and
A's callback cancels A's own registration. `g_array_remove_index` moves B to
index 0 while the loop goes on to index 1, so the change is delivered to A and C
only: B, registered before the event and still registered after it, is not
called. -/
theorem C13_cancel_during_dispatch_skips_a_watcher :
    watchers three_watchers "com.example.Svc"
        = [⟨1, 10, none⟩, ⟨2, 20, none⟩, ⟨3, 30, none⟩]
    ∧ ∃ s, _tp_dbus_daemon_name_owner_changed_reentrant cancel_self three_watchers
          "com.example.Svc" (some ":1.2") = Except.ok s
        ∧ s.trace = three_watchers.trace ++
            [Call.callback 1 "com.example.Svc" (some ":1.2") 10,
             Call.callback 3 "com.example.Svc" (some ":1.2") 30]
        ∧ watchers s "com.example.Svc" = [⟨2, 20, none⟩, ⟨3, 30, none⟩] :=
  ⟨by decide, _, rfl, by decide, by decide⟩

/-- Witness of C11: the first watcher of a name triggers the lookup only; a
fourth watcher of a name whose owner is known is called back at once. -/
theorem C11_watch_registers_and_replays_last_owner_witness :
    g_hash_table_lookup daemon0.name_owner_watches "com.example.Svc" = none
    ∧ (tp_dbus_daemon_watch_name_owner daemon0 "com.example.Svc" 1 10 none).trace
        = daemon0.trace ++ [Call.get_name_owner "com.example.Svc"]
    ∧ (tp_dbus_daemon_watch_name_owner three_watchers "com.example.Svc" 4 40 none).trace
        = three_watchers.trace ++ [Call.callback 4 "com.example.Svc" (some ":1.1") 40]
    ∧ watchers (tp_dbus_daemon_watch_name_owner three_watchers "com.example.Svc" 4 40 none)
        "com.example.Svc"
        = watchers three_watchers "com.example.Svc" ++ [⟨4, 40, none⟩] :=
  ⟨rfl,
   ((C11_watch_registers_and_replays_last_owner daemon0 "com.example.Svc" 1 10 none).1 rfl).1,
   ((C11_watch_registers_and_replays_last_owner three_watchers "com.example.Svc" 4 40
      none).2.1 _ rfl).2.2.1 ":1.1" rfl,
   ((C11_watch_registers_and_replays_last_owner three_watchers "com.example.Svc" 4 40
      none).2.1 _ rfl).1⟩

/-- Witness of C12: a registration nobody made is not found and nothing changes;
B's registration is found and removed. -/
theorem C12_cancel_removes_most_recent_match_witness :
    (tp_dbus_daemon_cancel_name_owner_watch three_watchers "com.example.Svc" 9 9).1 = false
    ∧ (tp_dbus_daemon_cancel_name_owner_watch three_watchers "com.example.Svc" 9 9).2
        = three_watchers
    ∧ (tp_dbus_daemon_cancel_name_owner_watch three_watchers "com.example.Svc" 2 20).1 = true
    ∧ ∃ pre w post, watchers three_watchers "com.example.Svc" = pre ++ w :: post
        ∧ w.callback = 2 ∧ w.user_data = 20
        ∧ watchers (tp_dbus_daemon_cancel_name_owner_watch three_watchers "com.example.Svc"
            2 20).2 "com.example.Svc" = pre ++ post := by
  refine ⟨rfl, (C12_cancel_removes_most_recent_match three_watchers "com.example.Svc" 9
    9).2.1 rfl, rfl, ?_⟩
  obtain ⟨pre, w, post, h1, h2, h3, _, h5, _⟩ :=
    (C12_cancel_removes_most_recent_match three_watchers "com.example.Svc" 2 20).2.2 rfl
  exact ⟨pre, w, post, h1, h2, h3, h5⟩

end DBus

/-! # Theorems: the pending-message queue of text-mixin.c -/

namespace TextMixin

open Tp

theorem pending_get_alloc_ok (alloc : _Allocator) (h : Allocator_ok alloc) :
    _pending_get_alloc alloc = Except.ok (allocator_with alloc.count) := by
  obtain ⟨size, limit, count⟩ := alloc
  rcases h with ⟨h1, h2⟩ | ⟨h1, h2, _⟩
  · simp only at h1 h2
    subst h1 h2
    rfl
  · simp only at h1 h2
    subst h1 h2
    rfl

theorem count_le_of_ok (alloc : _Allocator) (h : Allocator_ok alloc) :
    alloc.count ≤ MAX_PENDING_MESSAGES := by
  rcases h with ⟨_, h2⟩ | ⟨_, _, h3⟩
  · rw [h2]
    exact Nat.zero_le _
  · exact h3

theorem allocator_with_ok (count : Nat) (h : count ≤ MAX_PENDING_MESSAGES) :
    Allocator_ok (allocator_with count) :=
  Or.inr ⟨rfl, rfl, h⟩

theorem pending_new0_full (alloc : _Allocator) (h : Allocator_ok alloc)
    (hc : alloc.count = MAX_PENDING_MESSAGES) :
    _pending_new0 alloc = Except.ok (false, allocator_with alloc.count) := by
  simp only [_pending_new0, pending_get_alloc_ok alloc h, _allocator_alloc0, allocator_with, hc]
  rfl

theorem pending_new0_free (alloc : _Allocator) (h : Allocator_ok alloc)
    (hc : alloc.count ≠ MAX_PENDING_MESSAGES) :
    _pending_new0 alloc = Except.ok (true, allocator_with (alloc.count + 1)) := by
  have hle := count_le_of_ok alloc h
  simp only [MAX_PENDING_MESSAGES] at hle hc
  have h1 : ¬ (256 < alloc.count) := by omega
  have h2 : (alloc.count + 1) % 4294967296 = alloc.count + 1 := by omega
  simp only [_pending_new0, pending_get_alloc_ok alloc h, _allocator_alloc0, allocator_with,
    MAX_PENDING_MESSAGES, h1, hc, h2, if_false, pure, Except.pure]

theorem pending_free_ok (alloc : _Allocator) (h : Allocator_ok alloc) (hc : 0 < alloc.count) :
    _pending_free alloc = Except.ok (allocator_with (alloc.count - 1)) := by
  have hle := count_le_of_ok alloc h
  simp only [MAX_PENDING_MESSAGES] at hle
  have h2 : (alloc.count + 4294967295) % 4294967296 = alloc.count - 1 := by omega
  simp only [_pending_free, pending_get_alloc_ok alloc h, _allocator_free, allocator_with, h2,
    pure, Except.pure]

/-- The call with the allocator at its limit. -/
theorem receive_full (self : State) (type sender : Nat) (timestamp : Int) (text : List Nat)
    (try_malloc_ok : Bool) (h : Allocator_ok self.alloc)
    (hc : self.alloc.count = MAX_PENDING_MESSAGES) :
    tp_text_mixin_receive self type sender timestamp text try_malloc_ok
      = Except.ok (false, note_lost { self with alloc := allocator_with self.alloc.count }) := by
  simp only [tp_text_mixin_receive, pending_new0_full self.alloc h hc, pure, Except.pure]

/-- The call whose text allocation fails. -/
theorem receive_no_text (self : State) (type sender : Nat) (timestamp : Int) (text : List Nat)
    (h : Allocator_ok self.alloc) (hc : self.alloc.count ≠ MAX_PENDING_MESSAGES) :
    tp_text_mixin_receive self type sender timestamp text false
      = Except.ok (false,
          { note_lost { self with alloc := allocator_with (self.alloc.count + 1) } with
            alloc := allocator_with self.alloc.count }) := by
  have hle := count_le_of_ok self.alloc h
  have hok : Allocator_ok (note_lost
      { self with alloc := allocator_with (self.alloc.count + 1) }).alloc := by
    unfold note_lost
    split
    · exact allocator_with_ok _ (by simp only [MAX_PENDING_MESSAGES] at hle hc ⊢; omega)
    · exact allocator_with_ok _ (by simp only [MAX_PENDING_MESSAGES] at hle hc ⊢; omega)
  have hcount : (note_lost
      { self with alloc := allocator_with (self.alloc.count + 1) }).alloc.count
      = self.alloc.count + 1 := by
    unfold note_lost
    split <;> rfl
  simp only [tp_text_mixin_receive, pending_new0_free self.alloc h hc, Bool.not_false,
    if_true, pending_free_ok _ hok (by rw [hcount]; omega), hcount, Nat.add_sub_cancel, pure,
    Except.pure]

/-- The call that queues the message. -/
theorem receive_accept (self : State) (type sender : Nat) (timestamp : Int) (text : List Nat)
    (h : Allocator_ok self.alloc) (hc : self.alloc.count ≠ MAX_PENDING_MESSAGES) :
    tp_text_mixin_receive self type sender timestamp text true
      = Except.ok (true,
          { alloc := allocator_with (self.alloc.count + 1)
            mixin :=
              { self.mixin with
                pending := self.mixin.pending ++ [queued_message self type sender timestamp text]
                recv_id := (self.mixin.recv_id + 1) % 4294967296
                message_lost := false }
            trace := self.trace ++
              [Effect.handle_ref self.mixin.contacts_repo sender,
               Effect.received self.mixin.recv_id (timestamp % 4294967296).toNat sender type
                 (queued_message self type sender timestamp text).flags
                 (queued_message self type sender timestamp text).text] }) := by
  simp only [tp_text_mixin_receive, pending_new0_free self.alloc h hc, Bool.not_true,
    Bool.false_eq_true, if_false, State.emit, queued_message, kept_length, pure, Except.pure,
    List.append_assoc, List.singleton_append]


theorem note_lost_frame (self : State) :
    (note_lost self).alloc = self.alloc
    ∧ (note_lost self).mixin.pending = self.mixin.pending
    ∧ (note_lost self).mixin.recv_id = self.mixin.recv_id
    ∧ (note_lost self).mixin.message_lost = true
    ∧ lost_count (note_lost self).trace
        = lost_count self.trace + (if self.mixin.message_lost then 0 else 1) := by
  unfold note_lost
  cases hl : self.mixin.message_lost
  · refine ⟨rfl, rfl, rfl, rfl, ?_⟩
    simp only [Bool.not_false, if_true, State.emit, Bool.false_eq_true, if_false]
    generalize self.trace = tr
    induction tr with
    | nil => rfl
    | cons e tr ih => cases e <;> simp [lost_count, ih]
  · exact ⟨rfl, rfl, rfl, hl, by simp⟩

theorem remove_link_length (links : List (Nat × _PendingMessage)) (node : Nat)
    (msg : _PendingMessage) (h : find_link links node = some msg) :
    (remove_link links node).length + 1 = links.length := by
  induction links with
  | nil => simp [find_link] at h
  | cons p rest ih =>
    obtain ⟨pos, m⟩ := p
    by_cases hp : pos = node
    · simp [remove_link, hp]
    · simp only [find_link, hp, if_false] at h
      simp only [remove_link, hp, if_false, List.length_cons]
      rw [ih h]

theorem acknowledge_loop_inv (nodes : List Nat) :
    ∀ (self s : State) (links out : List (Nat × _PendingMessage)),
      Allocator_ok self.alloc → links.length ≤ self.alloc.count →
      acknowledge_loop self links nodes = Except.ok (s, out) →
      Allocator_ok s.alloc ∧ out.length ≤ s.alloc.count
        ∧ s.alloc.count + links.length = self.alloc.count + out.length
        ∧ out.length + nodes.length = links.length ∧ s.mixin = self.mixin := by
  induction nodes with
  | nil =>
    intro self s links out ha hl h
    simp only [acknowledge_loop, pure, Except.pure, Except.ok.injEq, Prod.mk.injEq] at h
    obtain ⟨h1, h2⟩ := h
    subst h1 h2
    exact ⟨ha, hl, rfl, rfl, rfl⟩
  | cons node nodes ih =>
    intro self s links out ha hl h
    cases hf : find_link links node with
    | none => simp [acknowledge_loop, hf, throw, throwThe, MonadExceptOf.throw] at h
    | some msg =>
      have hlen := remove_link_length links node msg hf
      have hpos : 0 < self.alloc.count := by omega
      have hle := count_le_of_ok self.alloc ha
      simp only [acknowledge_loop, hf, State.emit, pending_free_ok self.alloc ha hpos] at h
      obtain ⟨h1, h2, h3, h4, h5⟩ := ih _ s (remove_link links node) out
        (allocator_with_ok _ (by simp only [MAX_PENDING_MESSAGES] at hle ⊢; omega))
        (by simp only [allocator_with]; omega) h
      simp only [allocator_with] at h3
      refine ⟨h1, h2, ?_, ?_, h5⟩
      · omega
      · simp only [List.length_cons]
        omega

theorem clear_loop_ok (rest : List _PendingMessage) :
    ∀ (self : State), Allocator_ok self.alloc → rest.length ≤ self.alloc.count →
      ∃ s, clear_loop self rest = Except.ok s ∧ Allocator_ok s.alloc
        ∧ s.alloc.count + rest.length = self.alloc.count ∧ s.mixin = self.mixin := by
  induction rest with
  | nil =>
    intro self ha _
    exact ⟨self, rfl, ha, rfl, rfl⟩
  | cons msg rest ih =>
    intro self ha hl
    simp only [List.length_cons] at hl
    have hpos : 0 < self.alloc.count := by omega
    have hle := count_le_of_ok self.alloc ha
    simp only [clear_loop, State.emit, pending_free_ok self.alloc ha hpos]
    obtain ⟨s, h1, h2, h3, h4⟩ := ih
      { alloc := allocator_with (self.alloc.count - 1), mixin := self.mixin,
        trace := self.trace ++ [Effect.handle_unref self.mixin.contacts_repo msg.sender] }
      (allocator_with_ok _ (by simp only [MAX_PENDING_MESSAGES] at hle ⊢; omega))
      (by simp only [allocator_with]; omega)
    refine ⟨s, h1, h2, ?_, h4⟩
    simp only [allocator_with] at h3
    simp only [List.length_cons]
    omega

theorem links_from_length (pending : List _PendingMessage) (pos : Nat) :
    (links_from pos pending).length = pending.length := by
  induction pending generalizing pos with
  | nil => rfl
  | cons m rest ih => simp [links_from, ih]

theorem list_loop_pop_eq (pending : List _PendingMessage) :
    ∀ messages, list_loop_pop messages pending
      = (messages ++ pending.map _PendingMessage.to_struct, []) := by
  induction pending with
  | nil => intro messages; simp [list_loop_pop, g_queue_pop_head_link]
  | cons m rest ih =>
    intro messages
    simp [list_loop_pop, ih, dbus_g_type_struct_set, _PendingMessage.to_struct]

theorem list_loop_peek_eq (pending : List _PendingMessage) :
    ∀ messages, list_loop_peek messages pending
      = messages ++ pending.map _PendingMessage.to_struct := by
  induction pending with
  | nil => intro messages; simp [list_loop_peek]
  | cons m rest ih =>
    intro messages
    simp [list_loop_peek, ih, dbus_g_type_struct_set, _PendingMessage.to_struct]

/-- What `tp_text_mixin_list_pending_messages` returns and leaves. -/
theorem list_pending_messages_eq (self : State) (clear : Bool) :
    tp_text_mixin_list_pending_messages self clear
      = (true, self.mixin.pending.map _PendingMessage.to_struct,
          if clear then { self with mixin := { self.mixin with pending := [] } } else self) := by
  cases clear
  · simp [tp_text_mixin_list_pending_messages, list_loop_peek_eq]
  · simp [tp_text_mixin_list_pending_messages, list_loop_pop_eq]

/-- What one call does to the allocator's count and the queue's length. -/
theorem step_counts (self s : State) (op : Op) (hinv : Inv self)
    (h : step self op = Except.ok s) :
    Inv s ∧ (op.frees_what_it_removes = true →
      self.alloc.count = self.mixin.pending.length → s.alloc.count = s.mixin.pending.length) := by
  obtain ⟨ha, hl⟩ := hinv
  have hle := count_le_of_ok self.alloc ha
  cases op with
  | receive type sender timestamp text try_malloc_ok =>
    by_cases hc : self.alloc.count = MAX_PENDING_MESSAGES
    · simp only [step, receive_full self type sender timestamp text try_malloc_ok ha hc, pure,
        Except.pure, Except.ok.injEq] at h
      subst h
      obtain ⟨h1, h2, _⟩ := note_lost_frame { self with alloc := allocator_with self.alloc.count }
      refine ⟨⟨?_, ?_⟩, fun _ heq => ?_⟩
      · rw [h1]
        exact allocator_with_ok _ hle
      · rw [h1, h2]
        exact hl
      · rw [h1, h2]
        exact heq
    · cases try_malloc_ok with
      | false =>
        simp only [step, receive_no_text self type sender timestamp text ha hc, pure,
          Except.pure, Except.ok.injEq] at h
        subst h
        obtain ⟨_, h2, _⟩ :=
          note_lost_frame { self with alloc := allocator_with (self.alloc.count + 1) }
        refine ⟨⟨allocator_with_ok _ hle, ?_⟩, fun _ heq => ?_⟩
        · simp only [h2]
          exact hl
        · simp only [h2]
          exact heq
      | true =>
        simp only [step, receive_accept self type sender timestamp text ha hc, pure,
          Except.pure, Except.ok.injEq] at h
        subst h
        refine ⟨⟨allocator_with_ok _ ?_, ?_⟩, fun _ heq => ?_⟩
        · simp only [MAX_PENDING_MESSAGES] at hle hc ⊢
          omega
        · simp only [allocator_with, List.length_append, List.length_singleton]
          omega
        · simp only [allocator_with, List.length_append, List.length_singleton]
          omega
  | acknowledge ids =>
    simp only [step, tp_text_mixin_acknowledge_pending_messages] at h
    cases hn : find_nodes self.mixin.pending ids with
    | error bad =>
      simp only [hn, pure, Except.pure, Except.ok.injEq] at h
      subst h
      exact ⟨⟨ha, hl⟩, fun _ heq => heq⟩
    | ok nodes =>
      simp only [hn] at h
      cases hloop : acknowledge_loop self (links_from 0 self.mixin.pending) nodes with
      | error f => simp [hloop, throw, throwThe, MonadExceptOf.throw] at h
      | ok r =>
        obtain ⟨s2, out⟩ := r
        simp only [hloop, pure, Except.pure, Except.ok.injEq] at h
        subst h
        obtain ⟨h1, h2, h3, _, _⟩ := acknowledge_loop_inv nodes self s2
          (links_from 0 self.mixin.pending) out ha
          (by rw [links_from_length]; exact hl) hloop
        rw [links_from_length] at h3
        refine ⟨⟨h1, ?_⟩, fun _ heq => ?_⟩
        · simp only [List.length_map]
          exact h2
        · simp only [List.length_map]
          omega
  | list clear =>
    simp only [step, list_pending_messages_eq, pure, Except.pure,
      Except.ok.injEq] at h
    subst h
    cases clear with
    | false => exact ⟨⟨ha, hl⟩, fun _ heq => heq⟩
    | true =>
      refine ⟨⟨ha, Nat.zero_le _⟩, fun hf _ => ?_⟩
      simp [Op.frees_what_it_removes] at hf
  | clear =>
    obtain ⟨s2, h1, h2, h3, _⟩ := clear_loop_ok self.mixin.pending self ha hl
    simp only [step, tp_text_mixin_clear, h1, pure, Except.pure, Except.ok.injEq] at h
    subst h
    refine ⟨⟨h2, Nat.zero_le _⟩, fun _ heq => ?_⟩
    simp only [List.length_nil]
    omega

theorem run_counts (ops : List Op) :
    ∀ (self s : State), Inv self → run self ops = Except.ok s →
      Inv s ∧ ((∀ op ∈ ops, op.frees_what_it_removes = true) →
        self.alloc.count = self.mixin.pending.length →
        s.alloc.count = s.mixin.pending.length) := by
  induction ops with
  | nil =>
    intro self s hinv h
    simp only [run, pure, Except.pure, Except.ok.injEq] at h
    subst h
    exact ⟨hinv, fun _ heq => heq⟩
  | cons op rest ih =>
    intro self s hinv h
    simp only [run] at h
    cases hs : step self op with
    | error f => simp [hs, throw, throwThe, MonadExceptOf.throw] at h
    | ok s1 =>
      simp only [hs] at h
      obtain ⟨h1, h2⟩ := step_counts self s1 op hinv hs
      obtain ⟨h3, h4⟩ := ih s1 s h1 h
      refine ⟨h3, fun hall heq => h4 (fun o ho => hall o (List.mem_cons_of_mem _ ho))
        (h2 (hall op (List.mem_cons_self _ _)) heq)⟩

/-- C14: in a process whose allocator is untouched or within its limit, every
state reached from `tp_text_mixin_init` by `tp_text_mixin_receive`,
`tp_text_mixin_acknowledge_pending_messages`,
`tp_text_mixin_list_pending_messages` and `tp_text_mixin_clear` calls has at most
`MAX_PENDING_MESSAGES` (256) messages in its queue. -/
theorem C14_queue_never_exceeds_capacity (alloc : _Allocator) (contacts_repo : Nat)
    (send_nick : Bool) (ops : List Op) (s : State) (ha : Allocator_ok alloc)
    (hrun : run (tp_text_mixin_init alloc contacts_repo send_nick) ops = Except.ok s) :
    s.mixin.pending.length ≤ MAX_PENDING_MESSAGES := by
  obtain ⟨⟨h1, h2⟩, _⟩ := run_counts ops (tp_text_mixin_init alloc contacts_repo send_nick) s
    ⟨ha, Nat.zero_le _⟩ hrun
  exact Nat.le_trans h2 (count_le_of_ok s.alloc h1)


set_option maxRecDepth 100000 in
/-- C15 (as stated, false): channel A holds 256 pending messages; channel B, just
initialised in the same process, has an empty queue, and the text allocation
succeeds, yet `tp_text_mixin_receive` on B returns `FALSE` and queues nothing,
because the static allocator is at its limit. -/
theorem C15_rejected_with_an_empty_queue :
    channel_a_full.mixin.pending.length = 256
    ∧ channel_b.mixin.pending.length < 256
    ∧ ∃ s, tp_text_mixin_receive channel_b 0 5 100 [104, 105] true = Except.ok (false, s)
        ∧ s.mixin.pending = [] :=
  ⟨rfl, by decide, _, rfl, rfl⟩

/-- C15 (amended): with the static allocator untouched or within its limit,
`tp_text_mixin_receive` returns `FALSE`, leaving the queue as it was, exactly
when the allocator has `MAX_PENDING_MESSAGES` structs outstanding or the text
allocation fails, and otherwise returns `TRUE` and appends the message at the
tail. If the state was reached from `tp_text_mixin_init` called while the
allocator had no struct outstanding, by calls on this mixin alone other than the
listing that empties the queue, the outstanding count is the queue's length, so
there the call returns `FALSE` exactly when the queue holds
`MAX_PENDING_MESSAGES` messages or the text allocation fails. -/
theorem C15_receive_rejects_iff_allocator_full (self : State) (type sender : Nat) (timestamp : Int)
    (text : List Nat) (try_malloc_ok : Bool) (ha : Allocator_ok self.alloc) :
    (∃ accepted s,
        tp_text_mixin_receive self type sender timestamp text try_malloc_ok
          = Except.ok (accepted, s)
        ∧ (accepted = false ↔
            (self.alloc.count = MAX_PENDING_MESSAGES ∨ try_malloc_ok = false))
        ∧ (accepted = false → s.mixin.pending = self.mixin.pending)
        ∧ (accepted = true → s.mixin.pending
            = self.mixin.pending ++ [queued_message self type sender timestamp text]))
    ∧ (∀ (alloc : _Allocator) (contacts_repo : Nat) (send_nick : Bool) (ops : List Op),
        Allocator_ok alloc → alloc.count = 0 →
        (∀ op ∈ ops, op.frees_what_it_removes = true) →
        run (tp_text_mixin_init alloc contacts_repo send_nick) ops = Except.ok self →
        self.alloc.count = self.mixin.pending.length)
    ∧ (∀ (alloc : _Allocator) (contacts_repo : Nat) (send_nick : Bool) (ops : List Op),
        Allocator_ok alloc → alloc.count = 0 →
        (∀ op ∈ ops, op.frees_what_it_removes = true) →
        run (tp_text_mixin_init alloc contacts_repo send_nick) ops = Except.ok self →
        ∃ accepted s,
          tp_text_mixin_receive self type sender timestamp text try_malloc_ok
            = Except.ok (accepted, s)
          ∧ (accepted = false ↔
              (self.mixin.pending.length = MAX_PENDING_MESSAGES ∨ try_malloc_ok = false))) := by
  have hcount : ∀ (alloc : _Allocator) (contacts_repo : Nat) (send_nick : Bool)
      (ops : List Op), Allocator_ok alloc → alloc.count = 0 →
      (∀ op ∈ ops, op.frees_what_it_removes = true) →
      run (tp_text_mixin_init alloc contacts_repo send_nick) ops = Except.ok self →
      self.alloc.count = self.mixin.pending.length := by
    intro alloc contacts_repo send_nick ops hok hzero hops hrun
    exact (run_counts ops _ self ⟨hok, Nat.zero_le _⟩ hrun).2 hops hzero
  have hcall : ∃ accepted s,
      tp_text_mixin_receive self type sender timestamp text try_malloc_ok
        = Except.ok (accepted, s)
      ∧ (accepted = false ↔
          (self.alloc.count = MAX_PENDING_MESSAGES ∨ try_malloc_ok = false))
      ∧ (accepted = false → s.mixin.pending = self.mixin.pending)
      ∧ (accepted = true → s.mixin.pending
          = self.mixin.pending ++ [queued_message self type sender timestamp text]) := by
    by_cases hc : self.alloc.count = MAX_PENDING_MESSAGES
    · refine ⟨false, _, receive_full self type sender timestamp text try_malloc_ok ha hc,
        by simp [hc], fun _ => ?_, by simp⟩
      exact (note_lost_frame _).2.1
    · cases try_malloc_ok with
      | false =>
        refine ⟨false, _, receive_no_text self type sender timestamp text ha hc, by simp,
          fun _ => ?_, by simp⟩
        exact (note_lost_frame { self with alloc := allocator_with (self.alloc.count + 1) }).2.1
      | true =>
        exact ⟨true, _, receive_accept self type sender timestamp text ha hc, by simp [hc],
          by simp, fun _ => rfl⟩
  refine ⟨hcall, hcount, ?_⟩
  intro alloc contacts_repo send_nick ops hok hzero hops hrun
  obtain ⟨accepted, s, h1, h2, _⟩ := hcall
  have hlen := hcount alloc contacts_repo send_nick ops hok hzero hops hrun
  exact ⟨accepted, s, h1, by rw [← hlen]; exact h2⟩

theorem lost_count_append (xs ys : List Effect) :
    lost_count (xs ++ ys) = lost_count xs + lost_count ys := by
  induction xs with
  | nil => simp [lost_count]
  | cons x xs ih =>
    cases x <;> simp [lost_count, ih]
    omega

/-- One call of `tp_text_mixin_receive` and the `lost-message` signal. -/
theorem receive_lost (self : State) (type sender : Nat) (timestamp : Int) (text : List Nat)
    (try_malloc_ok : Bool) (ha : Allocator_ok self.alloc) :
    ∃ accepted s,
      tp_text_mixin_receive self type sender timestamp text try_malloc_ok
        = Except.ok (accepted, s)
      ∧ Allocator_ok s.alloc
      ∧ s.mixin.message_lost = !accepted
      ∧ lost_count s.trace = lost_count self.trace
          + (if accepted || self.mixin.message_lost then 0 else 1) := by
  have hle := count_le_of_ok self.alloc ha
  by_cases hc : self.alloc.count = MAX_PENDING_MESSAGES
  · obtain ⟨h1, _, _, h4, h5⟩ :=
      note_lost_frame { self with alloc := allocator_with self.alloc.count }
    refine ⟨false, _, receive_full self type sender timestamp text try_malloc_ok ha hc, ?_,
      h4, ?_⟩
    · rw [h1]
      exact allocator_with_ok _ hle
    · rw [h5]
      simp
  · cases try_malloc_ok with
    | false =>
      obtain ⟨_, _, _, h4, h5⟩ :=
        note_lost_frame { self with alloc := allocator_with (self.alloc.count + 1) }
      refine ⟨false, _, receive_no_text self type sender timestamp text ha hc,
        allocator_with_ok _ hle, h4, ?_⟩
      simp only [h5]
      simp
    | true =>
      refine ⟨true, _, receive_accept self type sender timestamp text ha hc,
        allocator_with_ok _ ?_, rfl, ?_⟩
      · simp only [MAX_PENDING_MESSAGES] at hle hc ⊢
        omega
      · simp [lost_count_append, lost_count]

theorem acknowledge_loop_quiet (nodes : List Nat) :
    ∀ (self s : State) (links out : List (Nat × _PendingMessage)),
      acknowledge_loop self links nodes = Except.ok (s, out) →
      s.mixin = self.mixin ∧ lost_count s.trace = lost_count self.trace := by
  induction nodes with
  | nil =>
    intro self s links out h
    simp only [acknowledge_loop, pure, Except.pure, Except.ok.injEq, Prod.mk.injEq] at h
    rw [← h.1]
    exact ⟨rfl, rfl⟩
  | cons node nodes ih =>
    intro self s links out h
    cases hf : find_link links node with
    | none => simp [acknowledge_loop, hf, throw, throwThe, MonadExceptOf.throw] at h
    | some msg =>
      simp only [acknowledge_loop, hf] at h
      cases hp : _pending_free (self.emit
          (Effect.handle_unref self.mixin.contacts_repo msg.sender)).alloc with
      | error f => simp [hp, throw, throwThe, MonadExceptOf.throw] at h
      | ok alloc =>
        simp only [hp] at h
        obtain ⟨h1, h2⟩ := ih _ s _ out h
        exact ⟨h1, by rw [h2]; simp [State.emit, lost_count_append, lost_count]⟩

theorem clear_loop_quiet (rest : List _PendingMessage) :
    ∀ (self s : State), clear_loop self rest = Except.ok s →
      s.mixin = self.mixin ∧ lost_count s.trace = lost_count self.trace := by
  induction rest with
  | nil =>
    intro self s h
    simp only [clear_loop, pure, Except.pure, Except.ok.injEq] at h
    rw [← h]
    exact ⟨rfl, rfl⟩
  | cons msg rest ih =>
    intro self s h
    simp only [clear_loop] at h
    cases hp : _pending_free (self.emit
        (Effect.handle_unref self.mixin.contacts_repo msg.sender)).alloc with
    | error f => simp [hp, throw, throwThe, MonadExceptOf.throw] at h
    | ok alloc =>
      simp only [hp] at h
      obtain ⟨h1, h2⟩ := ih _ s h
      exact ⟨h1, by rw [h2]; simp [State.emit, lost_count_append, lost_count]⟩

/-- What one call of `tp_text_mixin_receive` returns, emits and leaves, from the
allocator's count and the outcome of the text allocation. -/
theorem receive_outcome (self : State) (type sender : Nat) (timestamp : Int) (text : List Nat)
    (try_malloc_ok : Bool) (ha : Allocator_ok self.alloc) :
    ∃ s,
      tp_text_mixin_receive self type sender timestamp text try_malloc_ok
        = Except.ok
            (decide (¬ (self.alloc.count = MAX_PENDING_MESSAGES ∨ try_malloc_ok = false)), s)
      ∧ Allocator_ok s.alloc
      ∧ s.alloc.count = self.alloc.count
          + (if self.alloc.count = MAX_PENDING_MESSAGES ∨ try_malloc_ok = false then 0 else 1)
      ∧ s.mixin.message_lost
          = decide (self.alloc.count = MAX_PENDING_MESSAGES ∨ try_malloc_ok = false)
      ∧ s.trace = self.trace ++
          (if self.alloc.count = MAX_PENDING_MESSAGES ∨ try_malloc_ok = false then
            (if self.mixin.message_lost then [] else [Effect.lost_message])
           else
            [Effect.handle_ref self.mixin.contacts_repo sender,
             Effect.received self.mixin.recv_id (timestamp % 4294967296).toNat sender type
               (queued_message self type sender timestamp text).flags
               (queued_message self type sender timestamp text).text]) := by
  have hle := count_le_of_ok self.alloc ha
  have hlost : ∀ x : State, (note_lost x).trace
      = x.trace ++ (if x.mixin.message_lost then [] else [Effect.lost_message]) := by
    intro x
    unfold note_lost
    cases x.mixin.message_lost <;> simp [State.emit]
  by_cases hc : self.alloc.count = MAX_PENDING_MESSAGES
  · obtain ⟨h1, _, _, h4, _⟩ :=
      note_lost_frame { self with alloc := allocator_with self.alloc.count }
    have hd : decide (¬ (self.alloc.count = MAX_PENDING_MESSAGES ∨ try_malloc_ok = false))
        = false := by simp [hc]
    refine ⟨_, by rw [hd]; exact receive_full self type sender timestamp text try_malloc_ok ha hc,
      ?_, ?_, ?_, ?_⟩
    · rw [h1]
      exact allocator_with_ok _ hle
    · rw [h1]
      simp [hc, allocator_with]
    · rw [h4]
      simp [hc]
    · rw [hlost]
      simp [hc]
  · cases try_malloc_ok with
    | false =>
      obtain ⟨_, _, _, h4, _⟩ :=
        note_lost_frame { self with alloc := allocator_with (self.alloc.count + 1) }
      have hd : decide (¬ (self.alloc.count = MAX_PENDING_MESSAGES ∨ false = false))
          = false := by simp
      refine ⟨_, by rw [hd]; exact receive_no_text self type sender timestamp text ha hc,
        ?_, ?_, ?_, ?_⟩
      · exact allocator_with_ok _ hle
      · simp [allocator_with]
      · simp only [h4]
        simp
      · simp only [hlost]
        simp
    | true =>
      have hd : decide (¬ (self.alloc.count = MAX_PENDING_MESSAGES ∨ true = false))
          = true := by simp [hc]
      refine ⟨_, by rw [hd]; exact receive_accept self type sender timestamp text ha hc,
        ?_, ?_, ?_, ?_⟩
      · apply allocator_with_ok
        simp only [MAX_PENDING_MESSAGES] at hle hc ⊢
        omega
      · simp [hc, allocator_with]
      · simp [hc]
      · simp [hc]

/-- C16: `lost-message` is edge-triggered. A call of `tp_text_mixin_receive` is
rejected exactly when the allocator has 256 structs outstanding or the text
allocation fails. A rejected call returns `FALSE`, sets `message_lost`, and adds
to the trace the one emission of `lost-message` if `message_lost` was clear and
nothing if it was set; an accepted call returns `TRUE`, clears `message_lost` and
emits `received` only. So in any sequence of calls the return values are those
of `expected_returns` and the emissions per call are 1 for a rejection that
follows an accepted call (or the initial state, where `message_lost` is clear)
and 0 for every other call. The other calls neither change `message_lost` nor
emit the signal. -/
theorem C16_lost_message_is_edge_triggered (self : State) (calls : List ReceiveArgs)
    (ha : Allocator_ok self.alloc) :
    (∀ a : ReceiveArgs,
        ((self.alloc.count = MAX_PENDING_MESSAGES ∨ a.try_malloc_ok = false) →
          ∃ s, tp_text_mixin_receive self a.type a.sender a.timestamp a.text a.try_malloc_ok
              = Except.ok (false, s)
            ∧ s.mixin.message_lost = true
            ∧ s.trace = self.trace ++
                (if self.mixin.message_lost then [] else [Effect.lost_message]))
        ∧ (¬ (self.alloc.count = MAX_PENDING_MESSAGES ∨ a.try_malloc_ok = false) →
          ∃ s, tp_text_mixin_receive self a.type a.sender a.timestamp a.text a.try_malloc_ok
              = Except.ok (true, s)
            ∧ s.mixin.message_lost = false
            ∧ s.trace = self.trace ++
                [Effect.handle_ref self.mixin.contacts_repo a.sender,
                 Effect.received self.mixin.recv_id (a.timestamp % 4294967296).toNat a.sender
                   a.type (queued_message self a.type a.sender a.timestamp a.text).flags
                   (queued_message self a.type a.sender a.timestamp a.text).text]))
    ∧ (∃ results, receive_all self calls = Except.ok results
        ∧ results.length = calls.length
        ∧ results.map Prod.fst = expected_returns self.alloc.count calls
        ∧ results.map Prod.snd
            = edge_triggered self.mixin.message_lost (expected_returns self.alloc.count calls))
    ∧ (∀ (a : ReceiveArgs) (accepted : Bool) (s : State),
        tp_text_mixin_receive self a.type a.sender a.timestamp a.text a.try_malloc_ok
          = Except.ok (accepted, s) → s.mixin.message_lost = !accepted)
    ∧ (∀ alloc contacts_repo send_nick,
        (tp_text_mixin_init alloc contacts_repo send_nick).mixin.message_lost = false)
    ∧ (∀ op s, (op = Op.clear ∨ (∃ ids, op = Op.acknowledge ids) ∨ ∃ c, op = Op.list c) →
        step self op = Except.ok s →
        s.mixin.message_lost = self.mixin.message_lost
          ∧ lost_count s.trace = lost_count self.trace) := by
  refine ⟨?_, ?_, ?_, fun _ _ _ => rfl, ?_⟩
  · intro a
    obtain ⟨s, h1, _, _, h4, h5⟩ :=
      receive_outcome self a.type a.sender a.timestamp a.text a.try_malloc_ok ha
    constructor
    · intro hrej
      refine ⟨s, ?_, ?_, ?_⟩
      · rw [h1]
        simp [hrej]
      · rw [h4]
        simp [hrej]
      · rw [h5, if_pos hrej]
    · intro hacc
      refine ⟨s, ?_, ?_, ?_⟩
      · rw [h1]
        simp [hacc]
      · rw [h4]
        simp [hacc]
      · rw [h5, if_neg hacc]
  · induction calls generalizing self with
    | nil => exact ⟨[], rfl, rfl, rfl, rfl⟩
    | cons a rest ih =>
      obtain ⟨s, h1, h2, h3, h4, h5⟩ :=
        receive_outcome self a.type a.sender a.timestamp a.text a.try_malloc_ok ha
      obtain ⟨results, g1, g2, g3, g4⟩ := ih s h2
      refine ⟨(decide (¬ (self.alloc.count = MAX_PENDING_MESSAGES ∨ a.try_malloc_ok = false)),
        lost_count s.trace - lost_count self.trace) :: results, ?_, ?_, ?_, ?_⟩
      · simp only [receive_all, h1, g1, pure, Except.pure]
      · simp [g2]
      · by_cases hrej : self.alloc.count = MAX_PENDING_MESSAGES ∨ a.try_malloc_ok = false
        · simp only [if_pos hrej, Nat.add_zero] at h3
          rw [h3] at g3
          simp [expected_returns, hrej, g3]
        · simp only [if_neg hrej] at h3
          rw [h3] at g3
          simp [expected_returns, hrej, g3]
      · by_cases hrej : self.alloc.count = MAX_PENDING_MESSAGES ∨ a.try_malloc_ok = false
        · simp only [if_pos hrej, Nat.add_zero] at h3 h5
          rw [h3, h4] at g4
          simp only [List.map_cons, expected_returns, if_pos hrej, edge_triggered, g4,
            decide_eq_true hrej, h5, lost_count_append]
          cases self.mixin.message_lost <;> simp [lost_count]
        · simp only [if_neg hrej] at h3 h5
          rw [h3, h4] at g4
          simp only [List.map_cons, expected_returns, if_neg hrej, edge_triggered, g4,
            decide_eq_false hrej, h5, lost_count_append]
          simp [lost_count]
  · intro a accepted s h
    obtain ⟨accepted2, s2, h1, _, h3, _⟩ :=
      receive_lost self a.type a.sender a.timestamp a.text a.try_malloc_ok ha
    rw [h1] at h
    simp only [Except.ok.injEq, Prod.mk.injEq] at h
    rw [← h.1, ← h.2]
    exact h3
  · intro op s hop h
    rcases hop with hop | ⟨ids, hop⟩ | ⟨c, hop⟩
    · subst hop
      simp only [step, tp_text_mixin_clear] at h
      cases hl : clear_loop self self.mixin.pending with
      | error f => simp [hl, throw, throwThe, MonadExceptOf.throw] at h
      | ok s2 =>
        simp only [hl, pure, Except.pure, Except.ok.injEq] at h
        obtain ⟨h1, h2⟩ := clear_loop_quiet _ self s2 hl
        rw [← h]
        exact ⟨by simp [h1], h2⟩
    · subst hop
      simp only [step, tp_text_mixin_acknowledge_pending_messages] at h
      cases hn : find_nodes self.mixin.pending ids with
      | error bad =>
        simp only [hn, pure, Except.pure, Except.ok.injEq] at h
        rw [← h]
        exact ⟨rfl, rfl⟩
      | ok nodes =>
        simp only [hn] at h
        cases hl : acknowledge_loop self (links_from 0 self.mixin.pending) nodes with
        | error f => simp [hl, throw, throwThe, MonadExceptOf.throw] at h
        | ok r =>
          obtain ⟨s2, out⟩ := r
          simp only [hl, pure, Except.pure, Except.ok.injEq] at h
          obtain ⟨h1, h2⟩ := acknowledge_loop_quiet nodes self s2 _ out hl
          rw [← h]
          exact ⟨by simp [h1], h2⟩
    · subst hop
      simp only [step, list_pending_messages_eq, pure, Except.pure,
        Except.ok.injEq] at h
      rw [← h]
      cases c <;> exact ⟨rfl, rfl⟩

/-- C19 (counterexample): a message received with the timestamp 2^32 + 100 is
pending with that timestamp; the listing returns it with the timestamp 100. -/
theorem C19_listed_timestamp_is_cut_to_32_bits :
    ∃ s, run (tp_text_mixin_init alloc0 1 true) [late] = Except.ok s
      ∧ s.mixin.pending.map (fun msg => msg.timestamp) = [4294967396]
      ∧ (tp_text_mixin_list_pending_messages s false).2.1.map (fun m => m.timestamp) = [100]
      ∧ (tp_text_mixin_list_pending_messages s false).2.1.map (fun m => (m.timestamp : Int))
          ≠ s.mixin.pending.map (fun msg => msg.timestamp) :=
  ⟨_, rfl, rfl, rfl, by decide⟩

/-- C19 (amended): `tp_text_mixin_list_pending_messages` returns `TRUE` and one
struct per pending message, in queue order from the head (oldest first), holding
the message's id, its timestamp modulo 2^32 (unchanged when it lies between 0 and
2^32 - 1), its sender, type, flags and text; with `clear = FALSE` the state is
unchanged, with `clear = TRUE` the queue is empty afterwards and nothing else has
changed. -/
theorem C19_list_returns_queue_in_order (self : State) (clear : Bool) :
    (tp_text_mixin_list_pending_messages self clear).1 = true
    ∧ (tp_text_mixin_list_pending_messages self clear).2.1
        = self.mixin.pending.map
            (fun msg => ⟨msg.id, (msg.timestamp % 4294967296).toNat, msg.sender, msg.type,
              msg.flags, msg.text⟩)
    ∧ (∀ msg ∈ self.mixin.pending, 0 ≤ msg.timestamp → msg.timestamp < 4294967296 →
        (((msg.timestamp % 4294967296).toNat : Nat) : Int) = msg.timestamp)
    ∧ (clear = false → (tp_text_mixin_list_pending_messages self clear).2.2 = self)
    ∧ (clear = true → (tp_text_mixin_list_pending_messages self clear).2.2
        = { self with mixin := { self.mixin with pending := [] } }) := by
  rw [list_pending_messages_eq]
  refine ⟨rfl, rfl, ?_, ?_, ?_⟩
  · intro msg _ h0 h1
    rw [Int.emod_eq_of_lt h0 h1]
    exact Int.toNat_of_nonneg h0
  · intro h
    subst h
    rfl
  · intro h
    subst h
    rfl

theorem find_custom_none (pending : List _PendingMessage) (id pos : Nat) :
    g_queue_find_custom pending id pos = none ↔ ∀ msg ∈ pending, msg.id ≠ id := by
  induction pending generalizing pos with
  | nil => simp [g_queue_find_custom]
  | cons m rest ih =>
    by_cases hm : m.id = id
    · simp [g_queue_find_custom, compare_pending_message, hm]
    · simp [g_queue_find_custom, compare_pending_message, hm, ih]

theorem find_custom_ge (pending : List _PendingMessage) (id pos n : Nat)
    (h : g_queue_find_custom pending id pos = some n) : pos ≤ n := by
  induction pending generalizing pos with
  | nil => simp [g_queue_find_custom] at h
  | cons m rest ih =>
    by_cases hm : m.id = id
    · simp [g_queue_find_custom, compare_pending_message, hm] at h
      omega
    · simp only [g_queue_find_custom, compare_pending_message, hm, ne_eq, not_false_eq_true,
        if_true, Nat.succ_ne_zero, if_false] at h
      have := ih (pos + 1) h
      omega

theorem find_custom_cons (m : _PendingMessage) (rest : List _PendingMessage) (id pos : Nat) :
    g_queue_find_custom (m :: rest) id pos
      = if m.id = id then some pos else g_queue_find_custom rest id (pos + 1) := by
  by_cases hm : m.id = id
  · simp [g_queue_find_custom, compare_pending_message, hm]
  · simp [g_queue_find_custom, compare_pending_message, hm]

/-- The first loop stops at the first id that is not pending. -/
theorem find_nodes_error (pending : List _PendingMessage) (ids : List Nat)
    (h : ∃ id ∈ ids, ∀ msg ∈ pending, msg.id ≠ id) :
    ∃ pre bad post, ids = pre ++ bad :: post
      ∧ (∀ id ∈ pre, ∃ msg ∈ pending, msg.id = id)
      ∧ (∀ msg ∈ pending, msg.id ≠ bad)
      ∧ find_nodes pending ids = Except.error bad := by
  induction ids with
  | nil => simp at h
  | cons id ids ih =>
    cases hf : g_queue_find_custom pending id 0 with
    | none =>
      refine ⟨[], id, ids, rfl, by simp, (find_custom_none pending id 0).mp hf, ?_⟩
      simp [find_nodes, hf, throw, throwThe, MonadExceptOf.throw]
    | some node =>
      have hin : ∃ msg ∈ pending, msg.id = id := by
        by_contra hcon
        have : g_queue_find_custom pending id 0 = none :=
          (find_custom_none pending id 0).mpr (fun msg hmsg hid => hcon ⟨msg, hmsg, hid⟩)
        rw [this] at hf
        cases hf
      have hrest : ∃ x ∈ ids, ∀ msg ∈ pending, msg.id ≠ x := by
        obtain ⟨x, hx, hxn⟩ := h
        rcases List.mem_cons.mp hx with hx | hx
        · subst hx
          obtain ⟨msg, hmsg, hid⟩ := hin
          exact absurd hid (hxn msg hmsg)
        · exact ⟨x, hx, hxn⟩
      obtain ⟨pre, bad, post, h1, h2, h3, h4⟩ := ih hrest
      refine ⟨id :: pre, bad, post, by rw [h1]; rfl, ?_, h3, ?_⟩
      · intro x hx
        rcases List.mem_cons.mp hx with hx | hx
        · subst hx
          exact hin
        · exact h2 x hx
      · simp [find_nodes, hf, h4, throw, throwThe, MonadExceptOf.throw]

/-- C17: when the list holds an id that no pending message bears,
`tp_text_mixin_acknowledge_pending_messages` returns `FALSE`, sets the
`TP_ERROR_INVALID_ARGUMENT` error that names the first such id of the list (every
id before it is pending), and leaves the whole state, so the queue and its
order, exactly as it was. -/
theorem C17_acknowledge_is_all_or_nothing (self : State) (ids : List Nat)
    (h : ∃ id ∈ ids, ∀ msg ∈ self.mixin.pending, msg.id ≠ id) :
    ∃ pre bad post, ids = pre ++ bad :: post
      ∧ (∀ id ∈ pre, ∃ msg ∈ self.mixin.pending, msg.id = id)
      ∧ (∀ msg ∈ self.mixin.pending, msg.id ≠ bad)
      ∧ tp_text_mixin_acknowledge_pending_messages self ids
          = Except.ok (false, some (invalid_message_id bad), self) := by
  obtain ⟨pre, bad, post, h1, h2, h3, h4⟩ := find_nodes_error self.mixin.pending ids h
  exact ⟨pre, bad, post, h1, h2, h3, by
    simp only [tp_text_mixin_acknowledge_pending_messages, h4, pure, Except.pure]⟩

theorem pending_free_total (alloc : _Allocator) : ∃ a, _pending_free alloc = Except.ok a := by
  unfold _pending_free _pending_get_alloc
  by_cases h : alloc.size = 0
  · exact ⟨_, by simp [h, _allocator_init, sizeof_PendingMessage, MAX_PENDING_MESSAGES, pure,
      Except.pure]; rfl⟩
  · exact ⟨_, by simp [h, pure, Except.pure]; rfl⟩

/-- The first loop finds a link for every id when every id is pending. -/
theorem find_nodes_ok (pending : List _PendingMessage) (ids : List Nat)
    (h : ∀ id ∈ ids, ∃ msg ∈ pending, msg.id = id) :
    ∃ nodes, find_nodes pending ids = Except.ok nodes
      ∧ (∀ n, n ∈ nodes ↔ ∃ id ∈ ids, g_queue_find_custom pending id 0 = some n)
      ∧ (ids.Nodup → nodes.Nodup) := by
  induction ids with
  | nil => exact ⟨[], rfl, by simp, fun _ => List.nodup_nil⟩
  | cons id ids ih =>
    obtain ⟨nodes, h1, h2, h3⟩ := ih (fun x hx => h x (List.mem_cons_of_mem _ hx))
    cases hf : g_queue_find_custom pending id 0 with
    | none =>
      obtain ⟨msg, hmsg, hid⟩ := h id (List.mem_cons_self _ _)
      exact absurd hid ((find_custom_none pending id 0).mp hf msg hmsg)
    | some node =>
      refine ⟨node :: nodes, by simp [find_nodes, hf, h1, pure, Except.pure], ?_, ?_⟩
      · intro n
        simp only [List.mem_cons, h2]
        constructor
        · rintro (hn | ⟨x, hx, hxn⟩)
          · exact ⟨id, Or.inl rfl, by rw [hf, hn]⟩
          · exact ⟨x, Or.inr hx, hxn⟩
        · rintro ⟨x, hx | hx, hxn⟩
          · subst hx
            rw [hf] at hxn
            exact Or.inl (Option.some.inj hxn).symm
          · exact Or.inr ⟨x, hx, hxn⟩
      · intro hnd
        have hnd' := List.nodup_cons.mp hnd
        refine List.nodup_cons.mpr ⟨?_, h3 hnd'.2⟩
        intro hmem
        obtain ⟨x, hx, hxn⟩ := (h2 node).mp hmem
        -- the link found for `id` and for `x` is the same, so the ids agree
        have key : ∀ (q : List _PendingMessage) (pos a b n : Nat),
            g_queue_find_custom q a pos = some n → g_queue_find_custom q b pos = some n →
            a = b := by
          intro q
          induction q with
          | nil => intro pos a b n ha; simp [g_queue_find_custom] at ha
          | cons m rest ihq =>
            intro pos a b n ha hb
            rw [find_custom_cons] at ha hb
            by_cases hma : m.id = a
            · by_cases hmb : m.id = b
              · rw [← hma, ← hmb]
              · rw [if_pos hma] at ha
                rw [if_neg hmb] at hb
                have := find_custom_ge rest b (pos + 1) n hb
                simp only [Option.some.injEq] at ha
                omega
            · by_cases hmb : m.id = b
              · rw [if_neg hma] at ha
                rw [if_pos hmb] at hb
                have := find_custom_ge rest a (pos + 1) n ha
                simp only [Option.some.injEq] at hb
                omega
              · rw [if_neg hma] at ha
                rw [if_neg hmb] at hb
                exact ihq (pos + 1) a b n ha hb
        have : id = x := key pending 0 id x node hf hxn
        subst this
        exact hnd'.1 hx

theorem links_from_tags_ge (pending : List _PendingMessage) (pos : Nat) :
    ∀ p ∈ links_from pos pending, pos ≤ p.1 := by
  induction pending generalizing pos with
  | nil => intro p hp; simp [links_from] at hp
  | cons m rest ih =>
    intro p hp
    simp only [links_from, List.mem_cons] at hp
    rcases hp with hp | hp
    · rw [hp]
    · have := ih (pos + 1) p hp
      omega

theorem links_from_tags_nodup (pending : List _PendingMessage) (pos : Nat) :
    ((links_from pos pending).map Prod.fst).Nodup := by
  induction pending generalizing pos with
  | nil => exact List.nodup_nil
  | cons m rest ih =>
    simp only [links_from, List.map_cons]
    refine List.nodup_cons.mpr ⟨?_, ih (pos + 1)⟩
    intro hmem
    obtain ⟨p, hp, hpe⟩ := List.mem_map.mp hmem
    have := links_from_tags_ge rest (pos + 1) p hp
    omega

theorem remove_link_eq_filter (links : List (Nat × _PendingMessage)) (node : Nat)
    (hnd : (links.map Prod.fst).Nodup) :
    remove_link links node = links.filter (fun p => decide (p.1 ≠ node)) := by
  induction links with
  | nil => rfl
  | cons p rest ih =>
    obtain ⟨pos, msg⟩ := p
    simp only [List.map_cons] at hnd
    have hnd' := List.nodup_cons.mp hnd
    by_cases hp : pos = node
    · subst hp
      simp only [remove_link, if_true, List.filter_cons, ne_eq, not_true_eq_false,
        decide_False, Bool.false_eq_true, if_false]
      symm
      apply List.filter_eq_self.mpr
      intro q hq
      simp only [ne_eq, decide_eq_true_eq]
      intro hqe
      exact hnd'.1 (List.mem_map.mpr ⟨q, hq, hqe⟩)
    · simp only [remove_link, hp, if_false, List.filter_cons, ne_eq, not_false_eq_true,
        decide_True, if_true]
      rw [ih hnd'.2]

theorem find_link_some (links : List (Nat × _PendingMessage)) (node : Nat)
    (h : node ∈ links.map Prod.fst) : ∃ msg, find_link links node = some msg := by
  induction links with
  | nil => simp at h
  | cons p rest ih =>
    obtain ⟨pos, msg⟩ := p
    by_cases hp : pos = node
    · exact ⟨msg, by simp [find_link, hp]⟩
    · simp only [List.map_cons, List.mem_cons] at h
      rcases h with h | h
      · exact absurd h.symm hp
      · obtain ⟨m, hm⟩ := ih h
        exact ⟨m, by simp [find_link, hp, hm]⟩

/-- The second loop removes exactly the links found, when they are distinct and
still in the queue. -/
theorem acknowledge_loop_filter (nodes : List Nat) :
    ∀ (self : State) (links : List (Nat × _PendingMessage)),
      (links.map Prod.fst).Nodup → nodes.Nodup → (∀ n ∈ nodes, n ∈ links.map Prod.fst) →
      ∃ s, acknowledge_loop self links nodes
          = Except.ok (s, links.filter (fun p => decide (p.1 ∉ nodes)))
        ∧ s.mixin = self.mixin := by
  induction nodes with
  | nil =>
    intro self links _ _ _
    exact ⟨self, by simp [acknowledge_loop, pure, Except.pure], rfl⟩
  | cons node nodes ih =>
    intro self links hnd hnodes hmem
    obtain ⟨msg, hmsg⟩ := find_link_some links node (hmem node (List.mem_cons_self _ _))
    obtain ⟨a, ha⟩ := pending_free_total
      (self.emit (Effect.handle_unref self.mixin.contacts_repo msg.sender)).alloc
    have hnodes' := List.nodup_cons.mp hnodes
    have hsub : ((links.filter (fun p => decide (p.1 ≠ node))).map Prod.fst).Nodup :=
      List.Nodup.sublist (List.Sublist.map _ (List.filter_sublist _)) hnd
    obtain ⟨s, h1, h2⟩ := ih
      { self.emit (Effect.handle_unref self.mixin.contacts_repo msg.sender) with alloc := a }
      (links.filter (fun p => decide (p.1 ≠ node))) hsub hnodes'.2 (by
        intro n hn
        obtain ⟨p, hp, hpe⟩ := List.mem_map.mp (hmem n (List.mem_cons_of_mem _ hn))
        refine List.mem_map.mpr ⟨p, List.mem_filter.mpr ⟨hp, ?_⟩, hpe⟩
        simp only [ne_eq, decide_eq_true_eq]
        intro hpn
        rw [hpe] at hpn
        subst hpn
        exact hnodes'.1 hn)
    refine ⟨s, ?_, h2⟩
    simp only [acknowledge_loop, hmsg, ha, remove_link_eq_filter links node hnd, h1]
    congr 2
    rw [List.filter_filter]
    apply List.filter_congr
    intro p _
    simp only [ne_eq, List.mem_cons, not_or, Bool.decide_and, Bool.and_comm]

theorem drop_listed_sublist (pending : List _PendingMessage) :
    ∀ ids, List.Sublist (drop_listed ids pending) pending := by
  induction pending with
  | nil => intro ids; exact List.Sublist.slnil
  | cons m rest ih =>
    intro ids
    simp only [drop_listed]
    split
    · exact List.Sublist.cons _ (ih _)
    · exact List.Sublist.cons₂ _ (ih _)

theorem drop_listed_eq_filter (pending : List _PendingMessage) :
    ∀ ids, (pending.map (fun m => m.id)).Nodup →
      drop_listed ids pending = pending.filter (fun m => decide (m.id ∉ ids)) := by
  induction pending with
  | nil => intro ids _; rfl
  | cons m rest ih =>
    intro ids hnd
    simp only [List.map_cons] at hnd
    have hnd' := List.nodup_cons.mp hnd
    simp only [drop_listed, List.filter_cons]
    by_cases hm : m.id ∈ ids
    · simp only [hm, if_true, not_true_eq_false, decide_False, Bool.false_eq_true, if_false]
      rw [ih _ hnd'.2]
      apply List.filter_congr
      intro x hx
      have hne : x.id ≠ m.id := by
        intro he
        exact hnd'.1 (List.mem_map.mpr ⟨x, hx, he⟩)
      simp only [List.mem_erase_of_ne hne]
    · simp only [hm, if_false, not_false_eq_true, decide_True, if_true]
      rw [ih _ hnd'.2]

/-- Leaving out the links found for the ids is leaving out, for each id, the
first message that bears it. -/
theorem filter_links_eq_drop_listed (pending : List _PendingMessage) :
    ∀ (pos : Nat) (ids : List Nat), ids.Nodup →
      ((links_from pos pending).filter
          (fun p => decide (∀ id ∈ ids, g_queue_find_custom pending id pos ≠ some p.1))).map
        Prod.snd
        = drop_listed ids pending := by
  induction pending with
  | nil => intro pos ids _; rfl
  | cons m rest ih =>
    intro pos ids hnd
    have hrest : ∀ (ids' : List Nat),
        (∀ x, x ∈ ids' ↔ x ∈ ids ∧ x ≠ m.id) →
        (links_from (pos + 1) rest).filter
          (fun p => decide (∀ id ∈ ids, g_queue_find_custom (m :: rest) id pos ≠ some p.1))
        = (links_from (pos + 1) rest).filter
          (fun p => decide (∀ id ∈ ids', g_queue_find_custom rest id (pos + 1) ≠ some p.1)) := by
      intro ids' hids'
      apply List.filter_congr
      intro p hp
      have hge := links_from_tags_ge rest (pos + 1) p hp
      simp only [decide_eq_decide]
      constructor
      · intro hall id hid
        have h1 := hall id ((hids' id).mp hid).1
        rw [find_custom_cons, if_neg (Ne.symm ((hids' id).mp hid).2)] at h1
        exact h1
      · intro hall id hid
        rw [find_custom_cons]
        by_cases hmid : m.id = id
        · rw [if_pos hmid]
          intro he
          simp only [Option.some.injEq] at he
          omega
        · rw [if_neg hmid]
          exact hall id ((hids' id).mpr ⟨hid, Ne.symm hmid⟩)
    simp only [links_from, List.filter_cons, drop_listed]
    by_cases hm : m.id ∈ ids
    · have hhead : ¬ ∀ id ∈ ids, g_queue_find_custom (m :: rest) id pos ≠ some pos := by
        intro hall
        exact hall m.id hm (by rw [find_custom_cons, if_pos rfl])
      have hdec : ¬ (decide (∀ id ∈ ids, g_queue_find_custom (m :: rest) id pos ≠ some pos)
          = true) := by
        simpa using hhead
      rw [if_neg hdec, if_pos hm, hrest (ids.erase m.id) (fun x => by
        rw [List.Nodup.mem_erase_iff hnd]
        exact And.comm)]
      exact ih (pos + 1) (ids.erase m.id) (List.Nodup.erase _ hnd)
    · have hhead : ∀ id ∈ ids, g_queue_find_custom (m :: rest) id pos ≠ some pos := by
        intro id hid
        rw [find_custom_cons]
        have hne : m.id ≠ id := fun he => hm (he ▸ hid)
        rw [if_neg hne]
        intro he
        have := find_custom_ge rest id (pos + 1) pos he
        omega
      have hdec : decide (∀ id ∈ ids, g_queue_find_custom (m :: rest) id pos ≠ some pos)
          = true := decide_eq_true hhead
      rw [if_pos hdec, if_neg hm, List.map_cons,
        hrest ids (fun x => ⟨fun hx => ⟨hx, fun he => hm (he ▸ hx)⟩, fun hx => hx.1⟩),
        ih (pos + 1) ids hnd]

/-- C18: when every listed id is borne by a pending message and no id is listed
twice, `tp_text_mixin_acknowledge_pending_messages` returns `TRUE` without an
error, and the queue afterwards is the queue before without, for each listed id,
the first message bearing it, the other messages in their order; when the
pending ids are pairwise distinct these are exactly the messages whose id is
listed. -/
theorem C18_acknowledge_removes_the_listed_messages (self : State) (ids : List Nat)
    (hvalid : ∀ id ∈ ids, ∃ msg ∈ self.mixin.pending, msg.id = id) (hdistinct : ids.Nodup) :
    ∃ s, tp_text_mixin_acknowledge_pending_messages self ids = Except.ok (true, none, s)
      ∧ s.mixin.pending = drop_listed ids self.mixin.pending
      ∧ List.Sublist s.mixin.pending self.mixin.pending
      ∧ ((self.mixin.pending.map (fun m => m.id)).Nodup →
          s.mixin.pending = self.mixin.pending.filter (fun m => decide (m.id ∉ ids))) := by
  obtain ⟨nodes, h1, h2, h3⟩ := find_nodes_ok self.mixin.pending ids hvalid
  have hmem : ∀ n ∈ nodes, n ∈ (links_from 0 self.mixin.pending).map Prod.fst := by
    intro n hn
    obtain ⟨id, _, hf⟩ := (h2 n).mp hn
    -- the link found is a link of the queue
    have key : ∀ (q : List _PendingMessage) (pos : Nat),
        g_queue_find_custom q id pos = some n → n ∈ (links_from pos q).map Prod.fst := by
      intro q
      induction q with
      | nil => intro pos hq; simp [g_queue_find_custom] at hq
      | cons m rest ihq =>
        intro pos hq
        rw [find_custom_cons] at hq
        by_cases hm : m.id = id
        · rw [if_pos hm] at hq
          simp only [Option.some.injEq] at hq
          simp [links_from, hq]
        · rw [if_neg hm] at hq
          simp only [links_from, List.map_cons, List.mem_cons]
          exact Or.inr (ihq (pos + 1) hq)
    exact key self.mixin.pending 0 hf
  obtain ⟨s, h4, h5⟩ := acknowledge_loop_filter nodes self (links_from 0 self.mixin.pending)
    (links_from_tags_nodup _ 0) (h3 hdistinct) hmem
  have hq : ((links_from 0 self.mixin.pending).filter
      (fun p => decide (p.1 ∉ nodes))).map Prod.snd = drop_listed ids self.mixin.pending := by
    rw [← filter_links_eq_drop_listed self.mixin.pending 0 ids hdistinct]
    congr 1
    apply List.filter_congr
    intro p _
    simp only [decide_eq_decide, h2]
    constructor
    · intro hn id hid he
      exact hn ⟨id, hid, he⟩
    · rintro hall ⟨id, hid, he⟩
      exact hall id hid he
  have hres : tp_text_mixin_acknowledge_pending_messages self ids
      = Except.ok (true, none, { s with mixin := { s.mixin with
          pending := ((links_from 0 self.mixin.pending).filter
            (fun p => decide (p.1 ∉ nodes))).map Prod.snd } }) := by
    simp only [tp_text_mixin_acknowledge_pending_messages, h1, h4, pure, Except.pure]
  refine ⟨_, hres, hq, ?_, ?_⟩
  · rw [show ({ s with mixin := { s.mixin with
          pending := ((links_from 0 self.mixin.pending).filter
            (fun p => decide (p.1 ∉ nodes))).map Prod.snd } } : State).mixin.pending
        = drop_listed ids self.mixin.pending from hq]
    exact drop_listed_sublist _ _
  · intro hnd
    rw [show ({ s with mixin := { s.mixin with
          pending := ((links_from 0 self.mixin.pending).filter
            (fun p => decide (p.1 ∉ nodes))).map Prod.snd } } : State).mixin.pending
        = drop_listed ids self.mixin.pending from hq]
    exact drop_listed_eq_filter _ _ hnd


set_option maxRecDepth 100000 in
/-- The test `(b & 0xc0) == 0x80` on a byte: the byte is a UTF-8 continuation
byte, `10xxxxxx`. -/
theorem continuation_byte_iff : ∀ b, b < 256 → ((b &&& 0xc0 = 0x80) ↔ (128 ≤ b ∧ b < 192)) := by
  decide

/-- The encoding of a code point is a lead byte followed by continuation bytes. -/
theorem encode_char_shape (c : Nat) (h : Scalar c) :
    ∃ lead conts, utf8_encode_char c = lead :: conts
      ∧ (lead < 128 ∨ 192 ≤ lead) ∧ lead < 256 ∧ lead ≠ 0
      ∧ ∀ b ∈ conts, 128 ≤ b ∧ b < 192 := by
  obtain ⟨h0, h1, _⟩ := h
  unfold utf8_encode_char
  by_cases c1 : c < 0x80
  · exact ⟨c, [], by simp [c1], Or.inl c1, by omega, by omega, by simp⟩
  · by_cases c2 : c < 0x800
    · refine ⟨0xC0 + c / 64, [0x80 + c % 64], by simp [c1, c2], Or.inr (by omega), by omega,
        by omega, ?_⟩
      intro b hb
      simp only [List.mem_singleton] at hb
      omega
    · by_cases c3 : c < 0x10000
      · refine ⟨0xE0 + c / 4096, [0x80 + c / 64 % 64, 0x80 + c % 64], by simp [c1, c2, c3],
          Or.inr (by omega), by omega, by omega, ?_⟩
        intro b hb
        simp only [List.mem_cons, List.mem_singleton, List.not_mem_nil, or_false] at hb
        omega
      · refine ⟨0xF0 + c / 262144, [0x80 + c / 4096 % 64, 0x80 + c / 64 % 64, 0x80 + c % 64],
          by simp [c1, c2, c3], Or.inr (by omega), by omega, by omega, ?_⟩
        intro b hb
        simp only [List.mem_cons, List.mem_singleton, List.not_mem_nil, or_false] at hb
        omega

theorem encode_bytes (cs : List Nat) (hcs : ∀ c ∈ cs, Scalar c) :
    ∀ b ∈ utf8_encode cs, b < 256 ∧ b ≠ 0 := by
  induction cs with
  | nil => intro b hb; simp [utf8_encode] at hb
  | cons c rest ih =>
    intro b hb
    obtain ⟨lead, conts, he, _, h2, h3, h4⟩ := encode_char_shape c (hcs c (List.mem_cons_self _ _))
    simp only [utf8_encode, he, List.mem_append, List.mem_cons] at hb
    rcases hb with (hb | hb) | hb
    · subst hb
      exact ⟨h2, h3⟩
    · have := h4 b hb
      omega
    · exact ih (fun x hx => hcs x (List.mem_cons_of_mem _ hx)) b hb

theorem strlen_eq_length (text : List Nat) (h : ∀ b ∈ text, b ≠ 0) :
    strlen text = text.length := by
  induction text with
  | nil => rfl
  | cons b rest ih =>
    have hb : b ≠ 0 := h b (List.mem_cons_self _ _)
    simp only [strlen, hb, if_false, List.length_cons]
    rw [ih (fun x hx => h x (List.mem_cons_of_mem _ hx))]

theorem find_prev_char_some (str : List Nat) (p e : Nat)
    (h : g_utf8_find_prev_char str p = some e) : e < p ∧ str.getD e 0 &&& 0xc0 ≠ 0x80 := by
  induction p with
  | zero => simp [g_utf8_find_prev_char] at h
  | succ p ih =>
    simp only [g_utf8_find_prev_char] at h
    split at h
    · simp only [Option.some.injEq] at h
      subst h
      exact ⟨Nat.lt_succ_self _, by assumption⟩
    · obtain ⟨h1, h2⟩ := ih h
      exact ⟨Nat.lt_succ_of_lt h1, h2⟩

theorem find_prev_char_none (str : List Nat) (p : Nat)
    (h : g_utf8_find_prev_char str p = none) : ∀ j, j < p → str.getD j 0 &&& 0xc0 = 0x80 := by
  induction p with
  | zero => intro j hj; omega
  | succ p ih =>
    simp only [g_utf8_find_prev_char] at h
    split at h
    · cases h
    · intro j hj
      by_cases hjp : j = p
      · subst hjp
        rename_i hc
        exact not_not.mp hc
      · exact ih h j (by omega)

/-- An offset at which a valid UTF-8 text has a byte that is not a continuation
byte is a code-point boundary: the bytes before it encode a prefix of the code
points. -/
theorem boundary_of_lead (cs : List Nat) (hcs : ∀ c ∈ cs, Scalar c) :
    ∀ e, e < (utf8_encode cs).length →
      ¬ (128 ≤ (utf8_encode cs).getD e 0 ∧ (utf8_encode cs).getD e 0 < 192) →
      ∃ k, (utf8_encode cs).take e = utf8_encode (cs.take k) := by
  induction cs with
  | nil => intro e he; simp [utf8_encode] at he
  | cons c rest ih =>
    intro e he hlead
    obtain ⟨lead, conts, henc, _, _, _, hconts⟩ :=
      encode_char_shape c (hcs c (List.mem_cons_self _ _))
    by_cases h0 : e = 0
    · subst h0
      exact ⟨0, by simp [utf8_encode]⟩
    · by_cases hin : e < (utf8_encode_char c).length
      · exfalso
        apply hlead
        have hget : (utf8_encode (c :: rest)).getD e 0 = (utf8_encode_char c).getD e 0 := by
          simp only [utf8_encode]
          exact List.getD_append _ _ _ _ hin
        rw [hget, henc]
        obtain ⟨e', rfl⟩ : ∃ e', e = e' + 1 := ⟨e - 1, by omega⟩
        rw [henc] at hin
        simp only [List.length_cons, Nat.add_lt_add_iff_right] at hin
        rw [List.getD_cons_succ, List.getD_eq_getElem _ _ hin]
        exact hconts _ (List.getElem_mem _)
      · have hge : (utf8_encode_char c).length ≤ e := Nat.le_of_not_lt hin
        have hget : (utf8_encode (c :: rest)).getD e 0
            = (utf8_encode rest).getD (e - (utf8_encode_char c).length) 0 := by
          simp only [utf8_encode]
          exact List.getD_append_right _ _ _ _ hge
        have hlen : e - (utf8_encode_char c).length < (utf8_encode rest).length := by
          simp only [utf8_encode, List.length_append] at he
          omega
        rw [hget] at hlead
        obtain ⟨k, hk⟩ := ih (fun x hx => hcs x (List.mem_cons_of_mem _ hx)) _ hlen hlead
        refine ⟨k + 1, ?_⟩
        simp only [utf8_encode, List.take_succ_cons]
        rw [List.take_append_eq_append_take, List.take_of_length_le hge, hk]

theorem receive_accepted_message (self s : State) (type sender : Nat) (timestamp : Int)
    (text : List Nat) (try_malloc_ok : Bool)
    (h : tp_text_mixin_receive self type sender timestamp text try_malloc_ok
      = Except.ok (true, s)) :
    s.mixin.pending = self.mixin.pending ++ [queued_message self type sender timestamp text]
    ∧ try_malloc_ok = true := by
  unfold tp_text_mixin_receive at h
  cases hn : _pending_new0 self.alloc with
  | error f => simp [hn, throw, throwThe, MonadExceptOf.throw] at h
  | ok r =>
    obtain ⟨got, alloc⟩ := r
    cases got with
    | false => simp [hn, pure, Except.pure] at h
    | true =>
      cases try_malloc_ok with
      | false =>
        simp only [hn, Bool.not_false, if_true] at h
        split at h
        · simp [throw, throwThe, MonadExceptOf.throw] at h
        · simp [pure, Except.pure] at h
      | true =>
        simp only [hn, Bool.not_true, Bool.false_eq_true, if_false, pure, Except.pure,
          Except.ok.injEq, Prod.mk.injEq, true_and] at h
        rw [← h]
        exact ⟨rfl, rfl⟩

/-- C20: when `tp_text_mixin_receive` accepts a valid UTF-8 text (the encoding of
code points none of which is NUL), the text of the message it appends is the
encoding of a prefix of the code points, so a prefix of the input that ends on a
code-point boundary, of at most `MAX_MESSAGE_SIZE` (1023) bytes; the message's
flags are `TP_CHANNEL_TEXT_MESSAGE_FLAG_TRUNCATED` exactly when the input is
longer than 1023 bytes and 0 otherwise; an input of at most 1023 bytes is stored
unchanged. -/
theorem C20_truncation_keeps_whole_code_points (self s : State) (type sender : Nat) (timestamp : Int)
    (cs : List Nat) (try_malloc_ok : Bool) (hcs : ∀ c ∈ cs, Scalar c)
    (h : tp_text_mixin_receive self type sender timestamp (utf8_encode cs) try_malloc_ok
      = Except.ok (true, s)) :
    ∃ msg k, s.mixin.pending = self.mixin.pending ++ [msg]
      ∧ msg.text = utf8_encode (cs.take k)
      ∧ msg.text = (utf8_encode cs).take msg.text.length
      ∧ msg.text.length ≤ MAX_MESSAGE_SIZE
      ∧ (msg.flags = TP_CHANNEL_TEXT_MESSAGE_FLAG_TRUNCATED ↔
          MAX_MESSAGE_SIZE < (utf8_encode cs).length)
      ∧ (¬ MAX_MESSAGE_SIZE < (utf8_encode cs).length → msg.flags = 0)
      ∧ ((utf8_encode cs).length ≤ MAX_MESSAGE_SIZE → msg.text = utf8_encode cs) := by
  obtain ⟨hp, _⟩ := receive_accepted_message self s type sender timestamp _ try_malloc_ok h
  have hbytes := encode_bytes cs hcs
  have hlen : strlen (utf8_encode cs) = (utf8_encode cs).length :=
    strlen_eq_length _ (fun b hb => (hbytes b hb).2)
  by_cases hlong : MAX_MESSAGE_SIZE < (utf8_encode cs).length
  · -- the text is truncated
    have hne : cs ≠ [] := by
      intro hnil
      rw [hnil] at hlong
      simp [utf8_encode] at hlong
    obtain ⟨e, he⟩ : ∃ e, g_utf8_find_prev_char (utf8_encode cs) MAX_MESSAGE_SIZE = some e := by
      cases hf : g_utf8_find_prev_char (utf8_encode cs) MAX_MESSAGE_SIZE with
      | some e => exact ⟨e, rfl⟩
      | none =>
        exfalso
        have h0 := find_prev_char_none _ _ hf 0 (by decide)
        obtain ⟨c, rest, rfl⟩ := List.exists_cons_of_ne_nil hne
        obtain ⟨lead, conts, henc, hl, hl2, _, _⟩ :=
          encode_char_shape c (hcs c (List.mem_cons_self _ _))
        simp only [utf8_encode, henc, List.cons_append, List.getD_cons_zero] at h0
        have := (continuation_byte_iff lead hl2).mp h0
        omega
    obtain ⟨he1, he2⟩ := find_prev_char_some _ _ _ he
    have helt : e < (utf8_encode cs).length := Nat.lt_trans he1 hlong
    have hbyte : (utf8_encode cs).getD e 0 < 256 := by
      rw [List.getD_eq_getElem _ _ helt]
      exact (hbytes _ (List.getElem_mem _)).1
    have hlead : ¬ (128 ≤ (utf8_encode cs).getD e 0 ∧ (utf8_encode cs).getD e 0 < 192) :=
      fun hc => he2 ((continuation_byte_iff _ hbyte).mpr hc)
    obtain ⟨k, hk⟩ := boundary_of_lead cs hcs e helt hlead
    have htext : (queued_message self type sender timestamp (utf8_encode cs)).text
        = (utf8_encode cs).take e := by
      simp only [queued_message, g_strlcpy, kept_length, hlen, gt_iff_lt, hlong, if_true, he]
      rw [Nat.min_eq_left (Nat.le_of_lt helt)]
    have hflags : (queued_message self type sender timestamp (utf8_encode cs)).flags
        = TP_CHANNEL_TEXT_MESSAGE_FLAG_TRUNCATED := by
      simp only [queued_message, hlen, gt_iff_lt, hlong, if_true]
      rfl
    have htl : ((utf8_encode cs).take e).length = e := by
      rw [List.length_take]
      exact Nat.min_eq_left (Nat.le_of_lt helt)
    refine ⟨_, k, hp, htext.trans hk, ?_, ?_, ?_, fun hn => absurd hlong hn, ?_⟩
    · rw [htext, htl]
    · rw [htext, htl]
      exact Nat.le_of_lt he1
    · exact ⟨fun _ => hlong, fun _ => hflags⟩
    · intro hle
      exact absurd hlong (Nat.not_lt.mpr hle)
  · -- the text fits
    have hle : (utf8_encode cs).length ≤ MAX_MESSAGE_SIZE := Nat.le_of_not_lt hlong
    have htext : (queued_message self type sender timestamp (utf8_encode cs)).text
        = utf8_encode cs := by
      simp only [queued_message, g_strlcpy, kept_length, hlen, gt_iff_lt, hlong, if_false,
        Nat.min_self, List.take_length]
    have hflags : (queued_message self type sender timestamp (utf8_encode cs)).flags = 0 := by
      simp only [queued_message, hlen, gt_iff_lt, hlong, if_false]
    refine ⟨_, cs.length, hp, ?_, ?_, ?_, ?_, fun _ => hflags, fun _ => htext⟩
    · rw [htext, List.take_length]
    · rw [htext, List.take_length]
    · rw [htext]
      exact hle
    · constructor
      · intro hf
        rw [hflags] at hf
        exact absurd hf (by decide)
      · intro hl
        exact absurd hl hlong

set_option maxRecDepth 100000 in
/-- Listing with `clear = TRUE` empties the queue without freeing its messages:
after 256 messages and such a listing the allocator still counts 256, and the
next message is refused although the queue is empty. -/
theorem list_clear_keeps_allocator_count :
    (state_after channel_a_full [Op.list true]).mixin.pending = []
    ∧ (state_after channel_a_full [Op.list true]).alloc.count = 256
    ∧ ∃ s, tp_text_mixin_receive (state_after channel_a_full [Op.list true]) 0 5 100 [104, 105]
          true = Except.ok (false, s) :=
  ⟨rfl, rfl, _, rfl⟩

set_option maxRecDepth 100000 in
/-- Witness of C14: after 257 messages in a new process the queue holds 256. -/
theorem C14_queue_never_exceeds_capacity_witness :
    Allocator_ok alloc0
    ∧ (state_after (tp_text_mixin_init alloc0 1 true) (List.replicate 257 hi)).mixin.pending.length
        ≤ MAX_PENDING_MESSAGES :=
  ⟨Or.inl ⟨rfl, rfl⟩,
   C14_queue_never_exceeds_capacity alloc0 1 true (List.replicate 257 hi) _ (Or.inl ⟨rfl, rfl⟩)
     rfl⟩

/-- Witness of C15: with three messages pending in a process of its own, three
structs are outstanding and a fourth message is accepted. -/
theorem C15_receive_rejects_iff_allocator_full_witness :
    Allocator_ok three_pending.alloc
    ∧ three_pending.alloc.count = three_pending.mixin.pending.length
    ∧ ∃ accepted s, tp_text_mixin_receive three_pending 0 5 103 [104, 105] true
          = Except.ok (accepted, s)
        ∧ (accepted = false ↔
            (three_pending.alloc.count = MAX_PENDING_MESSAGES ∨ true = false))
        ∧ (accepted = false ↔
            (three_pending.mixin.pending.length = MAX_PENDING_MESSAGES ∨ true = false)) := by
  have h := C15_receive_rejects_iff_allocator_full three_pending 0 5 103 [104, 105] true
    (Or.inr ⟨rfl, rfl, by decide⟩)
  obtain ⟨⟨accepted, s, h1, h2, _⟩, h3, h4⟩ := h
  obtain ⟨accepted2, s2, h5, h6⟩ := h4 alloc0 1 true
    [hi, Op.receive 0 5 101 [104, 105] true, Op.receive 0 6 102 [104] true]
    (Or.inl ⟨rfl, rfl⟩) rfl (by decide) rfl
  have heq : accepted2 = accepted := by
    rw [h1] at h5
    injection h5 with h5
    injection h5 with h5 _
    exact h5.symm
  exact ⟨Or.inr ⟨rfl, rfl, by decide⟩,
    h3 alloc0 1 true [hi, Op.receive 0 5 101 [104, 105] true, Op.receive 0 6 102 [104] true]
      (Or.inl ⟨rfl, rfl⟩) rfl (by decide) rfl,
    accepted, s, h1, h2, by rw [← heq]; exact h6⟩

set_option maxRecDepth 100000 in
/-- Witness of C16: on a new channel two calls whose text allocation fails, a
call that is accepted, and another failing call: the calls return `FALSE`,
`FALSE`, `TRUE`, `FALSE`; the first and the last emit `lost-message`, the second
and the third do not. After the first call `message_lost` is set and the trace
is the one emission of `lost-message`. -/
theorem C16_lost_message_is_edge_triggered_witness :
    Allocator_ok (tp_text_mixin_init alloc0 1 true).alloc
    ∧ (∃ results, receive_all (tp_text_mixin_init alloc0 1 true)
          [call_no_text, call_no_text, call0, call_no_text] = Except.ok results
        ∧ results.map Prod.fst = [false, false, true, false]
        ∧ results.map Prod.snd = [1, 0, 0, 1])
    ∧ receive_all (tp_text_mixin_init alloc0 1 true)
        [call_no_text, call_no_text, call0, call_no_text]
      = Except.ok [(false, 1), (false, 0), (true, 0), (false, 1)]
    ∧ ∃ s, tp_text_mixin_receive (tp_text_mixin_init alloc0 1 true) 0 5 100 [104, 105] false
          = Except.ok (false, s)
        ∧ s.mixin.message_lost = true
        ∧ s.trace = [Effect.lost_message] := by
  obtain ⟨h1, ⟨results, g1, _, g3, g4⟩, _⟩ :=
    C16_lost_message_is_edge_triggered (tp_text_mixin_init alloc0 1 true)
      [call_no_text, call_no_text, call0, call_no_text] (Or.inl ⟨rfl, rfl⟩)
  obtain ⟨s, e1, e2, e3⟩ := (h1 call_no_text).1 (Or.inr rfl)
  exact ⟨Or.inl ⟨rfl, rfl⟩, ⟨results, g1, g3.trans rfl, g4.trans rfl⟩, rfl, s, e1, e2, e3⟩

/-- Witness of C17: ids 1 and 0 are pending, id 7 is not. -/
theorem C17_acknowledge_is_all_or_nothing_witness :
    (∃ id ∈ [1, 7, 0], ∀ msg ∈ three_pending.mixin.pending, msg.id ≠ id)
    ∧ ∃ pre bad post, [1, 7, 0] = pre ++ bad :: post
        ∧ (∀ msg ∈ three_pending.mixin.pending, msg.id ≠ bad)
        ∧ tp_text_mixin_acknowledge_pending_messages three_pending [1, 7, 0]
            = Except.ok (false, some (invalid_message_id bad), three_pending) := by
  have hyp : ∃ id ∈ [1, 7, 0], ∀ msg ∈ three_pending.mixin.pending, msg.id ≠ id :=
    ⟨7, by decide, by decide⟩
  obtain ⟨pre, bad, post, h1, _, h3, h4⟩ :=
    C17_acknowledge_is_all_or_nothing three_pending [1, 7, 0] hyp
  exact ⟨hyp, pre, bad, post, h1, h3, h4⟩

/-- Witness of C18: acknowledging ids 2 and 0 leaves the message with id 1. -/
theorem C18_acknowledge_removes_the_listed_messages_witness :
    (∀ id ∈ [2, 0], ∃ msg ∈ three_pending.mixin.pending, msg.id = id) ∧ [2, 0].Nodup
    ∧ ∃ s, tp_text_mixin_acknowledge_pending_messages three_pending [2, 0]
          = Except.ok (true, none, s)
        ∧ s.mixin.pending = drop_listed [2, 0] three_pending.mixin.pending := by
  obtain ⟨s, h1, h2, _⟩ :=
    C18_acknowledge_removes_the_listed_messages three_pending [2, 0] (by decide) (by decide)
  exact ⟨by decide, by decide, s, h1, h2⟩

/-- Witness of C19 (amended): listing with `clear = TRUE` returns the three
messages in order and empties the queue. -/
theorem C19_list_returns_queue_in_order_witness :
    (tp_text_mixin_list_pending_messages three_pending true).2.1
        = [⟨0, 100, 5, 0, 0, [104, 105]⟩, ⟨1, 101, 5, 0, 0, [104, 105]⟩,
           ⟨2, 102, 6, 0, 0, [104]⟩]
    ∧ (tp_text_mixin_list_pending_messages three_pending true).2.2
        = { three_pending with mixin := { three_pending.mixin with pending := [] } } :=
  ⟨(C19_list_returns_queue_in_order three_pending true).2.1.trans rfl,
   (C19_list_returns_queue_in_order three_pending true).2.2.2.2 rfl⟩

theorem long_text_scalar : ∀ c ∈ long_text, Scalar c := by
  intro c hc
  simp only [long_text, List.mem_append, List.mem_replicate, List.mem_cons, List.mem_singleton,
    List.not_mem_nil, or_false] at hc
  rcases hc with ⟨_, hc⟩ | hc | hc <;> subst hc <;> exact ⟨by decide, by decide, by decide⟩

set_option maxRecDepth 1000000 in
/-- Witness of C20: the 1025-byte text of `long_text`, whose byte 1023 is the
second byte of `é`, is cut before `é`: 1022 bytes are kept. -/
theorem C20_truncation_keeps_whole_code_points_witness :
    (utf8_encode long_text).length = 1025
    ∧ (state_after (tp_text_mixin_init alloc0 1 true)
          [Op.receive 0 5 100 (utf8_encode long_text) true]).mixin.pending.map
        (fun m => (m.text.length, m.flags)) = [(1022, 1)]
    ∧ ∃ msg k, (state_after (tp_text_mixin_init alloc0 1 true)
          [Op.receive 0 5 100 (utf8_encode long_text) true]).mixin.pending = [] ++ [msg]
        ∧ msg.text = utf8_encode (long_text.take k)
        ∧ msg.text.length ≤ MAX_MESSAGE_SIZE
        ∧ (msg.flags = TP_CHANNEL_TEXT_MESSAGE_FLAG_TRUNCATED ↔
            MAX_MESSAGE_SIZE < (utf8_encode long_text).length) := by
  obtain ⟨msg, k, h1, h2, _, h4, h5, _⟩ :=
    C20_truncation_keeps_whole_code_points (tp_text_mixin_init alloc0 1 true)
      (state_after (tp_text_mixin_init alloc0 1 true)
        [Op.receive 0 5 100 (utf8_encode long_text) true])
      0 5 100 long_text true long_text_scalar (by rfl)
  exact ⟨by rfl, by rfl, msg, k, h1, h2, h4, h5⟩

end TextMixin

/-! # Theorems: message ids (text-mixin.c) -/

namespace TextMixin

open Tp

theorem received_ids_append (xs ys : List Effect) :
    received_ids (xs ++ ys) = received_ids xs ++ received_ids ys := by
  induction xs with
  | nil => rfl
  | cons x xs ih => cases x <;> simp [received_ids, ih]

theorem run_append (xs ys : List Op) :
    ∀ self : State, run self (xs ++ ys)
      = match run self xs with
        | Except.ok s => run s ys
        | Except.error f => Except.error f := by
  induction xs with
  | nil => intro self; rfl
  | cons x xs ih =>
    intro self
    simp only [List.cons_append, run]
    cases hs : step self x with
    | error f => rfl
    | ok s => exact ih s

/-- One round of `churn`: with nothing allocated and an empty queue, receiving
`hi` and clearing the queue leaves both as they were and advances `recv_id`. -/
theorem churn_round (self : State) (ha : Allocator_ok self.alloc) (hc : self.alloc.count = 0)
    (hp : self.mixin.pending = []) :
    ∃ s, run self [hi, Op.clear] = Except.ok s ∧ Allocator_ok s.alloc ∧ s.alloc.count = 0
      ∧ s.mixin.pending = []
      ∧ s.mixin.recv_id = (self.mixin.recv_id + 1) % 4294967296 := by
  have hne : self.alloc.count ≠ MAX_PENDING_MESSAGES := by
    rw [hc]
    decide
  obtain ⟨s1, h1, ha1, hc1, hp1, hr1⟩ : ∃ s1, step self hi = Except.ok s1
      ∧ Allocator_ok s1.alloc ∧ s1.alloc.count = 1 ∧ s1.mixin.pending.length = 1
      ∧ s1.mixin.recv_id = (self.mixin.recv_id + 1) % 4294967296 := by
    refine ⟨_, by simp only [step, hi, receive_accept self 0 5 100 [104, 105] ha hne]; rfl,
      ?_, ?_, ?_, rfl⟩
    · rw [hc]
      exact allocator_with_ok 1 (by decide)
    · rw [hc]
      rfl
    · simp only [hp, List.nil_append, List.length_singleton]
  obtain ⟨s2, h2, h3, h4, h5⟩ := clear_loop_ok s1.mixin.pending s1 ha1 (by omega)
  have hs2 : step s1 Op.clear
      = Except.ok { s2 with mixin := { s2.mixin with pending := [] } } := by
    simp only [step, tp_text_mixin_clear, h2, pure, Except.pure]
  refine ⟨{ s2 with mixin := { s2.mixin with pending := [] } }, ?_, h3, ?_, rfl, ?_⟩
  · simp only [run, h1, hs2, pure, Except.pure]
  · simp only
    omega
  · simp only [h5, hr1]

theorem churn_run (n : Nat) :
    ∀ (self : State) (rest : List Op), Allocator_ok self.alloc → self.alloc.count = 0 →
      self.mixin.pending = [] → self.mixin.recv_id < 4294967296 →
      ∃ s, run self (churn n ++ rest) = run s rest ∧ Allocator_ok s.alloc ∧ s.alloc.count = 0
        ∧ s.mixin.pending = []
        ∧ s.mixin.recv_id = (self.mixin.recv_id + n) % 4294967296 := by
  induction n with
  | zero =>
    intro self rest ha hc hp hr
    exact ⟨self, rfl, ha, hc, hp, by omega⟩
  | succ n ih =>
    intro self rest ha hc hp hr
    obtain ⟨s1, h1, h2, h3, h4, h5⟩ := churn_round self ha hc hp
    obtain ⟨s, g1, g2, g3, g4, g5⟩ := ih s1 rest h2 h3 h4 (by omega)
    refine ⟨s, ?_, g2, g3, g4, ?_⟩
    · have : churn (n + 1) ++ rest = [hi, Op.clear] ++ (churn n ++ rest) := rfl
      rw [this, run_append, h1]
      exact g1
    · rw [g5, h5]
      omega

/-- C21 (counterexample): on a new channel 4294967295 messages are received, each
cleared before the next; the two messages received after that are both pending,
and the one at the head has id 4294967295, the one behind it id 0. -/
theorem C21_ids_wrap_around :
    ∃ s, run (tp_text_mixin_init alloc0 1 true) (churn 4294967295 ++ [hi, hi]) = Except.ok s
      ∧ pending_ids s = [4294967295, 0]
      ∧ ¬ List.Pairwise (fun a b => a < b) (pending_ids s) := by
  obtain ⟨s0, h1, h2, h3, h4, h5⟩ := churn_run 4294967295 (tp_text_mixin_init alloc0 1 true)
    [hi, hi] (Or.inl ⟨rfl, rfl⟩) rfl rfl (by decide)
  have hr0 : s0.mixin.recv_id = 4294967295 := h5
  have hne : s0.alloc.count ≠ MAX_PENDING_MESSAGES := by
    rw [h3]
    decide
  have hA := receive_accept s0 0 5 100 [104, 105] h2 hne
  obtain ⟨s1, hs1, ha1, hc1, hp1, hr1⟩ : ∃ s1, step s0 hi = Except.ok s1
      ∧ Allocator_ok s1.alloc ∧ s1.alloc.count = 1 ∧ pending_ids s1 = [4294967295]
      ∧ s1.mixin.recv_id = 0 := by
    refine ⟨_, by simp only [step, hi, hA]; rfl, ?_, ?_, ?_, ?_⟩
    · rw [h3]
      exact allocator_with_ok 1 (by decide)
    · rw [h3]
      rfl
    · simp only [pending_ids, h4, List.nil_append, List.map_cons, List.map_nil, queued_message,
        hr0]
    · simp only [hr0]
  have hne1 : s1.alloc.count ≠ MAX_PENDING_MESSAGES := by
    rw [hc1]
    decide
  have hB := receive_accept s1 0 5 100 [104, 105] ha1 hne1
  obtain ⟨s2, hs2, hp2⟩ : ∃ s2, step s1 hi = Except.ok s2
      ∧ pending_ids s2 = [4294967295, 0] := by
    refine ⟨_, by simp only [step, hi, hB]; rfl, ?_⟩
    simp only [pending_ids, List.map_append, List.map_cons, List.map_nil, queued_message, hr1]
    exact congrArg (fun l => l ++ [0]) hp1
  refine ⟨s2, ?_, hp2, ?_⟩
  · rw [h1]
    simp only [run, hs1, hs2, pure, Except.pure]
  · rw [hp2]
    decide

theorem note_lost_ids (self : State) :
    received_ids (note_lost self).trace = received_ids self.trace
    ∧ (note_lost self).mixin.pending = self.mixin.pending
    ∧ (note_lost self).mixin.recv_id = self.mixin.recv_id := by
  unfold note_lost
  cases hl : self.mixin.message_lost
  · refine ⟨?_, rfl, rfl⟩
    simp [State.emit, received_ids_append, received_ids]
  · exact ⟨by simp, by simp, by simp⟩

/-- What one call of `tp_text_mixin_receive` does to the ids: an accepted message
gets the id `recv_id`, which then advances by one modulo 2^32; a rejected call
assigns nothing. -/
theorem receive_ids (self s : State) (type sender : Nat) (timestamp : Int) (text : List Nat)
    (try_malloc_ok accepted : Bool)
    (h : tp_text_mixin_receive self type sender timestamp text try_malloc_ok
      = Except.ok (accepted, s)) :
    received_ids s.trace
        = received_ids self.trace ++ (if accepted then [self.mixin.recv_id] else [])
    ∧ pending_ids s = pending_ids self ++ (if accepted then [self.mixin.recv_id] else [])
    ∧ s.mixin.recv_id
        = if accepted then (self.mixin.recv_id + 1) % 4294967296 else self.mixin.recv_id := by
  unfold tp_text_mixin_receive at h
  cases hn : _pending_new0 self.alloc with
  | error f => simp [hn, throw, throwThe, MonadExceptOf.throw] at h
  | ok r =>
    obtain ⟨got, alloc⟩ := r
    cases got with
    | false =>
      simp only [hn, pure, Except.pure, Except.ok.injEq, Prod.mk.injEq] at h
      obtain ⟨h1, h2⟩ := h
      subst h1 h2
      obtain ⟨g1, g2, g3⟩ := note_lost_ids { self with alloc := alloc }
      simp only [pending_ids, g1, g2, g3, Bool.false_eq_true, if_false, List.append_nil]
      exact ⟨trivial, trivial, trivial⟩
    | true =>
      cases try_malloc_ok with
      | false =>
        simp only [hn, Bool.not_false, if_true] at h
        split at h
        · simp [throw, throwThe, MonadExceptOf.throw] at h
        · simp only [pure, Except.pure, Except.ok.injEq, Prod.mk.injEq] at h
          obtain ⟨h1, h2⟩ := h
          subst h1 h2
          obtain ⟨g1, g2, g3⟩ := note_lost_ids { self with alloc := alloc }
          simp only [pending_ids, g1, g2, g3, Bool.false_eq_true, if_false, List.append_nil]
          exact ⟨trivial, trivial, trivial⟩
      | true =>
        simp only [hn, Bool.not_true, Bool.false_eq_true, if_false, pure, Except.pure,
          Except.ok.injEq, Prod.mk.injEq] at h
        obtain ⟨h1, h2⟩ := h
        subst h1 h2
        simp [pending_ids, State.emit, received_ids_append, received_ids]

theorem remove_link_sublist (links : List (Nat × _PendingMessage)) (node : Nat) :
    List.Sublist (remove_link links node) links := by
  induction links with
  | nil => exact List.Sublist.slnil
  | cons p rest ih =>
    obtain ⟨pos, msg⟩ := p
    by_cases hp : pos = node
    · simp only [remove_link, hp, if_true]
      exact List.sublist_cons_self _ _
    · simp only [remove_link, hp, if_false]
      exact ih.cons₂ _

theorem links_from_map_snd (pending : List _PendingMessage) (pos : Nat) :
    (links_from pos pending).map Prod.snd = pending := by
  induction pending generalizing pos with
  | nil => rfl
  | cons m rest ih => simp [links_from, ih]

theorem acknowledge_loop_ids (nodes : List Nat) :
    ∀ (self s : State) (links out : List (Nat × _PendingMessage)),
      acknowledge_loop self links nodes = Except.ok (s, out) →
      s.mixin = self.mixin ∧ received_ids s.trace = received_ids self.trace
        ∧ List.Sublist out links := by
  induction nodes with
  | nil =>
    intro self s links out h
    simp only [acknowledge_loop, pure, Except.pure, Except.ok.injEq, Prod.mk.injEq] at h
    rw [← h.1, ← h.2]
    exact ⟨rfl, rfl, List.Sublist.refl _⟩
  | cons node nodes ih =>
    intro self s links out h
    cases hf : find_link links node with
    | none => simp [acknowledge_loop, hf, throw, throwThe, MonadExceptOf.throw] at h
    | some msg =>
      simp only [acknowledge_loop, hf] at h
      cases hp : _pending_free (self.emit
          (Effect.handle_unref self.mixin.contacts_repo msg.sender)).alloc with
      | error f => simp [hp, throw, throwThe, MonadExceptOf.throw] at h
      | ok alloc =>
        simp only [hp] at h
        obtain ⟨h1, h2, h3⟩ := ih _ s _ out h
        exact ⟨h1, by rw [h2]; simp [State.emit, received_ids_append, received_ids],
          h3.trans (remove_link_sublist links node)⟩

theorem clear_loop_ids (rest : List _PendingMessage) :
    ∀ (self s : State), clear_loop self rest = Except.ok s →
      s.mixin = self.mixin ∧ received_ids s.trace = received_ids self.trace := by
  induction rest with
  | nil =>
    intro self s h
    simp only [clear_loop, pure, Except.pure, Except.ok.injEq] at h
    rw [← h]
    exact ⟨rfl, rfl⟩
  | cons msg rest ih =>
    intro self s h
    simp only [clear_loop] at h
    cases hp : _pending_free (self.emit
        (Effect.handle_unref self.mixin.contacts_repo msg.sender)).alloc with
    | error f => simp [hp, throw, throwThe, MonadExceptOf.throw] at h
    | ok alloc =>
      simp only [hp] at h
      obtain ⟨h1, h2⟩ := ih _ s h
      exact ⟨h1, by rw [h2]; simp [State.emit, received_ids_append, received_ids]⟩

/-- What one call does to the ids: it assigns `recv_id` or nothing, `recv_id`
advances with each id assigned, and the pending ids stay among the ids assigned,
in the order assigned. -/
theorem step_ids (self s : State) (op : Op) (h : step self op = Except.ok s)
    (hr : self.mixin.recv_id = (received_ids self.trace).length % 4294967296)
    (hsub : List.Sublist (pending_ids self) (received_ids self.trace)) :
    (received_ids s.trace = received_ids self.trace
        ∨ received_ids s.trace
            = received_ids self.trace ++ [(received_ids self.trace).length % 4294967296])
      ∧ s.mixin.recv_id = (received_ids s.trace).length % 4294967296
      ∧ List.Sublist (pending_ids s) (received_ids s.trace) := by
  cases op with
  | receive type sender timestamp text try_malloc_ok =>
    simp only [step] at h
    cases hrecv : tp_text_mixin_receive self type sender timestamp text try_malloc_ok with
    | error f => simp [hrecv, throw, throwThe, MonadExceptOf.throw] at h
    | ok r =>
      obtain ⟨accepted, s2⟩ := r
      simp only [hrecv, pure, Except.pure, Except.ok.injEq] at h
      subst h
      obtain ⟨g1, g2, g3⟩ := receive_ids self s2 type sender timestamp text try_malloc_ok
        accepted hrecv
      cases accepted with
      | false =>
        simp only [Bool.false_eq_true, if_false, List.append_nil] at g1 g2 g3
        rw [g1, g2, g3]
        exact ⟨Or.inl rfl, hr, hsub⟩
      | true =>
        simp only [if_true] at g1 g2 g3
        rw [g1, g2, g3]
        refine ⟨Or.inr (by rw [hr]), ?_, ?_⟩
        · rw [hr, List.length_append, List.length_singleton]
          omega
        · exact List.Sublist.append hsub (List.Sublist.refl _)
  | acknowledge ids =>
    simp only [step, tp_text_mixin_acknowledge_pending_messages] at h
    cases hn : find_nodes self.mixin.pending ids with
    | error bad =>
      simp only [hn, pure, Except.pure, Except.ok.injEq] at h
      subst h
      exact ⟨Or.inl rfl, hr, hsub⟩
    | ok nodes =>
      simp only [hn] at h
      cases hloop : acknowledge_loop self (links_from 0 self.mixin.pending) nodes with
      | error f => simp [hloop, throw, throwThe, MonadExceptOf.throw] at h
      | ok r =>
        obtain ⟨s2, out⟩ := r
        simp only [hloop, pure, Except.pure, Except.ok.injEq] at h
        subst h
        obtain ⟨h1, h2, h3⟩ := acknowledge_loop_ids nodes self s2 _ out hloop
        refine ⟨Or.inl h2, ?_, ?_⟩
        · simp only [h1, h2]
          exact hr
        · simp only [pending_ids, h2]
          have hmap := (h3.map Prod.snd).map (fun msg : _PendingMessage => msg.id)
          rw [links_from_map_snd] at hmap
          exact hmap.trans hsub
  | list clear =>
    simp only [step, list_pending_messages_eq, pure, Except.pure,
      Except.ok.injEq] at h
    subst h
    cases clear with
    | false => exact ⟨Or.inl rfl, hr, hsub⟩
    | true => exact ⟨Or.inl rfl, hr, List.nil_sublist _⟩
  | clear =>
    simp only [step, tp_text_mixin_clear] at h
    cases hloop : clear_loop self self.mixin.pending with
    | error f => simp [hloop, throw, throwThe, MonadExceptOf.throw] at h
    | ok s2 =>
      simp only [hloop, pure, Except.pure, Except.ok.injEq] at h
      subst h
      obtain ⟨h1, h2⟩ := clear_loop_ids _ self s2 hloop
      refine ⟨Or.inl h2, ?_, List.nil_sublist _⟩
      simp only [h1, h2]
      exact hr

theorem run_ids (ops : List Op) :
    ∀ (self s : State), run self ops = Except.ok s →
      received_ids self.trace
        = (List.range (received_ids self.trace).length).map (fun n => n % 4294967296) →
      self.mixin.recv_id = (received_ids self.trace).length % 4294967296 →
      List.Sublist (pending_ids self) (received_ids self.trace) →
      received_ids s.trace
          = (List.range (received_ids s.trace).length).map (fun n => n % 4294967296)
        ∧ s.mixin.recv_id = (received_ids s.trace).length % 4294967296
        ∧ List.Sublist (pending_ids s) (received_ids s.trace) := by
  induction ops with
  | nil =>
    intro self s h h1 h2 h3
    simp only [run, pure, Except.pure, Except.ok.injEq] at h
    subst h
    exact ⟨h1, h2, h3⟩
  | cons op rest ih =>
    intro self s h h1 h2 h3
    simp only [run] at h
    cases hs : step self op with
    | error f => simp [hs, throw, throwThe, MonadExceptOf.throw] at h
    | ok s1 =>
      simp only [hs] at h
      obtain ⟨g1, g2, g3⟩ := step_ids self s1 op hs h2 h3
      refine ih s1 s h ?_ g2 g3
      rcases g1 with g1 | g1
      · rw [g1]
        exact h1
      · rw [g1, List.length_append, List.length_singleton, List.range_succ, List.map_append,
          ← h1]
        rfl

/-- C21 (amended): in every state reached from `tp_text_mixin_init`, the ids
assigned so far are 0, 1, 2, ... taken modulo 2^32, in this order; `recv_id` is
the number of ids assigned, modulo 2^32; the pending ids are among the ids
assigned, in the order assigned; and as long as at most 2^32 ids have been
assigned, every id is greater than all ids assigned before it and the pending
ids increase strictly from head to tail, so they are pairwise distinct. -/
theorem C21_ids_are_consecutive_modulo_2_32 (alloc : _Allocator) (contacts_repo : Nat)
    (send_nick : Bool) (ops : List Op) (s : State)
    (hrun : run (tp_text_mixin_init alloc contacts_repo send_nick) ops = Except.ok s) :
    received_ids s.trace
        = (List.range (received_ids s.trace).length).map (fun n => n % 4294967296)
      ∧ s.mixin.recv_id = (received_ids s.trace).length % 4294967296
      ∧ List.Sublist (pending_ids s) (received_ids s.trace)
      ∧ ((received_ids s.trace).length ≤ 4294967296 →
          List.Pairwise (fun a b => a < b) (received_ids s.trace)
          ∧ List.Pairwise (fun a b => a < b) (pending_ids s)
          ∧ (pending_ids s).Nodup) := by
  obtain ⟨h1, h2, h3⟩ := run_ids ops (tp_text_mixin_init alloc contacts_repo send_nick) s hrun
    rfl rfl (List.Sublist.refl _)
  refine ⟨h1, h2, h3, fun hle => ?_⟩
  have hasc : List.Pairwise (fun a b => a < b) (received_ids s.trace) := by
    rw [h1]
    have hid : (List.range (received_ids s.trace).length).map (fun n => n % 4294967296)
        = List.range (received_ids s.trace).length := by
      conv_rhs => rw [← List.map_id (List.range (received_ids s.trace).length)]
      apply List.map_congr_left
      intro n hn
      have := List.mem_range.mp hn
      simp only [id]
      omega
    rw [hid]
    exact List.pairwise_lt_range _
  have hpend := hasc.sublist h3
  exact ⟨hasc, hpend, hpend.imp (fun hab => Nat.ne_of_lt hab)⟩

/-- Witness of C21 (amended): three messages received, the second acknowledged,
a fourth received. -/
theorem C21_ids_are_consecutive_modulo_2_32_witness :
    run (tp_text_mixin_init alloc0 1 true) [hi, hi, hi, Op.acknowledge [1], hi]
      = Except.ok (state_after (tp_text_mixin_init alloc0 1 true)
          [hi, hi, hi, Op.acknowledge [1], hi])
    ∧ received_ids (state_after (tp_text_mixin_init alloc0 1 true)
          [hi, hi, hi, Op.acknowledge [1], hi]).trace = [0, 1, 2, 3]
    ∧ pending_ids (state_after (tp_text_mixin_init alloc0 1 true)
          [hi, hi, hi, Op.acknowledge [1], hi]) = [0, 2, 3]
    ∧ List.Pairwise (fun a b => a < b) (pending_ids (state_after
          (tp_text_mixin_init alloc0 1 true) [hi, hi, hi, Op.acknowledge [1], hi])) :=
  ⟨rfl, rfl, rfl,
   ((C21_ids_are_consecutive_modulo_2_32 alloc0 1 true [hi, hi, hi, Op.acknowledge [1], hi] _
      rfl).2.2.2 (by decide)).2.1⟩

end TextMixin

/-! # Theorems: where a long text is cut (text-mixin.c) -/

namespace TextMixin

open Tp

theorem utf8_encode_append (xs ys : List Nat) :
    utf8_encode (xs ++ ys) = utf8_encode xs ++ utf8_encode ys := by
  induction xs with
  | nil => rfl
  | cons x xs ih => simp [utf8_encode, ih]

theorem utf8_encode_split (cs : List Nat) (j : Nat) :
    utf8_encode cs = utf8_encode (cs.take j) ++ utf8_encode (cs.drop j) := by
  rw [← utf8_encode_append, List.take_append_drop]

/-- The bytes up to a code-point boundary are the encoding of the code points
before it. -/
theorem utf8_encode_take (cs : List Nat) (j : Nat) :
    (utf8_encode cs).take (utf8_encode (cs.take j)).length = utf8_encode (cs.take j) := by
  conv_lhs => rw [utf8_encode_split cs j]
  exact List.take_left _ _

theorem utf8_encode_take_mono (cs : List Nat) (a b : Nat) (h : a ≤ b) :
    (utf8_encode (cs.take a)).length ≤ (utf8_encode (cs.take b)).length := by
  have h1 : cs.take a = (cs.take b).take a := by
    rw [List.take_take, Nat.min_eq_left h]
  rw [h1, utf8_encode_split (cs.take b) a, List.length_append]
  exact Nat.le_add_right _ _

theorem utf8_encode_char_pos (c : Nat) : 0 < (utf8_encode_char c).length := by
  unfold utf8_encode_char
  split
  · simp
  · split
    · simp
    · split <;> simp

/-- The byte at a code-point boundary inside the text is a lead byte. -/
theorem lead_at_boundary (cs : List Nat) (hcs : ∀ c ∈ cs, Scalar c) (j : Nat)
    (hj : (utf8_encode (cs.take j)).length < (utf8_encode cs).length) :
    ¬ (128 ≤ (utf8_encode cs).getD (utf8_encode (cs.take j)).length 0
        ∧ (utf8_encode cs).getD (utf8_encode (cs.take j)).length 0 < 192) := by
  have hsplit := utf8_encode_split cs j
  cases hd : cs.drop j with
  | nil =>
    rw [hd] at hsplit
    simp only [utf8_encode, List.append_nil] at hsplit
    rw [← hsplit] at hj
    exact absurd hj (Nat.lt_irrefl _)
  | cons c rest =>
    have hc : Scalar c := hcs c (List.mem_of_mem_drop (by rw [hd]; exact List.mem_cons_self _ _))
    obtain ⟨lead, conts, henc, hl, _, _, _⟩ := encode_char_shape c hc
    have hget : (utf8_encode cs).getD (utf8_encode (cs.take j)).length 0 = lead := by
      conv_lhs => rw [hsplit]
      rw [List.getD_append_right _ _ _ _ (Nat.le_refl _), Nat.sub_self, hd]
      simp only [utf8_encode, henc, List.cons_append, List.getD_cons_zero]
    rw [hget]
    omega

/-- Every byte between the offset `g_utf8_find_prev_char` returns and the offset
it started from is a continuation byte. -/
theorem find_prev_char_last (str : List Nat) (p e : Nat)
    (h : g_utf8_find_prev_char str p = some e) :
    ∀ j, e < j → j < p → str.getD j 0 &&& 0xc0 = 0x80 := by
  induction p with
  | zero => intro j _ hj; omega
  | succ p ih =>
    simp only [g_utf8_find_prev_char] at h
    split at h
    · simp only [Option.some.injEq] at h
      subst h
      intro j h1 h2
      omega
    · intro j h1 h2
      by_cases hjp : j = p
      · subst hjp
        rename_i hc
        exact not_not.mp hc
      · exact ih h j h1 (by omega)

/-- Where a valid UTF-8 text of more than 1023 bytes is cut: at the greatest
code-point boundary below offset 1023. -/
theorem truncation_point (cs : List Nat) (hcs : ∀ c ∈ cs, Scalar c)
    (hlong : MAX_MESSAGE_SIZE < (utf8_encode cs).length) :
    ∃ e k, kept_length (utf8_encode cs) = e ∧ e < MAX_MESSAGE_SIZE
      ∧ (utf8_encode cs).take e = utf8_encode (cs.take k)
      ∧ ∀ j, (utf8_encode (cs.take j)).length < MAX_MESSAGE_SIZE →
          (utf8_encode (cs.take j)).length ≤ e := by
  have hbytes := encode_bytes cs hcs
  have hlen : strlen (utf8_encode cs) = (utf8_encode cs).length :=
    strlen_eq_length _ (fun b hb => (hbytes b hb).2)
  have hcont : ∀ p, p < (utf8_encode cs).length →
      ((utf8_encode cs).getD p 0 &&& 0xc0 = 0x80 ↔
        (128 ≤ (utf8_encode cs).getD p 0 ∧ (utf8_encode cs).getD p 0 < 192)) := by
    intro p hp
    apply continuation_byte_iff
    rw [List.getD_eq_getElem _ _ hp]
    exact (hbytes _ (List.getElem_mem _)).1
  obtain ⟨e, he⟩ : ∃ e, g_utf8_find_prev_char (utf8_encode cs) MAX_MESSAGE_SIZE = some e := by
    cases hf : g_utf8_find_prev_char (utf8_encode cs) MAX_MESSAGE_SIZE with
    | some e => exact ⟨e, rfl⟩
    | none =>
      exfalso
      have h0 := find_prev_char_none _ _ hf 0 (by decide)
      have hz : (utf8_encode (cs.take 0)).length < (utf8_encode cs).length := by
        simp only [List.take_zero, utf8_encode, List.length_nil]
        exact Nat.lt_of_le_of_lt (Nat.zero_le _) hlong
      have hl := lead_at_boundary cs hcs 0 hz
      simp only [List.take_zero, utf8_encode, List.length_nil] at hl
      exact hl ((hcont 0 (Nat.lt_of_le_of_lt (Nat.zero_le _) hlong)).mp h0)
  obtain ⟨he1, he2⟩ := find_prev_char_some _ _ _ he
  have helt : e < (utf8_encode cs).length := Nat.lt_trans he1 hlong
  obtain ⟨k, hk⟩ := boundary_of_lead cs hcs e helt (fun hc => he2 ((hcont e helt).mpr hc))
  refine ⟨e, k, ?_, he1, hk, ?_⟩
  · simp only [kept_length, hlen, gt_iff_lt, hlong, if_true, he]
  · intro j hj
    by_contra hgt
    have hgt : e < (utf8_encode (cs.take j)).length := Nat.lt_of_not_le hgt
    have hin : (utf8_encode (cs.take j)).length < (utf8_encode cs).length :=
      Nat.lt_trans hj hlong
    exact lead_at_boundary cs hcs j hin
      ((hcont _ hin).mp (find_prev_char_last _ _ _ he _ hgt hj))

/-- C30: when `tp_text_mixin_receive` accepts a valid UTF-8 text of more than
1023 bytes, the text it stores is the encoding of the first `k` code points,
where code point `k` is the last one that begins before byte offset 1023: it
begins before offset 1023 and the code point after it does not. The stored text
is therefore at most 1022 bytes long, and when offset 1023 is itself a code-point
boundary, the code point that ends there is left out. -/
theorem C30_truncation_drops_last_code_point_begun (self s : State)
    (type sender : Nat) (timestamp : Int) (cs : List Nat) (try_malloc_ok : Bool)
    (hcs : ∀ c ∈ cs, Scalar c) (hlong : MAX_MESSAGE_SIZE < (utf8_encode cs).length)
    (h : tp_text_mixin_receive self type sender timestamp (utf8_encode cs) try_malloc_ok
      = Except.ok (true, s)) :
    ∃ msg k, s.mixin.pending = self.mixin.pending ++ [msg]
      ∧ k < cs.length
      ∧ msg.text = utf8_encode (cs.take k)
      ∧ msg.text = (utf8_encode cs).take msg.text.length
      ∧ (utf8_encode (cs.take k)).length < 1023
      ∧ 1023 ≤ (utf8_encode (cs.take (k + 1))).length
      ∧ msg.text.length ≤ 1022
      ∧ (∀ j, (utf8_encode (cs.take j)).length < 1023 →
          (utf8_encode (cs.take j)).length ≤ msg.text.length)
      ∧ (∀ j, (utf8_encode (cs.take j)).length = 1023 →
          0 < j ∧ msg.text = utf8_encode (cs.take (j - 1)) ∧ k = j - 1) := by
  obtain ⟨hp, _⟩ := receive_accepted_message self s type sender timestamp _ try_malloc_ok h
  have hbytes := encode_bytes cs hcs
  have hlen : strlen (utf8_encode cs) = (utf8_encode cs).length :=
    strlen_eq_length _ (fun b hb => (hbytes b hb).2)
  obtain ⟨e, k, hkept, he1, hk, hmax⟩ := truncation_point cs hcs hlong
  have helt : e < (utf8_encode cs).length := Nat.lt_trans he1 hlong
  have htl : ((utf8_encode cs).take e).length = e := by
    rw [List.length_take]
    exact Nat.min_eq_left (Nat.le_of_lt helt)
  have hke : (utf8_encode (cs.take k)).length = e := by rw [← hk, htl]
  have htext : (queued_message self type sender timestamp (utf8_encode cs)).text
      = (utf8_encode cs).take e := by
    simp only [queued_message, g_strlcpy, hkept, hlen]
    rw [Nat.min_eq_left (Nat.le_of_lt helt)]
  have hklt : k < cs.length := by
    by_contra hge
    rw [List.take_of_length_le (Nat.le_of_not_lt hge)] at hke
    omega
  -- the encodings of longer prefixes are strictly longer
  have hstep : ∀ i, i < cs.length →
      (utf8_encode (cs.take i)).length < (utf8_encode (cs.take (i + 1))).length := by
    intro i hi
    rw [List.take_succ, List.getElem?_eq_getElem hi, utf8_encode_append, List.length_append]
    simp only [Option.toList, utf8_encode, List.append_nil]
    have := utf8_encode_char_pos cs[i]
    omega
  have hnext : 1023 ≤ (utf8_encode (cs.take (k + 1))).length := by
    by_contra hlt
    have := hmax (k + 1) (Nat.lt_of_not_le hlt)
    have := hstep k hklt
    omega
  simp only [MAX_MESSAGE_SIZE] at he1 hmax
  refine ⟨_, k, hp, hklt, htext.trans hk, ?_, by omega, hnext, ?_, ?_, ?_⟩
  · rw [htext, htl]
  · rw [htext, htl]
    omega
  · intro j hj
    rw [htext, htl]
    exact hmax j hj
  · intro j hj
    have hj0 : 0 < j := by
      rcases Nat.eq_zero_or_pos j with h0 | h0
      · rw [h0] at hj
        simp [utf8_encode] at hj
      · exact h0
    have hjle : j ≤ cs.length := by
      by_contra hgt
      rw [List.take_of_length_le (Nat.le_of_lt (Nat.lt_of_not_le hgt))] at hj
      simp only [MAX_MESSAGE_SIZE] at hlong
      omega
    have hprev := hstep (j - 1) (by omega)
    rw [Nat.sub_add_cancel hj0] at hprev
    have h1 := hmax (j - 1) (by omega)
    have hkj : k ≤ j - 1 := by
      by_contra hgt
      have := utf8_encode_take_mono cs j k (by omega)
      omega
    have h2 := utf8_encode_take_mono cs k (j - 1) hkj
    have heq : (utf8_encode (cs.take (j - 1))).length = e := by omega
    have hkeq : k = j - 1 := by
      by_contra hne
      have hlt : k + 1 ≤ j - 1 := by omega
      have := utf8_encode_take_mono cs (k + 1) (j - 1) hlt
      have := hstep k hklt
      omega
    refine ⟨hj0, ?_, hkeq⟩
    rw [htext, ← heq, utf8_encode_take]

theorem boundary_text_scalar : ∀ c ∈ boundary_text, Scalar c := by
  intro c hc
  simp only [boundary_text, List.mem_append, List.mem_replicate, List.mem_singleton] at hc
  rcases hc with ⟨_, hc⟩ | hc <;> subst hc <;> exact ⟨by decide, by decide, by decide⟩

set_option maxRecDepth 1000000 in
/-- Witness of C30: in the 1024-byte text of `boundary_text` offset 1023 is a
code-point boundary; the `a` at offset 1022 is the last code point that begins
before it, and it is left out: 1022 bytes are kept. -/
theorem C30_truncation_drops_last_code_point_begun_witness :
    MAX_MESSAGE_SIZE < (utf8_encode boundary_text).length
    ∧ (utf8_encode (boundary_text.take 1023)).length = 1023
    ∧ ∃ msg k, (state_after (tp_text_mixin_init alloc0 1 true)
          [Op.receive 0 5 100 (utf8_encode boundary_text) true]).mixin.pending = [] ++ [msg]
        ∧ msg.text.length ≤ 1022
        ∧ msg.text = utf8_encode (boundary_text.take (1023 - 1))
        ∧ k = 1023 - 1 := by
  obtain ⟨msg, k, h1, _, _, _, _, _, h7, _, h9⟩ :=
    C30_truncation_drops_last_code_point_begun (tp_text_mixin_init alloc0 1 true)
      (state_after (tp_text_mixin_init alloc0 1 true)
        [Op.receive 0 5 100 (utf8_encode boundary_text) true])
      0 5 100 boundary_text true boundary_text_scalar (by decide) (by rfl)
  exact ⟨by decide, by rfl, msg, k, h1, h7, (h9 1023 (by rfl)).2.1, (h9 1023 (by rfl)).2.2⟩

end TextMixin

/-! # Theorems: construction and the NotYours outcome (account-channel-request.c) -/

namespace Acr

open Tp

/-- C28 (counterexample): a self-handling CreateChannel request
(`create_and_handle_channel_async`, so `ensure` is `FALSE`) whose request object
is removed without error before HandleChannels arrived completes its result with
`TP_ERROR_NOT_YOURS`. -/
theorem C28_create_mode_resolves_not_yours :
    ∃ s, run fresh0 events_create_not_yours = Except.ok s
      ∧ s.ensure = false ∧ s.should_handle = true
      ∧ completions s.trace
          = [⟨7, 8, SourceTag.create_and_handle_channel_async, some not_yours_error⟩]
      ∧ g_error_matches not_yours_error GQuark.TP_ERRORS TP_ERROR_NOT_YOURS = true :=
  ⟨_, rfl, rfl, rfl, rfl, rfl⟩

theorem error_from_mono (errors more : List GError) (x : Effect)
    (h : x.error_from errors) (hsub : ∀ e ∈ errors, e ∈ more) : x.error_from more := by
  cases x <;> simp only [Effect.error_from] at h ⊢
  · exact h
  · intro e he
    exact hsub e (h e he)

theorem error_from_completed (self : TpAccountChannelRequest) (r : GSimpleAsyncResult)
    (errors : List GError) (hr : ∀ e, r.error = some e → e ∈ errors) :
    ∀ x ∈ (completed self r).trace, x ∈ self.trace ∨ x.error_from errors := by
  intro x hx
  simp only [completed, List.mem_append, List.mem_singleton] at hx
  rcases hx with (hx | hx) | hx
  · exact Or.inl hx
  · right
    unfold disconnect_trace at hx
    split at hx
    · cases hx
    · split at hx
      · cases hx
      · simp only [List.mem_singleton] at hx
        rw [hx]
        trivial
  · right
    rw [hx]
    exact hr

theorem error_from_request_fail (self0 self s : TpAccountChannelRequest) (error : GError)
    (errors : List GError) (h : request_fail self error = Except.ok s)
    (htr : self.trace = self0.trace) (he : error ∈ errors) :
    ∀ x ∈ s.trace, x ∈ self0.trace ∨ x.error_from errors := by
  obtain ⟨r, _, hs⟩ := request_fail_inv self s error h
  rw [hs, ← htr]
  apply error_from_completed
  intro e hre
  simp only [Option.some.injEq] at hre
  rw [← hre]
  exact he

theorem error_from_complete_result (self s : TpAccountChannelRequest) (errors : List GError)
    (hnone : ∀ r, self.result = some r → r.error = none)
    (h : complete_result self = Except.ok s) :
    ∀ x ∈ s.trace, x ∈ self.trace ∨ x.error_from errors := by
  obtain ⟨r, hr, hs⟩ := complete_result_inv self s h
  rw [hs]
  apply error_from_completed
  intro e hre
  rw [hnone r hr] at hre
  cases hre

theorem error_from_emit (self : TpAccountChannelRequest) (e : Effect) (errors : List GError)
    (he : e.error_from errors) :
    ∀ x ∈ (self.emit e).trace, x ∈ self.trace ∨ x.error_from errors := by
  intro x hx
  simp only [TpAccountChannelRequest.emit, List.mem_append, List.mem_singleton] at hx
  rcases hx with hx | hx
  · exact Or.inl hx
  · rw [hx]
    exact Or.inr he

/-- One event delivered to a request-and-forget object: whatever it adds to the
trace resolves with no error or with an error the event delivered. -/
theorem deliver_error_from (self s : TpAccountChannelRequest) (ev : Event)
    (h : deliver self ev = Except.ok s) (hF : Forgetting self) :
    ∀ x ∈ s.trace, x ∈ self.trace ∨ x.error_from ev.errors := by
  have hnone := hF.2.2.2.2.2
  cases ev with
  | request m a =>
    simp only [deliver, pure, Except.pure, Except.ok.injEq] at h
    rw [← h, request_method_already_requested m self a hF.1]
    exact error_from_emit self _ _ trivial
  | set_channel_factory f =>
    simp only [deliver, pure, Except.pure, Except.ok.injEq,
      tp_account_channel_request_set_channel_factory, hF.1, if_true] at h
    rw [← h]
    exact error_from_emit self _ _ trivial
  | handle_channels channels t ctx =>
    simp only [deliver, hF.2.2.1, pure, Except.pure, Except.ok.injEq] at h
    rw [← h]
    exact fun x hx => Or.inl hx
  | request_invalidated domain code message =>
    simp only [deliver] at h
    split at h
    · simp only [pure, Except.pure, Except.ok.injEq] at h
      rw [← h]
      exact fun x hx => Or.inl hx
    · unfold acr_channel_request_invalidated_cb at h
      try dsimp only at h
      split at h
      · simp only [channel_request_succeeded, hF.2.1, Bool.false_eq_true, if_false] at h
        exact error_from_complete_result self s _ hnone h
      · exact error_from_request_fail self _ s _ _ h rfl (by simp [Event.errors])
  | request_reply path error new_error sig_id cancel_id =>
    simp only [deliver] at h
    unfold acr_request_cb at h
    split at h
    · exact error_from_request_fail self _ s _ _ h rfl (by simp [Event.errors])
    · split at h
      · exact error_from_request_fail self _ s _ _ h rfl (by simp [Event.errors])
      · try dsimp only at h
        split at h
        · split at h
          · simp only [pure, Except.pure, Except.ok.injEq] at h
            rw [← h]
            intro x hx
            simp only [acr_operation_cancelled_cb, TpAccountChannelRequest.emit,
              List.mem_append, List.mem_singleton] at hx
            rcases hx with hx | hx
            · exact Or.inl hx
            · rw [hx]
              exact Or.inr trivial
          · simp only [pure, Except.pure, Except.ok.injEq] at h
            rw [← h]
            intro x hx
            simp only [TpAccountChannelRequest.emit, List.mem_append,
              List.mem_singleton] at hx
            rcases hx with hx | hx
            · exact Or.inl hx
            · rw [hx]
              exact Or.inr trivial
        · simp only [pure, Except.pure, Except.ok.injEq] at h
          rw [← h]
          intro x hx
          simp only [TpAccountChannelRequest.emit, List.mem_append,
            List.mem_singleton] at hx
          rcases hx with hx | hx
          · exact Or.inl hx
          · rw [hx]
            exact Or.inr trivial
  | proceed_reply error =>
    simp only [deliver] at h
    unfold acr_channel_request_proceed_cb at h
    split at h
    · exact error_from_request_fail self _ s _ _ h rfl (by simp [Event.errors])
    · simp only [pure, Except.pure, Except.ok.injEq] at h
      rw [← h]
      exact fun x hx => Or.inl hx
  | cancel_reply error =>
    simp only [deliver, pure, Except.pure, Except.ok.injEq, acr_channel_request_cancel_cb] at h
    rw [← h]
    exact fun x hx => Or.inl hx
  | operation_cancelled =>
    simp only [deliver] at h
    split at h
    · simp only [pure, Except.pure, Except.ok.injEq] at h
      rw [← h]
      exact fun x hx => Or.inl hx
    · split at h
      · simp only [pure, Except.pure, Except.ok.injEq] at h
        rw [← h]
        exact fun x hx => Or.inl hx
      · try dsimp only at h
        split at h
        · simp only [pure, Except.pure, Except.ok.injEq] at h
          rw [← h]
          exact fun x hx => Or.inl hx
        · simp only [pure, Except.pure, Except.ok.injEq] at h
          rw [← h]
          simp only [acr_operation_cancelled_cb]
          split
          · exact fun x hx => Or.inl hx
          · intro x hx
            simp only [TpAccountChannelRequest.emit, List.mem_append,
              List.mem_singleton] at hx
            rcases hx with hx | hx
            · exact Or.inl hx
            · rw [hx]
              exact Or.inr trivial
  | channel_invalidated =>
    simp only [deliver, pure, Except.pure, Except.ok.injEq, acr_channel_invalidated_cb] at h
    rw [← h]
    exact fun x hx => Or.inl hx

theorem run_error_from (events : List Event) :
    ∀ (self s : TpAccountChannelRequest) (seen : List GError),
      run self events = Except.ok s → Forgetting self →
      (∀ x ∈ self.trace, x.error_from seen) →
      ∀ x ∈ s.trace, x.error_from (seen ++ errors_of events) := by
  induction events with
  | nil =>
    intro self s seen h _ hseen
    simp only [run, pure, Except.pure, Except.ok.injEq] at h
    rw [← h]
    intro x hx
    exact error_from_mono seen _ x (hseen x hx) (fun e he => List.mem_append_left _ he)
  | cons ev rest ih =>
    intro self s seen h hF hseen
    simp only [run] at h
    cases hd : deliver self ev with
    | error f => simp [hd, throw, throwThe, MonadExceptOf.throw] at h
    | ok s1 =>
      simp only [hd] at h
      have hstep := deliver_error_from self s1 ev hd hF
      have h1 : ∀ x ∈ s1.trace, x.error_from (seen ++ ev.errors) := by
        intro x hx
        rcases hstep x hx with hx | hx
        · exact error_from_mono seen _ x (hseen x hx) (fun e he => List.mem_append_left _ he)
        · exact error_from_mono ev.errors _ x hx (fun e he => List.mem_append_right _ he)
      have := ih s1 s (seen ++ ev.errors) h (deliver_forgetting self s1 ev hd hF) h1
      simpa only [errors_of, List.append_assoc] using this

theorem request_channel_async_error_from (s0 : TpAccountChannelRequest)
    (preferred_handler : Option String) (cancellable : Option GCancellable)
    (callback user_data : Nat) (ensure : Bool) (h0 : s0.trace = []) :
    ∀ x ∈ (request_channel_async s0 preferred_handler cancellable callback user_data
        ensure).trace, x.error_from [] := by
  intro x hx
  unfold request_channel_async at hx
  split at hx
  · simp only [TpAccountChannelRequest.emit, h0, List.nil_append, List.mem_singleton] at hx
    rw [hx]
    trivial
  · try dsimp only at hx
    split at hx
    · simp only [TpAccountChannelRequest.emit, h0, List.nil_append, List.mem_singleton] at hx
      rw [hx]
      rfl
    · split at hx <;>
        cases cancellable <;>
        simp only [TpAccountChannelRequest.emit, h0, List.nil_append, List.mem_singleton] at hx <;>
        rw [hx] <;>
        trivial

/-- C28 (amended): a request-and-forget object (`create_channel_async` or
`ensure_channel_async`, so not self-handling), in Create mode and in Ensure mode
alike, resolves only with no error, with an error that one of the events
delivered to it, or, from idle, with the cancellation error; so unless an event
delivers an error matching `TP_ERROR_NOT_YOURS`, it never resolves with one. -/
theorem C28_not_yours_needs_self_handling (account : TpAccount) (request : Asv) (uat : Int)
    (s0 s : TpAccountChannelRequest) (preferred_handler : Option String)
    (cancellable : Option GCancellable) (callback user_data : Nat) (ensure : Bool)
    (events : List Event)
    (h0 : tp_account_channel_request_new (some account) (some request) uat = some s0)
    (hrun : run (request_channel_async s0 preferred_handler cancellable callback user_data
      ensure) events = Except.ok s) :
    s.should_handle = false
    ∧ (∀ r, Effect.async_result_complete r ∈ s.trace → ∀ e, r.error = some e →
        e ∈ errors_of events)
    ∧ (∀ cb ud e, Effect.report_error_in_idle cb ud e ∈ s.trace → e = cancelled_error)
    ∧ ((∀ e ∈ errors_of events, g_error_matches e GQuark.TP_ERRORS TP_ERROR_NOT_YOURS = false) →
        (∀ r, Effect.async_result_complete r ∈ s.trace → ∀ e, r.error = some e →
          g_error_matches e GQuark.TP_ERRORS TP_ERROR_NOT_YOURS = false)
        ∧ ∀ cb ud e, Effect.report_error_in_idle cb ud e ∈ s.trace →
            g_error_matches e GQuark.TP_ERRORS TP_ERROR_NOT_YOURS = false) := by
  have hF0 := request_channel_async_forgetting account request uat s0 h0 preferred_handler
    cancellable callback user_data ensure
  have hF : Forgetting s := run_forgetting events _ s hrun hF0
  have htr : s0.trace = [] := by
    simp only [tp_account_channel_request_new, Option.some.injEq] at h0
    rw [← h0]
  have hall := run_error_from events _ s [] hrun hF0
    (request_channel_async_error_from s0 preferred_handler cancellable callback user_data
      ensure htr)
  simp only [List.nil_append] at hall
  have h1 : ∀ r, Effect.async_result_complete r ∈ s.trace → ∀ e, r.error = some e →
      e ∈ errors_of events := fun r hr => hall _ hr
  have h2 : ∀ cb ud e, Effect.report_error_in_idle cb ud e ∈ s.trace → e = cancelled_error :=
    fun cb ud e hr => hall _ hr
  refine ⟨hF.2.1, h1, h2, fun hno => ⟨fun r hr e he => hno e (h1 r hr e he), ?_⟩⟩
  intro cb ud e hr
  rw [h2 cb ud e hr]
  rfl

/-- Witness of C28 (amended): a request-and-forget CreateChannel request whose
request object is removed without error resolves with no error. -/
theorem C28_not_yours_needs_self_handling_witness :
    tp_account_channel_request_new (some account0) (some [("ChannelType", "Text")]) 0
      = some fresh0
    ∧ run (request_channel_async fresh0 none none 7 8 false)
        [Event.request_reply "/cr/2" none none 0 0, Event.proceed_reply none,
         Event.request_invalidated GQuark.TP_DBUS_ERRORS TP_DBUS_ERROR_OBJECT_REMOVED "gone"]
      = Except.ok (state_after forgetting0
          [Event.request_invalidated GQuark.TP_DBUS_ERRORS TP_DBUS_ERROR_OBJECT_REMOVED "gone"])
    ∧ completions (state_after forgetting0
          [Event.request_invalidated GQuark.TP_DBUS_ERRORS TP_DBUS_ERROR_OBJECT_REMOVED
            "gone"]).trace = [result1]
    ∧ (state_after forgetting0
          [Event.request_invalidated GQuark.TP_DBUS_ERRORS TP_DBUS_ERROR_OBJECT_REMOVED
            "gone"]).should_handle = false :=
  ⟨rfl, rfl, rfl,
   (C28_not_yours_needs_self_handling account0 [("ChannelType", "Text")] 0 fresh0 _ none none
      7 8 false
      [Event.request_reply "/cr/2" none none 0 0, Event.proceed_reply none,
       Event.request_invalidated GQuark.TP_DBUS_ERRORS TP_DBUS_ERROR_OBJECT_REMOVED "gone"]
      rfl rfl).1⟩

/-- C27 (counterexample): `tp_account_channel_request_new` with an empty request
map returns an object, and `create_channel_async` on it calls CreateChannel with
the empty map. -/
theorem C27_empty_request_is_accepted :
    ∃ s0, tp_account_channel_request_new (some account0) (some []) 0 = some s0
      ∧ (request_method SourceTag.create_channel_async s0 args0).trace
          = [Effect.call_create_channel account0.object_path [] 0 ""]
      ∧ (Effect.call_create_channel account0.object_path [] 0 "").is_remote_call = true :=
  ⟨_, rfl, rfl, rfl⟩

/-- C27 (amended): `tp_account_channel_request_new` returns no object exactly
when the account is not a `TpAccount` or the request map is `NULL`; for any other
arguments, the empty map included, it returns an object that holds the account,
the map and the time as given and has made no call, and a request method called
on it (cancellable not cancelled, handler registered) passes the map to the
channel dispatcher as it is. -/
theorem C27_new_rejects_only_missing_arguments (account : Option TpAccount)
    (request : Option Asv) (uat : Int) :
    (tp_account_channel_request_new account request uat = none ↔
      (account = none ∨ request = none))
    ∧ ∀ a r, account = some a → request = some r →
        ∃ s0, tp_account_channel_request_new account request uat = some s0
          ∧ s0.account = a ∧ s0.request = r ∧ s0.user_action_time = uat
          ∧ s0.trace = [] ∧ s0.requested = false
          ∧ ∀ (m : SourceTag) (args : CallArgs),
              g_cancellable_is_cancelled args.cancellable = false →
              args.register_error = none →
              ∃ handler,
                Effect.call_create_channel a.object_path r uat handler
                    ∈ (request_method m s0 args).trace
                ∨ Effect.call_ensure_channel a.object_path r uat handler
                    ∈ (request_method m s0 args).trace := by
  constructor
  · cases account <;> cases request <;> simp [tp_account_channel_request_new]
  · intro a r ha hr
    subst ha hr
    refine ⟨_, rfl, rfl, rfl, rfl, rfl, rfl, ?_⟩
    intro m args hcan hreg
    obtain ⟨ph, c, cb, ud, bus, reg⟩ := args
    simp only at hcan hreg
    subst hreg
    cases m <;> cases c <;>
      simp_all [request_method, tp_account_channel_request_create_and_handle_channel_async,
        tp_account_channel_request_ensure_and_handle_channel_async,
        tp_account_channel_request_create_channel_async,
        tp_account_channel_request_ensure_channel_async, request_and_handle_channel_async,
        request_channel_async, g_cancellable_is_cancelled, TpAccountChannelRequest.emit]

/-- Witness of C27 (amended): the empty map for `account0`. -/
theorem C27_new_rejects_only_missing_arguments_witness :
    ∃ s0, tp_account_channel_request_new (some account0) (some []) 7 = some s0
      ∧ s0.request = [] ∧ s0.trace = [] :=
  let ⟨s0, h1, _, h3, _, h5, _⟩ :=
    (C27_new_rejects_only_missing_arguments (some account0) (some []) 7).2 account0 [] rfl rfl
  ⟨s0, h1, h3, h5⟩

end Acr

/-! # Theorems: the `connection-ready` signal (connection.c) -/

namespace Connection

open Tp

theorem ready_count_append (xs ys : List Effect) :
    ready_count (xs ++ ys) = ready_count xs + ready_count ys := by
  induction xs with
  | nil => simp [ready_count]
  | cons x xs ih =>
    cases x <;> simp [ready_count, ih]
    omega

theorem add_interfaces_ready (interfaces : List String) :
    ∀ self : TpConnection,
      ready_count (add_interfaces self interfaces).trace = ready_count self.trace
      ∧ (add_interfaces self interfaces).status = self.status := by
  induction interfaces with
  | nil => intro self; exact ⟨rfl, rfl⟩
  | cons i rest ih =>
    intro self
    obtain ⟨h1, h2⟩ := ih (self.emit (Effect.add_interface_by_id i))
    simp only [add_interfaces, h1, h2]
    simp [TpConnection.emit, ready_count_append, ready_count]

/-- The signal is emitted once for every GetInterfaces reply without error, and
by nothing else. -/
theorem connection_ready_per_reply (events : List Event) :
    ∀ self : TpConnection,
      ready_count (run self events).trace = ready_count self.trace + interface_replies events := by
  induction events with
  | nil => intro self; rfl
  | cons ev rest ih =>
    intro self
    simp only [run, ih]
    cases ev with
    | got_status status error =>
      cases error with
      | none =>
        simp only [deliver, tp_connection_got_status_cb, tp_connection_status_changed,
          interface_replies]
        split
        · simp [TpConnection.emit, ready_count_append, ready_count]
        · split <;> simp [TpConnection.emit, ready_count_append, ready_count]
      | some e =>
        simp [deliver, tp_connection_got_status_cb, interface_replies, TpConnection.emit,
          ready_count_append, ready_count]
    | status_changed status reason =>
      simp only [deliver, tp_connection_status_changed_cb, tp_connection_status_changed,
        interface_replies]
      split
      · simp [TpConnection.emit, ready_count_append, ready_count]
      · split <;> simp [TpConnection.emit, ready_count_append, ready_count]
    | got_interfaces interfaces error =>
      cases error with
      | none =>
        cases interfaces with
        | none =>
          simp [deliver, tp_connection_got_interfaces_cb, interface_replies, TpConnection.emit,
            ready_count_append, ready_count]
          omega
        | some l =>
          simp [deliver, tp_connection_got_interfaces_cb, interface_replies, TpConnection.emit,
            ready_count_append, ready_count, (add_interfaces_ready l self).1]
          omega
      | some e =>
        simp [deliver, tp_connection_got_interfaces_cb, interface_replies, TpConnection.emit,
          ready_count_append, ready_count]

/-- C29 (the code at the failing input): the StatusChanged signal and the
GetStatus reply both report `TP_CONNECTION_STATUS_CONNECTED`; GetInterfaces is
called twice, and when both calls are answered `connection-ready` has been
emitted twice. -/
theorem C29_connection_ready_fires_twice :
    get_interfaces_count (run tp_connection_constructor (connected_twice.take 2)).trace = 2
    ∧ ready_count (run tp_connection_constructor connected_twice).trace = 2
    ∧ (run tp_connection_constructor connected_twice).status = TP_CONNECTION_STATUS_CONNECTED
    ∧ ¬ ready_count (run tp_connection_constructor connected_twice).trace ≤ 1 := by
  decide

end Connection

/-! # Theorems: the cache clean-up step (channel-text.c) -/

namespace ChannelText

open Tp

theorem continue_count_append (xs ys : List Effect) :
    continue_count (xs ++ ys) = continue_count xs + continue_count ys := by
  induction xs with
  | nil => simp [continue_count]
  | cons x xs ih =>
    cases x <;> simp [continue_count, ih]
    omega

theorem terminate_count_append (xs ys : List Effect) :
    terminate_count (xs ++ ys) = terminate_count xs + terminate_count ys := by
  induction xs with
  | nil => simp [terminate_count]
  | cons x xs ih =>
    cases x <;> simp [terminate_count, ih]
    omega

theorem clean_up_loop_counts (store : LogStore) (cache : Option Nat) (tokens : List String) :
    ∀ trace, continue_count (clean_up_loop store cache trace tokens) = continue_count trace
      ∧ terminate_count (clean_up_loop store cache trace tokens) = terminate_count trace := by
  induction tokens with
  | nil => intro trace; exact ⟨rfl, rfl⟩
  | cons t rest ih =>
    intro trace
    simp only [clean_up_loop]
    cases store.acknowledgment_error t <;>
      simp [ih, continue_count_append, terminate_count_append, continue_count, terminate_count]

theorem clean_up_stale_tokens_counts (store : LogStore) (trace : List Effect)
    (tokens : List String) :
    continue_count (tpl_channel_text_clean_up_stale_tokens store trace tokens)
        = continue_count trace
      ∧ terminate_count (tpl_channel_text_clean_up_stale_tokens store trace tokens)
        = terminate_count trace := by
  simp only [tpl_channel_text_clean_up_stale_tokens]
  cases store.cache_again <;>
    simp [clean_up_loop_counts, continue_count_append, terminate_count_append, continue_count,
      terminate_count]

theorem free_loop_counts (tokens : List String) :
    ∀ trace, continue_count (free_loop trace tokens) = continue_count trace
      ∧ terminate_count (free_loop trace tokens) = terminate_count trace := by
  induction tokens with
  | nil => intro trace; exact ⟨rfl, rfl⟩
  | cons t rest ih =>
    intro trace
    simp [free_loop, ih, continue_count_append, terminate_count_append, continue_count,
      terminate_count]

theorem cleanup_out_counts (cache : Option Nat) (trace : List Effect) :
    continue_count (cleanup_out cache trace) = continue_count trace + 1
      ∧ terminate_count (cleanup_out cache trace) = terminate_count trace
      ∧ (cleanup_out cache trace).getLast? = some Effect.action_chain_continue := by
  cases cache <;>
    simp [cleanup_out, continue_count_append, terminate_count_append, continue_count,
      terminate_count]

/-- C26: whatever the log store answers (no cache, a failed query for the stale
log-ids, or a clean-up that runs, with or without failed acknowledgments),
`pendingproc_cleanup_pending_messages_db` calls `_tpl_action_chain_continue`
exactly once, as the last thing it does, and never
`_tpl_action_chain_terminate`. -/
theorem C26_cleanup_always_continues (store : LogStore) (now : Int) (trace : List Effect) :
    continue_count (pendingproc_cleanup_pending_messages_db store now trace)
        = continue_count trace + 1
      ∧ terminate_count (pendingproc_cleanup_pending_messages_db store now trace)
        = terminate_count trace
      ∧ (pendingproc_cleanup_pending_messages_db store now trace).getLast?
        = some Effect.action_chain_continue := by
  unfold pendingproc_cleanup_pending_messages_db
  cases store.cache with
  | none =>
    simp only
    obtain ⟨h1, h2, h3⟩ := cleanup_out_counts none
      (trace ++ [Effect.log_store_sqlite_dup none] ++
        [Effect.debug "Unable to obtain the TplLogStoreIndex singleton"])
    refine ⟨?_, ?_, h3⟩
    · rw [h1]
      simp [continue_count_append, continue_count]
    · rw [h2]
      simp [terminate_count_append, terminate_count]
  | some c =>
    simp only
    cases store.log_ids_error with
    | some error =>
      simp only
      obtain ⟨h1, h2, h3⟩ := cleanup_out_counts (some c)
        (trace ++ [Effect.log_store_sqlite_dup (some c)] ++
          [Effect.log_store_sqlite_get_log_ids c
            (now - TPL_LOG_STORE_SQLITE_CLEANUP_DELTA_LIMIT)] ++
          [Effect.debug ("unable to obtain log-id in Index DB: " ++ error.message)])
      refine ⟨?_, ?_, h3⟩
      · rw [h1]
        simp [continue_count_append, continue_count]
      · rw [h2]
        simp [terminate_count_append, terminate_count]
    | none =>
      simp only
      refine ⟨?_, ?_, (cleanup_out_counts _ _).2.2⟩
      · rw [(cleanup_out_counts _ _).1, (free_loop_counts _ _).1,
          (clean_up_stale_tokens_counts _ _ _).1]
        split <;> simp [continue_count_append, continue_count]
      · rw [(cleanup_out_counts _ _).2.1, (free_loop_counts _ _).2,
          (clean_up_stale_tokens_counts _ _ _).2]
        split <;> simp [terminate_count_append, terminate_count]

end ChannelText

/-! # Theorems: typed lookups in an `a{sv}` map (dbus.c) -/

namespace TpAsv

/-- C24: for a map whose values lie in the ranges of their types,
`tp_asv_get_uint32` sets `*valid` to `TRUE` exactly when the key is present with a
value of type `uchar`, `int`, `uint`, `int64` or `uint64` whose integer `v`
satisfies `0 ≤ v ≤ 2^32 - 1`, and then returns `v`; in every other case it returns
0 with `*valid` `FALSE`. -/
theorem C24_get_uint32_is_exact (asv : List (String × GValue)) (key : String)
    (hrange : ∀ value, g_hash_table_lookup asv key = some value → value.in_range) :
    ((tp_asv_get_uint32 asv key).2 = true ↔
        ∃ value v, g_hash_table_lookup asv key = some value ∧ value.integer = some v
          ∧ 0 ≤ v ∧ v ≤ 4294967295)
    ∧ (∀ value v, g_hash_table_lookup asv key = some value → value.integer = some v →
        0 ≤ v → v ≤ 4294967295 → tp_asv_get_uint32 asv key = (v.toNat, true)
          ∧ ((tp_asv_get_uint32 asv key).1 : Int) = v)
    ∧ ((tp_asv_get_uint32 asv key).2 = false → tp_asv_get_uint32 asv key = (0, false)) := by
  cases hl : g_hash_table_lookup asv key with
  | none => simp [tp_asv_get_uint32, hl]
  | some value =>
    have hr := hrange value hl
    cases value with
    | uchar u =>
      simp only [GValue.in_range] at hr
      have hm : u % 4294967296 = u := by omega
      refine ⟨⟨fun _ => ⟨_, u, rfl, rfl, by omega, by omega⟩, fun _ => ?_⟩, ?_, ?_⟩
      · simp [tp_asv_get_uint32, hl, G_VALUE_TYPE]
      · intro value v hv hi h0 h1
        simp only [Option.some.injEq] at hv
        subst hv
        simp only [GValue.integer, Option.some.injEq] at hi
        subst hi
        simp [tp_asv_get_uint32, hl, G_VALUE_TYPE, g_value_get_uchar, hm]
      · simp [tp_asv_get_uint32, hl, G_VALUE_TYPE]
    | boolean b =>
      refine ⟨⟨fun h => ?_, fun ⟨value, v, hv, hi, _⟩ => ?_⟩, ?_, ?_⟩
      · simp [tp_asv_get_uint32, hl, G_VALUE_TYPE] at h
      · simp only [Option.some.injEq] at hv
        subst hv
        simp [GValue.integer] at hi
      · intro value v hv hi
        simp only [Option.some.injEq] at hv
        subst hv
        simp [GValue.integer] at hi
      · simp [tp_asv_get_uint32, hl, G_VALUE_TYPE]
    | int i =>
      simp only [GValue.in_range] at hr
      by_cases hneg : i < 0
      · refine ⟨⟨fun h => ?_, fun ⟨value, v, hv, hi, h0, _⟩ => ?_⟩, ?_, ?_⟩
        · simp [tp_asv_get_uint32, hl, G_VALUE_TYPE, g_value_get_int, hneg] at h
        · simp only [Option.some.injEq] at hv
          subst hv
          simp only [GValue.integer, Option.some.injEq] at hi
          omega
        · intro value v hv hi h0
          simp only [Option.some.injEq] at hv
          subst hv
          simp only [GValue.integer, Option.some.injEq] at hi
          omega
        · simp [tp_asv_get_uint32, hl, G_VALUE_TYPE, g_value_get_int, hneg]
      · have hm : i % 4294967296 = i := by omega
        refine ⟨⟨fun _ => ⟨_, i, rfl, rfl, by omega, by omega⟩, fun _ => ?_⟩, ?_, ?_⟩
        · simp [tp_asv_get_uint32, hl, G_VALUE_TYPE, g_value_get_int, hneg]
        · intro value v hv hi h0 h1
          simp only [Option.some.injEq] at hv
          subst hv
          simp only [GValue.integer, Option.some.injEq] at hi
          subst hi
          have hif : tp_asv_get_uint32 asv key = (i.toNat, true) := by
            simp [tp_asv_get_uint32, hl, G_VALUE_TYPE, g_value_get_int, hneg, hm]
          rw [hif]
          exact ⟨rfl, Int.toNat_of_nonneg h0⟩
        · simp [tp_asv_get_uint32, hl, G_VALUE_TYPE, g_value_get_int, hneg]
    | uint u =>
      simp only [GValue.in_range] at hr
      have hm : u % 4294967296 = u := by omega
      refine ⟨⟨fun _ => ⟨_, u, rfl, rfl, by omega, by omega⟩, fun _ => ?_⟩, ?_, ?_⟩
      · simp [tp_asv_get_uint32, hl, G_VALUE_TYPE]
      · intro value v hv hi h0 h1
        simp only [Option.some.injEq] at hv
        subst hv
        simp only [GValue.integer, Option.some.injEq] at hi
        subst hi
        simp [tp_asv_get_uint32, hl, G_VALUE_TYPE, g_value_get_uint, hm]
      · simp [tp_asv_get_uint32, hl, G_VALUE_TYPE]
    | int64 i =>
      simp only [GValue.in_range] at hr
      by_cases hout : i < 0 ∨ (4294967295 : Int) < i
      · refine ⟨⟨fun h => ?_, fun ⟨value, v, hv, hi, h0, h1⟩ => ?_⟩, ?_, ?_⟩
        · simp [tp_asv_get_uint32, hl, G_VALUE_TYPE, g_value_get_int64, G_MAXUINT32, hout] at h
        · simp only [Option.some.injEq] at hv
          subst hv
          simp only [GValue.integer, Option.some.injEq] at hi
          omega
        · intro value v hv hi h0 h1
          simp only [Option.some.injEq] at hv
          subst hv
          simp only [GValue.integer, Option.some.injEq] at hi
          omega
        · simp [tp_asv_get_uint32, hl, G_VALUE_TYPE, g_value_get_int64, G_MAXUINT32, hout]
      · have hm : i % 4294967296 = i := by omega
        refine ⟨⟨fun _ => ⟨_, i, rfl, rfl, by omega, by omega⟩, fun _ => ?_⟩, ?_, ?_⟩
        · simp [tp_asv_get_uint32, hl, G_VALUE_TYPE, g_value_get_int64, G_MAXUINT32, hout]
        · intro value v hv hi h0 h1
          simp only [Option.some.injEq] at hv
          subst hv
          simp only [GValue.integer, Option.some.injEq] at hi
          subst hi
          have hif : tp_asv_get_uint32 asv key = (i.toNat, true) := by
            simp [tp_asv_get_uint32, hl, G_VALUE_TYPE, g_value_get_int64, G_MAXUINT32, hout, hm]
          rw [hif]
          exact ⟨rfl, Int.toNat_of_nonneg h0⟩
        · simp [tp_asv_get_uint32, hl, G_VALUE_TYPE, g_value_get_int64, G_MAXUINT32, hout]
    | uint64 u =>
      by_cases hout : u > 4294967295
      · refine ⟨⟨fun h => ?_, fun ⟨value, v, hv, hi, h0, h1⟩ => ?_⟩, ?_, ?_⟩
        · simp [tp_asv_get_uint32, hl, G_VALUE_TYPE, g_value_get_uint64, G_MAXUINT32, hout] at h
        · simp only [Option.some.injEq] at hv
          subst hv
          simp only [GValue.integer, Option.some.injEq] at hi
          omega
        · intro value v hv hi h0 h1
          simp only [Option.some.injEq] at hv
          subst hv
          simp only [GValue.integer, Option.some.injEq] at hi
          omega
        · simp [tp_asv_get_uint32, hl, G_VALUE_TYPE, g_value_get_uint64, G_MAXUINT32, hout]
      · have hm : u % 4294967296 = u := by omega
        refine ⟨⟨fun _ => ⟨_, u, rfl, rfl, by omega, by omega⟩, fun _ => ?_⟩, ?_, ?_⟩
        · simp [tp_asv_get_uint32, hl, G_VALUE_TYPE, g_value_get_uint64, G_MAXUINT32, hout]
        · intro value v hv hi h0 h1
          simp only [Option.some.injEq] at hv
          subst hv
          simp only [GValue.integer, Option.some.injEq] at hi
          subst hi
          simp [tp_asv_get_uint32, hl, G_VALUE_TYPE, g_value_get_uint64, G_MAXUINT32, hout, hm]
        · simp [tp_asv_get_uint32, hl, G_VALUE_TYPE, g_value_get_uint64, G_MAXUINT32, hout]
    | double b =>
      refine ⟨⟨fun h => ?_, fun ⟨value, v, hv, hi, _⟩ => ?_⟩, ?_, ?_⟩
      · simp [tp_asv_get_uint32, hl, G_VALUE_TYPE] at h
      · simp only [Option.some.injEq] at hv
        subst hv
        simp [GValue.integer] at hi
      · intro value v hv hi
        simp only [Option.some.injEq] at hv
        subst hv
        simp [GValue.integer] at hi
      · simp [tp_asv_get_uint32, hl, G_VALUE_TYPE]
    | string b =>
      refine ⟨⟨fun h => ?_, fun ⟨value, v, hv, hi, _⟩ => ?_⟩, ?_, ?_⟩
      · simp [tp_asv_get_uint32, hl, G_VALUE_TYPE] at h
      · simp only [Option.some.injEq] at hv
        subst hv
        simp [GValue.integer] at hi
      · intro value v hv hi
        simp only [Option.some.injEq] at hv
        subst hv
        simp [GValue.integer] at hi
      · simp [tp_asv_get_uint32, hl, G_VALUE_TYPE]
    | other n d =>
      refine ⟨⟨fun h => ?_, fun ⟨value, v, hv, hi, _⟩ => ?_⟩, ?_, ?_⟩
      · simp [tp_asv_get_uint32, hl, G_VALUE_TYPE] at h
      · simp only [Option.some.injEq] at hv
        subst hv
        simp [GValue.integer] at hi
      · intro value v hv hi
        simp only [Option.some.injEq] at hv
        subst hv
        simp [GValue.integer] at hi
      · simp [tp_asv_get_uint32, hl, G_VALUE_TYPE]

/-- Witness of C24: `CallState` holds the `uint` 3; `Offset` holds a negative
`int64` and `Big` a `uint64` above 2^32 - 1. -/
theorem C24_get_uint32_is_exact_witness :
    (∀ value, g_hash_table_lookup call_properties "CallState" = some value → value.in_range)
    ∧ tp_asv_get_uint32 call_properties "CallState" = (3, true)
    ∧ tp_asv_get_uint32 call_properties "Offset" = (0, false)
    ∧ tp_asv_get_uint32 call_properties "Big" = (0, false)
    ∧ tp_asv_get_uint32 call_properties "Missing" = (0, false) := by
  have hl : g_hash_table_lookup call_properties "CallState" = some (GValue.uint 3) := by decide
  have hrange : ∀ value, g_hash_table_lookup call_properties "CallState" = some value →
      value.in_range := by
    intro value hv
    rw [hl] at hv
    cases hv
    exact (by decide : (3 : Nat) < 4294967296)
  exact ⟨hrange,
    ((C24_get_uint32_is_exact call_properties "CallState" hrange).2.1 (GValue.uint 3) 3 hl rfl
      (by decide) (by decide)).1,
    by decide, by decide, by decide⟩

/-- C25: `tp_asv_get_string` returns the stored string when the key holds a
string and `NULL` when the key is absent or holds a value of another type;
`tp_asv_get_boolean` returns the stored boolean with `*valid` `TRUE` when the key
holds a boolean and `FALSE` with `*valid` `FALSE` when the key is absent or holds
a value of another type. Both are total. -/
theorem C25_wrong_type_is_not_present (asv : List (String × GValue)) (key : String) :
    (∀ s, g_hash_table_lookup asv key = some (GValue.string s) → tp_asv_get_string asv key = s)
    ∧ (g_hash_table_lookup asv key = none → tp_asv_get_string asv key = none)
    ∧ (∀ value, g_hash_table_lookup asv key = some value →
        G_VALUE_TYPE value ≠ GType.G_TYPE_STRING → tp_asv_get_string asv key = none)
    ∧ (∀ b, g_hash_table_lookup asv key = some (GValue.boolean b) →
        tp_asv_get_boolean asv key = (b, true))
    ∧ (g_hash_table_lookup asv key = none → tp_asv_get_boolean asv key = (false, false))
    ∧ (∀ value, g_hash_table_lookup asv key = some value →
        G_VALUE_TYPE value ≠ GType.G_TYPE_BOOLEAN →
        tp_asv_get_boolean asv key = (false, false))
    ∧ ((tp_asv_get_boolean asv key).2 = true ↔
        ∃ b, g_hash_table_lookup asv key = some (GValue.boolean b))
    ∧ (∀ text, tp_asv_get_string asv key = some text →
        g_hash_table_lookup asv key = some (GValue.string (some text))) := by
  refine ⟨?_, ?_, ?_, ?_, ?_, ?_, ?_, ?_⟩
  · intro s h
    simp [tp_asv_get_string, h, G_VALUE_HOLDS_STRING, G_VALUE_TYPE, g_value_get_string]
  · intro h
    simp [tp_asv_get_string, h]
  · intro value h hne
    simp [tp_asv_get_string, h, G_VALUE_HOLDS_STRING, hne]
  · intro b h
    simp [tp_asv_get_boolean, h, G_VALUE_HOLDS_BOOLEAN, G_VALUE_TYPE, g_value_get_boolean]
  · intro h
    simp [tp_asv_get_boolean, h]
  · intro value h hne
    simp [tp_asv_get_boolean, h, G_VALUE_HOLDS_BOOLEAN, hne]
  · cases hl : g_hash_table_lookup asv key with
    | none => simp [tp_asv_get_boolean, hl]
    | some value =>
      cases value <;>
        simp [tp_asv_get_boolean, hl, G_VALUE_HOLDS_BOOLEAN, G_VALUE_TYPE]
  · intro text h
    cases hl : g_hash_table_lookup asv key with
    | none => simp [tp_asv_get_string, hl] at h
    | some value =>
      cases value <;>
        simp [tp_asv_get_string, hl, G_VALUE_HOLDS_STRING, G_VALUE_TYPE, g_value_get_string] at h
      rw [h]

/-- Witness of C25 on `call_properties`: a boolean read as a boolean and as a
string, a string read as a string and as a boolean. -/
theorem C25_wrong_type_is_not_present_witness :
    tp_asv_get_boolean call_properties "HardwareStreaming" = (true, true)
    ∧ tp_asv_get_string call_properties "HardwareStreaming" = none
    ∧ tp_asv_get_string call_properties "InitialTransport" = some ""
    ∧ tp_asv_get_boolean call_properties "InitialTransport" = (false, false) :=
  ⟨(C25_wrong_type_is_not_present call_properties "HardwareStreaming").2.2.2.1 true
      (by decide),
   (C25_wrong_type_is_not_present call_properties "HardwareStreaming").2.2.1
      (GValue.boolean true) (by decide) (by decide),
   (C25_wrong_type_is_not_present call_properties "InitialTransport").1 (some "") (by decide),
   (C25_wrong_type_is_not_present call_properties "InitialTransport").2.2.2.2.2.1
      (GValue.string (some "")) (by decide) (by decide)⟩

end TpAsv

/-! # Theorems: syntax checks for bus names and object paths (dbus.c) -/

namespace DBusCheck

open Tp

theorem split_on_ne_nil (sep : Nat) (s : List Nat) : split_on sep s ≠ [] := by
  cases s with
  | nil => simp [split_on]
  | cons c rest =>
    simp only [split_on]
    split <;> simp

theorem split_on_eq_cons (sep : Nat) (s : List Nat) :
    split_on sep s = (split_on sep s).headD [] :: (split_on sep s).tail := by
  cases h : split_on sep s with
  | nil => exact absurd h (split_on_ne_nil sep s)
  | cons e es => rfl

theorem split_on_length_pos (sep : Nat) (s : List Nat) : 1 ≤ (split_on sep s).length := by
  rw [split_on_eq_cons]
  simp

theorem isdigit_iff (c : Nat) : g_ascii_isdigit c = true ↔ (48 ≤ c ∧ c ≤ 57) := by
  simp [g_ascii_isdigit]

theorem isalpha_iff (c : Nat) :
    g_ascii_isalpha c = true ↔ ((65 ≤ c ∧ c ≤ 90) ∨ (97 ≤ c ∧ c ≤ 122)) := by
  simp [g_ascii_isalpha]

theorem name_char_iff (c : Nat) :
    name_char c = true ↔
      ((65 ≤ c ∧ c ≤ 90) ∨ (97 ≤ c ∧ c ≤ 122) ∨ (48 ≤ c ∧ c ≤ 57) ∨ c = 95 ∨ c = 45) := by
  simp [name_char, g_ascii_isalpha, g_ascii_isdigit, or_assoc]

theorem path_char_iff (c : Nat) :
    path_char c = true ↔
      ((65 ≤ c ∧ c ≤ 90) ∨ (97 ≤ c ∧ c ≤ 122) ∨ (48 ≤ c ∧ c ≤ 57) ∨ c = 95) := by
  simp [path_char, g_ascii_isalpha, g_ascii_isdigit, or_assoc]

theorem bus_name_loop_dot_stop (name : List Nat) (unique : Bool) (last : Nat) (dot : Bool)
    (r : List Nat) (h : last = 46 ∨ last = 0) :
    ∃ e, bus_name_loop name unique last dot (46 :: r) = Except.error e := by
  rcases h with h | h <;> subst h <;>
    simp [bus_name_loop, throw, throwThe, MonadExceptOf.throw]

theorem bus_name_loop_dot_go (name : List Nat) (unique : Bool) (last : Nat) (dot : Bool)
    (r : List Nat) (h1 : last ≠ 0) (h2 : last ≠ 46) :
    bus_name_loop name unique last dot (46 :: r) = bus_name_loop name unique 46 true r := by
  simp [bus_name_loop, h1, h2]

theorem bus_name_loop_digit_stop (name : List Nat) (last c : Nat) (dot : Bool)
    (r : List Nat) (hc : c ≠ 46) (hd : g_ascii_isdigit c = true) (h : last = 46 ∨ last = 0) :
    ∃ e, bus_name_loop name false last dot (c :: r) = Except.error e := by
  rcases h with h | h <;> subst h <;>
    simp [bus_name_loop, hc, hd, throw, throwThe, MonadExceptOf.throw]

theorem bus_name_loop_digit_go (name : List Nat) (unique : Bool) (last c : Nat) (dot : Bool)
    (r : List Nat) (hc : c ≠ 46) (hd : g_ascii_isdigit c = true)
    (h : unique = true ∨ (last ≠ 0 ∧ last ≠ 46)) :
    bus_name_loop name unique last dot (c :: r) = bus_name_loop name unique c dot r := by
  rcases h with h | h
  · simp [bus_name_loop, hc, hd, h]
  · simp [bus_name_loop, hc, hd, h.1, h.2]

theorem bus_name_loop_other_stop (name : List Nat) (unique : Bool) (last c : Nat) (dot : Bool)
    (r : List Nat) (hc : c ≠ 46) (hn : name_char c = false) :
    ∃ e, bus_name_loop name unique last dot (c :: r) = Except.error e := by
  simp only [name_char, Bool.or_eq_false_iff, decide_eq_false_iff_not] at hn
  obtain ⟨⟨⟨h1, h2⟩, h3⟩, h4⟩ := hn
  simp [bus_name_loop, hc, h1, h2, h3, h4, throw, throwThe, MonadExceptOf.throw]

theorem bus_name_loop_other_go (name : List Nat) (unique : Bool) (last c : Nat) (dot : Bool)
    (r : List Nat) (hc : c ≠ 46) (hd : g_ascii_isdigit c = false) (hn : name_char c = true) :
    bus_name_loop name unique last dot (c :: r) = bus_name_loop name unique c dot r := by
  simp only [name_char, hd, Bool.or_false, Bool.or_eq_true, decide_eq_true_eq] at hn
  simp only [bus_name_loop, hc, if_false, hd, Bool.false_eq_true]
  rcases hn with (h | h) | h
  · simp [h]
  · simp [h]
  · simp [h]

/-- What the loop of `tp_dbus_check_valid_bus_name` accepts: it ends without
error, not after a `'.'` and having seen a `'.'`, exactly when the bytes it reads
are acceptable in the sense of `rest_ok`. -/
theorem bus_name_loop_spec (name : List Nat) (unique : Bool) (rest : List Nat) :
    ∀ (last : Nat) (dot : Bool), (last = 0 → dot = false) →
      ((∃ l d, bus_name_loop name unique last dot rest = Except.ok (l, d) ∧ l ≠ 46 ∧ d = true)
        ↔ rest_ok unique (decide (last ≠ 0 ∧ last ≠ 46)) dot (split_on 46 rest)) := by
  induction rest with
  | nil =>
    intro last dot h0
    simp only [bus_name_loop, pure, Except.pure, Except.ok.injEq, Prod.mk.injEq, split_on,
      rest_ok, List.headD_cons, List.not_mem_nil, false_implies, implies_true, true_and,
      List.tail_cons, ne_eq, not_true_eq_false, false_and, or_false, decide_eq_true_eq,
      List.length_singleton]
    constructor
    · rintro ⟨l, d, ⟨h1, h2⟩, h3, h4⟩
      subst h1 h2
      refine ⟨⟨fun hz => ?_, h3⟩, Or.inl h4⟩
      rw [h0 hz] at h4
      cases h4
    · rintro ⟨⟨_, h3⟩, h4⟩
      rcases h4 with h4 | h4
      · exact ⟨last, dot, ⟨rfl, rfl⟩, h3, h4⟩
      · omega
  | cons c r ih =>
    intro last dot h0
    have hlen : (split_on 46 r).tail.length + 1 = (split_on 46 r).length := by
      conv_rhs => rw [split_on_eq_cons 46 r]
      simp
    have hmem : ∀ P : List Nat → Prop, (∀ e ∈ split_on 46 r, P e) ↔
        (P ((split_on 46 r).headD []) ∧ ∀ e ∈ (split_on 46 r).tail, P e) := by
      intro P
      conv_lhs => rw [split_on_eq_cons 46 r]
      simp
    by_cases hmid : last ≠ 0 ∧ last ≠ 46
    · -- inside an element
      have e2 : decide (last ≠ 0 ∧ last ≠ 46) = true := decide_eq_true hmid
      rw [e2]
      by_cases hc : c = 46
      · subst hc
        have hs : split_on 46 (46 :: r) = [] :: split_on 46 r := by simp [split_on]
        have e1 : decide ((46 : Nat) ≠ 0 ∧ (46 : Nat) ≠ 46) = false := by decide
        rw [bus_name_loop_dot_go name unique last dot r hmid.1 hmid.2,
          ih 46 true (by intro h; cases h), hs, e1]
        unfold rest_ok
        simp only [List.headD_cons, List.tail_cons, List.length_cons]
        rw [hmem (element_ok unique)]
        unfold element_ok
        constructor
        · rintro ⟨h1, h2, h3, _⟩
          rcases h2 with h2 | h2
          · cases h2
          · exact ⟨by simp, Or.inl trivial, ⟨⟨h2.1, h1, h2.2⟩, h3⟩, Or.inr (by omega)⟩
        · rintro ⟨_, _, ⟨⟨h2, h1, h4⟩, h3⟩, _⟩
          exact ⟨h1, Or.inr ⟨h2, h4⟩, h3, Or.inl trivial⟩
      · have hs : split_on 46 (c :: r)
            = (c :: (split_on 46 r).headD []) :: (split_on 46 r).tail := by
          simp [split_on, hc]
        by_cases hn : name_char c = true
        · have hgo : bus_name_loop name unique last dot (c :: r)
              = bus_name_loop name unique c dot r := by
            cases hd : g_ascii_isdigit c
            · exact bus_name_loop_other_go name unique last c dot r hc hd hn
            · exact bus_name_loop_digit_go name unique last c dot r hc hd (Or.inr hmid)
          have hc0 : c ≠ 0 := by
            intro h
            subst h
            simp [name_char, g_ascii_isalpha, g_ascii_isdigit] at hn
          have e3 : decide (c ≠ 0 ∧ c ≠ 46) = true := decide_eq_true ⟨hc0, hc⟩
          rw [hgo, ih c dot (fun h => absurd h hc0), hs, e3]
          unfold rest_ok
          simp only [List.headD_cons, List.tail_cons, List.length_cons, List.mem_cons,
            forall_eq_or_imp, hn, true_and, true_or]
          rw [hlen]
        · have hnf : name_char c = false := by
            cases h : name_char c
            · rfl
            · exact absurd h hn
          obtain ⟨e, he⟩ := bus_name_loop_other_stop name unique last c dot r hc hnf
          rw [he, hs]
          constructor
          · rintro ⟨l, d, h, _⟩
            cases h
          · intro h
            exact absurd (h.1 c (by simp)) hn
    · -- at the start of an element
      have e2 : decide (last ≠ 0 ∧ last ≠ 46) = false := decide_eq_false hmid
      have hlast : last = 46 ∨ last = 0 := by
        by_cases h46 : last = 46
        · exact Or.inl h46
        · right
          by_contra hne
          exact hmid ⟨hne, h46⟩
      rw [e2]
      by_cases hc : c = 46
      · subst hc
        have hs : split_on 46 (46 :: r) = [] :: split_on 46 r := by simp [split_on]
        obtain ⟨e, he⟩ := bus_name_loop_dot_stop name unique last dot r hlast
        rw [he, hs]
        constructor
        · rintro ⟨l, d, h, _⟩
          cases h
        · intro h
          rcases h.2.1 with h | h
          · cases h
          · exact absurd rfl h.1
      · have hs : split_on 46 (c :: r)
            = (c :: (split_on 46 r).headD []) :: (split_on 46 r).tail := by
          simp [split_on, hc]
        by_cases hn : name_char c = true
        · have hc0 : c ≠ 0 := by
            intro h
            subst h
            simp [name_char, g_ascii_isalpha, g_ascii_isdigit] at hn
          have e3 : decide (c ≠ 0 ∧ c ≠ 46) = true := decide_eq_true ⟨hc0, hc⟩
          by_cases hgo : unique = true ∨ g_ascii_isdigit c = false
          · have hloop : bus_name_loop name unique last dot (c :: r)
                = bus_name_loop name unique c dot r := by
              cases hd : g_ascii_isdigit c
              · exact bus_name_loop_other_go name unique last c dot r hc hd hn
              · rcases hgo with hu | hu
                · exact bus_name_loop_digit_go name unique last c dot r hc hd (Or.inl hu)
                · rw [hd] at hu
                  cases hu
            rw [hloop, ih c dot (fun h => absurd h hc0), hs, e3]
            unfold rest_ok
            simp only [List.headD_cons, List.tail_cons, List.length_cons, List.mem_cons,
              forall_eq_or_imp, hn, true_and, true_or, ne_eq, reduceCtorEq, not_false_eq_true,
              Bool.false_eq_true, false_or, hgo]
            rw [hlen]
          · have hu : unique = false := by
              cases unique
              · rfl
              · exact absurd (Or.inl rfl) hgo
            have hd : g_ascii_isdigit c = true := by
              cases h : g_ascii_isdigit c
              · exact absurd (Or.inr h) hgo
              · rfl
            subst hu
            obtain ⟨e, he⟩ := bus_name_loop_digit_stop name last c dot r hc hd hlast
            rw [he, hs]
            constructor
            · rintro ⟨l, d, h, _⟩
              cases h
            · intro h
              rcases h.2.1 with h | h
              · cases h
              · simp only [List.headD_cons, hd] at h
                rcases h.2 with h | h <;> cases h
        · have hnf : name_char c = false := by
            cases h : name_char c
            · rfl
            · exact absurd h hn
          obtain ⟨e, he⟩ := bus_name_loop_other_stop name unique last c dot r hc hnf
          rw [he, hs]
          constructor
          · rintro ⟨l, d, h, _⟩
            cases h
          · intro h
            exact absurd (h.1 c (by simp)) hn

/-- Every error the loop of `tp_dbus_check_valid_bus_name` sets is
`TP_DBUS_ERROR_INVALID_BUS_NAME`. -/
theorem bus_name_loop_error (name : List Nat) (unique : Bool) (rest : List Nat) :
    ∀ (last : Nat) (dot : Bool) (e : GError),
      bus_name_loop name unique last dot rest = Except.error e →
      e.domain = GQuark.TP_DBUS_ERRORS ∧ e.code = TP_DBUS_ERROR_INVALID_BUS_NAME := by
  induction rest with
  | nil =>
    intro last dot e h
    simp [bus_name_loop, pure, Except.pure] at h
  | cons c r ih =>
    intro last dot e h
    simp only [bus_name_loop] at h
    repeat' split at h
    all_goals
      first
        | exact ih _ _ e h
        | (simp only [throw, throwThe, MonadExceptOf.throw, Except.error.injEq] at h
           rw [← h]
           exact ⟨rfl, rfl⟩)

theorem rest_ok_at_start (unique : Bool) (body : List Nat) :
    rest_ok unique false false (split_on 46 body) ↔
      (2 ≤ (split_on 46 body).length ∧ ∀ e ∈ split_on 46 body, element_ok unique e) := by
  have hmem : (∀ e ∈ split_on 46 body, element_ok unique e) ↔
      (element_ok unique ((split_on 46 body).headD [])
        ∧ ∀ e ∈ (split_on 46 body).tail, element_ok unique e) := by
    conv_lhs => rw [split_on_eq_cons 46 body]
    simp
  rw [hmem]
  unfold rest_ok element_ok
  constructor
  · rintro ⟨h1, h2, h3, h4⟩
    rcases h2 with h2 | h2
    · cases h2
    · rcases h4 with h4 | h4
      · cases h4
      · exact ⟨h4, ⟨h2.1, h1, h2.2⟩, h3⟩
  · rintro ⟨h4, ⟨h2, h1, h5⟩, h3⟩
    exact ⟨h1, Or.inr ⟨h2, h5⟩, h3, Or.inr h4⟩

/-- The part of `tp_dbus_check_valid_bus_name` from the loop on. -/
theorem bus_name_tail (name body : List Nat) (unique : Bool) :
    ∃ r : Bool × Option GError,
      (match bus_name_loop name unique 0 false body with
        | Except.error e => (false, some e)
        | Except.ok (last, dot) =>
          if last = 46 then
            (false, some (invalid_bus_name
              ("Invalid bus name '" ++ text name ++ "': must not end with '.'")))
          else if !dot then
            (false, some (invalid_bus_name
              ("Invalid bus name '" ++ text name ++ "': must contain '.'")))
          else (true, none)) = r
      ∧ (r.1 = true ↔
          (2 ≤ (split_on 46 body).length ∧ ∀ e ∈ split_on 46 body, element_ok unique e))
      ∧ (r.1 = false → ∃ e, r.2 = some e ∧ e.domain = GQuark.TP_DBUS_ERRORS
          ∧ e.code = TP_DBUS_ERROR_INVALID_BUS_NAME)
      ∧ (r.1 = true → r.2 = none) := by
  refine ⟨_, rfl, ?_, ?_, ?_⟩
  · have hspec := bus_name_loop_spec name unique body 0 false (fun _ => rfl)
    have e0 : decide ((0 : Nat) ≠ 0 ∧ (0 : Nat) ≠ 46) = false := by decide
    rw [e0] at hspec
    rw [← rest_ok_at_start, ← hspec]
    cases h : bus_name_loop name unique 0 false body with
    | error e => simp
    | ok p =>
      obtain ⟨l, d⟩ := p
      by_cases hl : l = 46
      · simp [hl]
      · cases d <;> simp [hl]
  · cases h : bus_name_loop name unique 0 false body with
    | error e =>
      intro _
      exact ⟨e, rfl, bus_name_loop_error name unique body 0 false e h⟩
    | ok p =>
      obtain ⟨l, d⟩ := p
      by_cases hl : l = 46
      · intro _
        simp only [hl, if_true]
        exact ⟨_, rfl, rfl, rfl⟩
      · cases d
        · intro _
          simp only [hl, if_false, Bool.not_false, if_true]
          exact ⟨_, rfl, rfl, rfl⟩
        · simp [hl]
  · cases h : bus_name_loop name unique 0 false body with
    | error e => simp
    | ok p =>
      obtain ⟨l, d⟩ := p
      by_cases hl : l = 46
      · simp [hl]
      · cases d <;> simp [hl]

theorem element_ok_unique (e : List Nat) :
    element_ok true e ↔ (e ≠ [] ∧ ∀ c ∈ e, name_char c = true) := by
  simp [element_ok]

theorem element_ok_well_known (e : List Nat) :
    element_ok false e ↔
      (e ≠ [] ∧ (∀ c ∈ e, name_char c = true) ∧ g_ascii_isdigit (e.headD 0) = false) := by
  simp [element_ok]

/-- C22: `tp_dbus_check_valid_bus_name` returns `TRUE` exactly when the name is
`org.freedesktop.DBus` and the bus daemon is allowed, or the name is another
string of at most 255 bytes that has the syntax of a unique name with unique
names allowed or the syntax of a well-known name with well-known names allowed;
when it returns `FALSE` the error set is `TP_DBUS_ERROR_INVALID_BUS_NAME` of
`TP_DBUS_ERRORS`, and when it returns `TRUE` no error is set. -/
theorem C22_bus_name_is_valid_iff (name : List Nat) (allow_types : Nat) :
    ((tp_dbus_check_valid_bus_name name allow_types).1 = true ↔
        ((name = DBUS_SERVICE_DBUS ∧ allow_types &&& TP_DBUS_NAME_TYPE_BUS_DAEMON ≠ 0)
          ∨ (name ≠ DBUS_SERVICE_DBUS ∧ name.length ≤ 255
              ∧ ((allow_types &&& TP_DBUS_NAME_TYPE_UNIQUE ≠ 0 ∧ unique_syntax name)
                ∨ (allow_types &&& TP_DBUS_NAME_TYPE_WELL_KNOWN ≠ 0
                    ∧ well_known_syntax name)))))
    ∧ ((tp_dbus_check_valid_bus_name name allow_types).1 = false →
        ∃ e, (tp_dbus_check_valid_bus_name name allow_types).2 = some e
          ∧ e.domain = GQuark.TP_DBUS_ERRORS ∧ e.code = TP_DBUS_ERROR_INVALID_BUS_NAME)
    ∧ ((tp_dbus_check_valid_bus_name name allow_types).1 = true →
        (tp_dbus_check_valid_bus_name name allow_types).2 = none) := by
  have hbusne : DBUS_SERVICE_DBUS ≠ [] := by decide
  by_cases hnil : name = []
  · subst hnil
    have hres : tp_dbus_check_valid_bus_name [] allow_types
        = (false, some (invalid_bus_name "The empty string is not a valid bus name")) := by
      simp [tp_dbus_check_valid_bus_name]
    rw [hres]
    refine ⟨⟨(fun h => absurd h (by simp)), ?_⟩, fun _ => ⟨_, rfl, rfl, rfl⟩, (fun h => absurd h (by simp))⟩
    rintro (⟨h, _⟩ | ⟨_, _, ⟨_, h, _⟩ | ⟨_, _, h, _⟩⟩)
    · exact absurd h.symm hbusne
    · simp at h
    · simp [split_on] at h
  by_cases hbus : name = DBUS_SERVICE_DBUS
  · by_cases hflag : allow_types &&& TP_DBUS_NAME_TYPE_BUS_DAEMON ≠ 0
    · have hres : tp_dbus_check_valid_bus_name name allow_types = (true, none) := by
        simp [tp_dbus_check_valid_bus_name, hnil, hbus, hflag, hbusne]
      rw [hres]
      exact ⟨⟨fun _ => Or.inl ⟨hbus, hflag⟩, fun _ => rfl⟩, (fun h => absurd h (by simp)), fun _ => rfl⟩
    · have hres : tp_dbus_check_valid_bus_name name allow_types
          = (false, some (invalid_bus_name
              "The D-Bus daemon's bus name is not acceptable here")) := by
        simp [tp_dbus_check_valid_bus_name, hnil, hbus, hflag, hbusne]
      rw [hres]
      refine ⟨⟨(fun h => absurd h (by simp)), ?_⟩, fun _ => ⟨_, rfl, rfl, rfl⟩, (fun h => absurd h (by simp))⟩
      rintro (⟨_, h⟩ | ⟨h, _⟩)
      · exact absurd h hflag
      · exact absurd hbus h
  · by_cases hu : name.head? = some 58
    · -- the name starts with ':'
      have hwk : ¬ well_known_syntax name := fun h => h.1 hu
      by_cases hallow : allow_types &&& TP_DBUS_NAME_TYPE_UNIQUE = 0
      · have hres : tp_dbus_check_valid_bus_name name allow_types
            = (false, some (invalid_bus_name
                ("A well-known bus name not starting with ':'" ++
                  (if allow_types &&& TP_DBUS_NAME_TYPE_BUS_DAEMON ≠ 0 then
                    " (or the bus daemon itself)"
                   else "") ++ " is required"))) := by
          simp only [tp_dbus_check_valid_bus_name, hnil, if_false, hbus, hu, decide_True,
            hallow, and_self, if_true]
        rw [hres]
        refine ⟨⟨(fun h => absurd h (by simp)), ?_⟩, fun _ => ⟨_, rfl, rfl, rfl⟩, (fun h => absurd h (by simp))⟩
        rintro (⟨h, _⟩ | ⟨_, _, ⟨h, _⟩ | ⟨_, h⟩⟩)
        · exact absurd h hbus
        · exact absurd hallow h
        · exact absurd h hwk
      · by_cases hlen : name.length > 255
        · have hres : tp_dbus_check_valid_bus_name name allow_types
              = (false, some (invalid_bus_name
                  "Invalid bus name: too long (> 255 characters)")) := by
            simp only [tp_dbus_check_valid_bus_name, hnil, if_false, hbus, hu, decide_True,
              hallow, and_false, Bool.true_eq_false, false_and, hlen, if_true]
          rw [hres]
          refine ⟨⟨(fun h => absurd h (by simp)), ?_⟩, fun _ => ⟨_, rfl, rfl, rfl⟩, (fun h => absurd h (by simp))⟩
          rintro (⟨h, _⟩ | ⟨_, h, _⟩)
          · exact absurd h hbus
          · omega
        · obtain ⟨r, hr, h1, h2, h3⟩ := bus_name_tail name (name.drop 1) true
          have hres : tp_dbus_check_valid_bus_name name allow_types = r := by
            rw [← hr]
            simp only [tp_dbus_check_valid_bus_name, hnil, if_false, hbus, hu, decide_True,
              hallow, and_false, Bool.true_eq_false, false_and, hlen, if_true]
          rw [hres]
          refine ⟨?_, h2, h3⟩
          rw [h1]
          constructor
          · rintro ⟨g1, g2⟩
            exact Or.inr ⟨hbus, by omega,
              Or.inl ⟨hallow, hu, g1, fun e he => (element_ok_unique e).mp (g2 e he)⟩⟩
          · rintro (⟨h, _⟩ | ⟨_, _, ⟨_, _, g1, g2⟩ | ⟨_, h⟩⟩)
            · exact absurd h hbus
            · exact ⟨g1, fun e he => (element_ok_unique e).mpr (g2 e he)⟩
            · exact absurd h hwk
    · -- the name does not start with ':'
      have hun : ¬ unique_syntax name := fun h => hu h.1
      by_cases hallow : allow_types &&& TP_DBUS_NAME_TYPE_WELL_KNOWN = 0
      · have hres : tp_dbus_check_valid_bus_name name allow_types
            = (false, some (invalid_bus_name
                ("A unique bus name starting with ':'" ++
                  (if allow_types &&& TP_DBUS_NAME_TYPE_BUS_DAEMON ≠ 0 then
                    " (or the bus daemon itself)"
                   else "") ++ " is required"))) := by
          simp only [tp_dbus_check_valid_bus_name, hnil, if_false, hbus, hu, decide_False,
            Bool.false_eq_true, false_and, hallow, and_self, if_true]
        rw [hres]
        refine ⟨⟨(fun h => absurd h (by simp)), ?_⟩, fun _ => ⟨_, rfl, rfl, rfl⟩, (fun h => absurd h (by simp))⟩
        rintro (⟨h, _⟩ | ⟨_, _, ⟨_, h⟩ | ⟨h, _⟩⟩)
        · exact absurd h hbus
        · exact absurd h hun
        · exact absurd hallow h
      · by_cases hlen : name.length > 255
        · have hres : tp_dbus_check_valid_bus_name name allow_types
              = (false, some (invalid_bus_name
                  "Invalid bus name: too long (> 255 characters)")) := by
            simp only [tp_dbus_check_valid_bus_name, hnil, if_false, hbus, hu, decide_False,
              Bool.false_eq_true, false_and, hallow, and_false, hlen, if_true]
          rw [hres]
          refine ⟨⟨(fun h => absurd h (by simp)), ?_⟩, fun _ => ⟨_, rfl, rfl, rfl⟩, (fun h => absurd h (by simp))⟩
          rintro (⟨h, _⟩ | ⟨_, h, _⟩)
          · exact absurd h hbus
          · omega
        · obtain ⟨r, hr, h1, h2, h3⟩ := bus_name_tail name name false
          have hres : tp_dbus_check_valid_bus_name name allow_types = r := by
            rw [← hr]
            simp only [tp_dbus_check_valid_bus_name, hnil, if_false, hbus, hu, decide_False,
              Bool.false_eq_true, false_and, hallow, and_false, hlen]
          rw [hres]
          refine ⟨?_, h2, h3⟩
          rw [h1]
          constructor
          · rintro ⟨g1, g2⟩
            exact Or.inr ⟨hbus, by omega,
              Or.inr ⟨hallow, hu, g1, fun e he => (element_ok_well_known e).mp (g2 e he)⟩⟩
          · rintro (⟨h, _⟩ | ⟨_, _, ⟨_, h⟩ | ⟨_, _, g1, g2⟩⟩)
            · exact absurd h hbus
            · exact absurd h hun
            · exact ⟨g1, fun e he => (element_ok_well_known e).mpr (g2 e he)⟩

theorem object_path_loop_spec (path : List Nat) (rest : List Nat) :
    ∀ prev : Nat,
      ((∃ l, object_path_loop path prev rest = Except.ok l ∧ l ≠ 47)
        ↔ path_rest_ok (decide (prev ≠ 47)) (split_on 47 rest)) := by
  induction rest with
  | nil =>
    intro prev
    simp [object_path_loop, pure, Except.pure, split_on, path_rest_ok]
  | cons c r ih =>
    intro prev
    have hmem : ∀ P : List Nat → Prop, (∀ e ∈ split_on 47 r, P e) ↔
        (P ((split_on 47 r).headD []) ∧ ∀ e ∈ (split_on 47 r).tail, P e) := by
      intro P
      conv_lhs => rw [split_on_eq_cons 47 r]
      simp
    by_cases hc : c = 47
    · subst hc
      have hs : split_on 47 (47 :: r) = [] :: split_on 47 r := by simp [split_on]
      rw [hs]
      by_cases hp : prev = 47
      · subst hp
        have hloop : ∃ e, object_path_loop path 47 (47 :: r) = Except.error e := by
          simp [object_path_loop, throw, throwThe, MonadExceptOf.throw]
        obtain ⟨e, he⟩ := hloop
        rw [he]
        constructor
        · rintro ⟨l, h, _⟩
          cases h
        · intro h
          rcases h.2.1 with h | h
          · simp at h
          · exact absurd rfl h
      · have hloop : object_path_loop path prev (47 :: r) = object_path_loop path 47 r := by
          simp [object_path_loop, hp]
        have e1 : decide ((47 : Nat) ≠ 47) = false := by decide
        have e2 : decide (prev ≠ 47) = true := decide_eq_true hp
        rw [hloop, ih 47, e1, e2]
        unfold path_rest_ok
        simp only [List.headD_cons, List.tail_cons]
        rw [hmem segment_ok]
        unfold segment_ok
        constructor
        · rintro ⟨h1, h2, h3⟩
          rcases h2 with h2 | h2
          · cases h2
          · exact ⟨by simp, Or.inl trivial, ⟨h2, h1⟩, h3⟩
        · rintro ⟨_, _, ⟨h2, h1⟩, h3⟩
          exact ⟨h1, Or.inr h2, h3⟩
    · have hs : split_on 47 (c :: r)
          = (c :: (split_on 47 r).headD []) :: (split_on 47 r).tail := by
        simp [split_on, hc]
      rw [hs]
      by_cases hn : path_char c = true
      · have hloop : object_path_loop path prev (c :: r) = object_path_loop path c r := by
          have hn2 := hn
          simp only [path_char, Bool.or_eq_true, decide_eq_true_eq] at hn2
          simp only [object_path_loop, hc, if_false, g_ascii_isalnum]
          rcases hn2 with (h | h) | h
          · simp [h]
          · simp [h]
          · simp [h]
        have e3 : decide (c ≠ 47) = true := decide_eq_true hc
        rw [hloop, ih c, e3]
        unfold path_rest_ok
        simp only [List.headD_cons, List.tail_cons, List.mem_cons, forall_eq_or_imp, hn,
          true_and, true_or, ne_eq, reduceCtorEq, not_false_eq_true, or_true]
      · have hloop : ∃ e, object_path_loop path prev (c :: r) = Except.error e := by
          have hn2 : path_char c = false := by
            cases h : path_char c
            · rfl
            · exact absurd h hn
          simp only [path_char, Bool.or_eq_false_iff, decide_eq_false_iff_not] at hn2
          obtain ⟨⟨h1, h2⟩, h3⟩ := hn2
          simp [object_path_loop, hc, g_ascii_isalnum, h1, h2, h3, throw, throwThe,
            MonadExceptOf.throw]
        obtain ⟨e, he⟩ := hloop
        rw [he]
        constructor
        · rintro ⟨l, h, _⟩
          cases h
        · intro h
          exact absurd (h.1 c (by simp)) hn

/-- Every error the loop of `tp_dbus_check_valid_object_path` sets is
`TP_DBUS_ERROR_INVALID_OBJECT_PATH`. -/
theorem object_path_loop_error (path : List Nat) (rest : List Nat) :
    ∀ (prev : Nat) (e : GError), object_path_loop path prev rest = Except.error e →
      e.domain = GQuark.TP_DBUS_ERRORS ∧ e.code = TP_DBUS_ERROR_INVALID_OBJECT_PATH := by
  induction rest with
  | nil =>
    intro prev e h
    simp [object_path_loop, pure, Except.pure] at h
  | cons c r ih =>
    intro prev e h
    simp only [object_path_loop] at h
    repeat' split at h
    all_goals
      first
        | exact ih _ e h
        | (simp only [throw, throwThe, MonadExceptOf.throw, Except.error.injEq] at h
           rw [← h]
           exact ⟨rfl, rfl⟩)

/-- The segments of a path, each preceded by `'/'`, make up `'/'` followed by
the path's remaining bytes. -/
theorem path_of_split_on (body : List Nat) : path_of (split_on 47 body) = 47 :: body := by
  induction body with
  | nil => rfl
  | cons c r ih =>
    by_cases hc : c = 47
    · subst hc
      simp [split_on, path_of, ih]
    · have hs : split_on 47 (c :: r)
          = (c :: (split_on 47 r).headD []) :: (split_on 47 r).tail := by
        simp [split_on, hc]
      rw [split_on_eq_cons 47 r] at ih
      simp only [path_of, List.cons_append, List.cons.injEq, true_and] at ih
      rw [hs]
      simp only [path_of, List.cons_append, ih]

theorem split_on_no_sep (sep : Nat) (s : List Nat) (h : ∀ c ∈ s, c ≠ sep) :
    split_on sep s = [s] := by
  induction s with
  | nil => rfl
  | cons c r ih =>
    have hc : c ≠ sep := h c (List.mem_cons_self _ _)
    simp [split_on, hc, ih (fun x hx => h x (List.mem_cons_of_mem _ hx))]

theorem split_on_append (sep : Nat) (s t : List Nat) (h : ∀ c ∈ s, c ≠ sep) :
    split_on sep (s ++ sep :: t) = s :: split_on sep t := by
  induction s with
  | nil => simp [split_on]
  | cons c r ih =>
    have hc : c ≠ sep := h c (List.mem_cons_self _ _)
    simp [split_on, hc, ih (fun x hx => h x (List.mem_cons_of_mem _ hx))]

theorem segment_no_slash (s : List Nat) (h : segment_ok s) : ∀ c ∈ s, c ≠ 47 := by
  intro c hc h47
  subst h47
  have := h.2 47 hc
  simp [path_char, g_ascii_isalpha, g_ascii_isdigit] at this

/-- The bytes after the leading `'/'` of a path made of valid segments split
into those segments. -/
theorem split_on_path_of (segs : List (List Nat)) (hne : segs ≠ [])
    (hok : ∀ s ∈ segs, segment_ok s) :
    ∃ body, path_of segs = 47 :: body ∧ split_on 47 body = segs := by
  induction segs with
  | nil => exact absurd rfl hne
  | cons s rest ih =>
    have hs := hok s (List.mem_cons_self _ _)
    cases rest with
    | nil =>
      exact ⟨s, by simp [path_of], split_on_no_sep 47 s (segment_no_slash s hs)⟩
    | cons s2 rest2 =>
      obtain ⟨body2, h1, h2⟩ := ih (by simp) (fun x hx => hok x (List.mem_cons_of_mem _ hx))
      refine ⟨s ++ 47 :: body2, ?_, ?_⟩
      · simp only [path_of] at h1 ⊢
        rw [h1]
        rfl
      · rw [split_on_append 47 s body2 (segment_no_slash s hs), h2]

/-- C23: `tp_dbus_check_valid_object_path` returns `TRUE` exactly when the path is
`"/"` or consists of one or more segments, each a `'/'` followed by one or more
characters of `[A-Za-z0-9_]`; when it returns `FALSE` the error set is
`TP_DBUS_ERROR_INVALID_OBJECT_PATH` of `TP_DBUS_ERRORS`, and when it returns
`TRUE` no error is set. -/
theorem C23_object_path_is_valid_iff (path : List Nat) :
    ((tp_dbus_check_valid_object_path path).1 = true ↔
        (path = [47]
          ∨ ∃ segs, segs ≠ [] ∧ (∀ s ∈ segs, segment_ok s) ∧ path = path_of segs))
    ∧ ((tp_dbus_check_valid_object_path path).1 = false →
        ∃ e, (tp_dbus_check_valid_object_path path).2 = some e
          ∧ e.domain = GQuark.TP_DBUS_ERRORS ∧ e.code = TP_DBUS_ERROR_INVALID_OBJECT_PATH)
    ∧ ((tp_dbus_check_valid_object_path path).1 = true →
        (tp_dbus_check_valid_object_path path).2 = none) := by
  have hsegs : ∀ segs : List (List Nat), segs ≠ [] → (∀ s ∈ segs, segment_ok s) →
      ∃ body, path_of segs = 47 :: body ∧ body ≠ [] ∧ split_on 47 body = segs := by
    intro segs hne hok
    obtain ⟨body, h1, h2⟩ := split_on_path_of segs hne hok
    refine ⟨body, h1, ?_, h2⟩
    intro hb
    subst hb
    simp only [split_on] at h2
    have := hok [] (by rw [← h2]; simp)
    exact absurd rfl this.1
  cases path with
  | nil =>
    refine ⟨⟨(fun h => absurd h (by simp [tp_dbus_check_valid_object_path])), ?_⟩,
      fun _ => ⟨_, rfl, rfl, rfl⟩, (fun h => absurd h (by simp [tp_dbus_check_valid_object_path]))⟩
    rintro (h | ⟨segs, hne, hok, h⟩)
    · cases h
    · obtain ⟨body, h1, _⟩ := hsegs segs hne hok
      rw [h1] at h
      cases h
  | cons first rest =>
    by_cases hf : first = 47
    · subst hf
      by_cases hr : rest = []
      · subst hr
        exact ⟨⟨fun _ => Or.inl rfl, fun _ => by simp [tp_dbus_check_valid_object_path]⟩,
          (fun h => absurd h (by simp [tp_dbus_check_valid_object_path])),
          fun _ => by simp [tp_dbus_check_valid_object_path]⟩
      · have hspec := object_path_loop_spec (47 :: rest) rest 47
        have e1 : decide ((47 : Nat) ≠ 47) = false := by decide
        rw [e1] at hspec
        have hall : path_rest_ok false (split_on 47 rest) ↔
            ∀ e ∈ split_on 47 rest, segment_ok e := by
          conv_rhs => rw [split_on_eq_cons 47 rest]
          unfold path_rest_ok segment_ok
          simp only [List.mem_cons, forall_eq_or_imp, Bool.false_eq_true, false_or]
          constructor
          · rintro ⟨h1, h2, h3⟩
            exact ⟨⟨h2, h1⟩, h3⟩
          · rintro ⟨⟨h2, h1⟩, h3⟩
            exact ⟨h1, h2, h3⟩
        rw [hall] at hspec
        have hright : (∀ e ∈ split_on 47 rest, segment_ok e) ↔
            (47 :: rest = [47]
              ∨ ∃ segs, segs ≠ [] ∧ (∀ s ∈ segs, segment_ok s) ∧ 47 :: rest = path_of segs) := by
          constructor
          · intro h
            exact Or.inr ⟨split_on 47 rest, split_on_ne_nil 47 rest, h,
              (path_of_split_on rest).symm⟩
          · rintro (h | ⟨segs, hne, hok, h⟩)
            · simp only [List.cons.injEq, true_and] at h
              exact absurd h hr
            · obtain ⟨body, h1, _, h3⟩ := hsegs segs hne hok
              rw [h1] at h
              simp only [List.cons.injEq, true_and] at h
              rw [h, h3]
              exact hok
        rw [← hright, ← hspec]
        cases hl : object_path_loop (47 :: rest) 47 rest with
        | error e =>
          have hres : tp_dbus_check_valid_object_path (47 :: rest) = (false, some e) := by
            simp [tp_dbus_check_valid_object_path, hr, hl]
          rw [hres]
          exact ⟨⟨(fun h => absurd h (by simp)), fun ⟨l, h, _⟩ => by cases h⟩,
            fun _ => ⟨e, rfl, object_path_loop_error _ _ _ e hl⟩,
            (fun h => absurd h (by simp))⟩
        | ok l =>
          by_cases h47 : l = 47
          · have hres : tp_dbus_check_valid_object_path (47 :: rest)
                = (false, some (invalid_object_path
                    ("Invalid object path '" ++ text (47 :: rest) ++
                      "': is not '/' but does end with '/'"))) := by
              simp [tp_dbus_check_valid_object_path, hr, hl, h47]
            rw [hres]
            refine ⟨⟨(fun h => absurd h (by simp)), ?_⟩, fun _ => ⟨_, rfl, rfl, rfl⟩,
              (fun h => absurd h (by simp))⟩
            rintro ⟨l2, h, hne⟩
            simp only [Except.ok.injEq] at h
            exact absurd (h ▸ h47) hne
          · have hres : tp_dbus_check_valid_object_path (47 :: rest) = (true, none) := by
              simp [tp_dbus_check_valid_object_path, hr, hl, h47]
            rw [hres]
            exact ⟨⟨fun _ => ⟨l, rfl, h47⟩, fun _ => rfl⟩, (fun h => absurd h (by simp)),
              fun _ => rfl⟩
    · have hres : tp_dbus_check_valid_object_path (first :: rest)
          = (false, some (invalid_object_path
              ("Invalid object path '" ++ text (first :: rest) ++
                "': must start with '/'"))) := by
        simp [tp_dbus_check_valid_object_path, hf]
      rw [hres]
      refine ⟨⟨(fun h => absurd h (by simp)), ?_⟩, fun _ => ⟨_, rfl, rfl, rfl⟩,
        (fun h => absurd h (by simp))⟩
      rintro (h | ⟨segs, hne, hok, h⟩)
      · simp only [List.cons.injEq] at h
        exact absurd h.1 hf
      · obtain ⟨body, h1, _⟩ := hsegs segs hne hok
        rw [h1] at h
        simp only [List.cons.injEq] at h
        exact absurd h.1 hf

/-- Some names and the types they are accepted for (1: unique, 2: well-known,
4: the bus daemon). -/
theorem bus_name_examples :
    (tp_dbus_check_valid_bus_name (ascii "org.freedesktop.DBus") 4).1 = true
    ∧ (tp_dbus_check_valid_bus_name (ascii "org.freedesktop.DBus") 3).1 = false
    ∧ (tp_dbus_check_valid_bus_name (ascii ":1.42") 1).1 = true
    ∧ (tp_dbus_check_valid_bus_name (ascii ":1.42") 2).1 = false
    ∧ (tp_dbus_check_valid_bus_name (ascii "com.example.Svc") 2).1 = true
    ∧ (tp_dbus_check_valid_bus_name (ascii "com.7example") 2).1 = false
    ∧ (tp_dbus_check_valid_bus_name (ascii "com") 7).1 = false := by
  decide

/-- Some object paths. -/
theorem object_path_examples :
    (tp_dbus_check_valid_object_path (ascii "/")).1 = true
    ∧ (tp_dbus_check_valid_object_path (ascii "/a/b_1")).1 = true
    ∧ (tp_dbus_check_valid_object_path (ascii "/a//b")).1 = false
    ∧ (tp_dbus_check_valid_object_path (ascii "/a/")).1 = false
    ∧ (tp_dbus_check_valid_object_path (ascii "a")).1 = false
    ∧ (tp_dbus_check_valid_object_path (ascii "")).1 = false := by
  decide

end DBusCheck
